import Mathlib

/-!
The SPICE client channels: the cursor channel (`channel-cursor.c`), the
inputs channel (`channel-inputs.c`) and the control handlers common to all
channels (`channel-base.c`).

A shallow embedding of the cursor decode engine, of the cursor message
handlers, of the input coalescer, of the dispatch by message type and of the
control handlers, followed by the properties of the specification that
concern them.

Conventions of the embedding

* Memory is a list of bytes (`List Nat`, every read reduced modulo 256).  The
  `guint32 data[]` array of a `display_cursor` is kept as its `4 * width * height`
  bytes; 16 and 32 bit accesses are little endian, as on every Android target.
* `width`, `height` are `uint16_t` header fields promoted to `int`; the products
  `4 * width * height` and `width * height` are taken in `Nat`, which agrees
  with the C expressions while `4 * width * height` does not exceed `INT_MAX`
  (`size_in_int_range`); the properties that state the contents or the size of
  a decoded buffer carry that bound as a hypothesis.
* A C `for (i = 0; i < n; i++)` loop is `forLoop n body`, the loop variables
  that survive an iteration being threaded through as the state.
* A pointer that may be `NULL` is an `Option`.
* A read past the end of a list yields 0.  The C code does not check the
  payload length, so what it reads there is not determined by the message; a
  property whose conclusion depends on a byte of the payload has a hypothesis
  that puts that byte inside the payload.
* `g_return_if_fail` and `g_return_val_if_fail` return from the function when
  their condition fails (glib built without `G_DISABLE_CHECKS`).
* The pending motion `dx`, `dy` is an `int` that `spice_inputs_motion` adds
  to: the sum is reduced to the 32 bit two's complement range (`wrap_int`), as
  the targets of this client compute it.  The counter `motion_count` is kept
  as an integer without a bound, which agrees with the C `int` while the value
  stays within its range; the property on its order carries that range as a
  hypothesis.  Unsigned arithmetic is reduced modulo `2 ^ 32`.
* A function of the inputs channel returns the state afterwards and the list
  of the messages it sent, in order.
-/

namespace SpiceClient

/-! ## Memory -/

/-- The loop `for (i = 0; i < n; i++) s = body i s`. -/
def forLoop {σ : Type} : Nat → (Nat → σ → σ) → σ → σ
  | 0, _, s => s
  | n + 1, body, s => body n (forLoop n body s)

/-- The byte `data[k]` of a byte buffer. -/
def byteAt (data : List Nat) (k : Nat) : Nat := data.getD k 0 % 256

/-- The value `*((guint16*)data + i)`: little endian 16 bit load. -/
def load16 (data : List Nat) (i : Nat) : Nat :=
  byteAt data (2 * i) + 256 * byteAt data (2 * i + 1)

/-- The value `*((guint32*)(data + off) + i)`: little endian 32 bit load. -/
def load32 (data : List Nat) (off i : Nat) : Nat :=
  byteAt data (off + 4 * i) + 256 * byteAt data (off + 4 * i + 1)
    + 65536 * byteAt data (off + 4 * i + 2) + 16777216 * byteAt data (off + 4 * i + 3)

/-- The four byte stores `dest[0] = b0; dest[1] = b1; dest[2] = b2; dest[3] = b3`
where `dest` is `buf + d`. -/
def store4 (buf : List Nat) (d b0 b1 b2 b3 : Nat) : List Nat :=
  (((buf.set d (b0 % 256)).set (d + 1) (b1 % 256)).set (d + 2) (b2 % 256)).set (d + 3) (b3 % 256)

/-- The store `((guint32*)buf)[i] = v`: little endian 32 bit store. -/
def store32 (buf : List Nat) (i v : Nat) : List Nat :=
  store4 buf (4 * i) v (v / 256) (v / 65536) (v / 16777216)

/-- The call `spice_malloc(size)`: a block of `size` bytes whose contents are
whatever the allocator left there (`heap`). -/
def spice_malloc (heap : Nat → Nat) (size : Nat) : List Nat :=
  (List.range size).map (fun k => heap k % 256)

/-- The call `memcpy(dst, src, n)` for `n` not exceeding the size of `dst`. -/
def memcpy (dst src : List Nat) (n : Nat) : List Nat :=
  (List.range n).map (byteAt src) ++ dst.drop n

/-! ## Protocol constants and wire structures -/

/-- Modelled from the spec: the cursor flag `SPICE_CURSOR_FLAGS_NONE` of the
protocol header `spice/enums.h`, which is not among the sources. -/
def SPICE_CURSOR_FLAGS_NONE : Nat := 1

/-- Modelled from the spec: the cursor flag `SPICE_CURSOR_FLAGS_CACHE_ME` of the
protocol header `spice/enums.h`, which is not among the sources. -/
def SPICE_CURSOR_FLAGS_CACHE_ME : Nat := 2

/-- Modelled from the spec: the cursor flag `SPICE_CURSOR_FLAGS_FROM_CACHE` of the
protocol header `spice/enums.h`, which is not among the sources. -/
def SPICE_CURSOR_FLAGS_FROM_CACHE : Nat := 4

/-- Modelled from the spec: the cursor type `ALPHA` of `spice/enums.h`. -/
def SPICE_CURSOR_TYPE_ALPHA : Nat := 0

/-- Modelled from the spec: the cursor type `MONO` of `spice/enums.h`. -/
def SPICE_CURSOR_TYPE_MONO : Nat := 1

/-- Modelled from the spec: the cursor type `COLOR4` of `spice/enums.h`. -/
def SPICE_CURSOR_TYPE_COLOR4 : Nat := 2

/-- Modelled from the spec: the cursor type `COLOR16` of `spice/enums.h`. -/
def SPICE_CURSOR_TYPE_COLOR16 : Nat := 4

/-- Modelled from the spec: the cursor type `COLOR32` of `spice/enums.h`. -/
def SPICE_CURSOR_TYPE_COLOR32 : Nat := 6

/-- Modelled from the spec: the macro `SPICE_ALIGN(a, size)` of the common
headers, `((a) + ((size) - 1)) & ~((size) - 1)`, for `size` a power of two:
`a` rounded up to a multiple of `size`. -/
def SPICE_ALIGN (a size : Nat) : Nat :=
  (a + (size - 1)) - (a + (size - 1)) % size

/-- The wire structure `SpiceCursorHeader`. -/
structure SpiceCursorHeader where
  unique : Nat
  type : Nat
  width : Nat
  height : Nat
  hot_spot_x : Nat
  hot_spot_y : Nat
deriving DecidableEq, Repr

/-- The wire structure `SpiceCursor`: flags, header and the raw payload. -/
structure SpiceCursor where
  flags : Nat
  header : SpiceCursorHeader
  data_size : Nat
  data : List Nat
deriving DecidableEq, Repr

/-- The decoded cursor `struct display_cursor`; `data` holds the bytes of the
`guint32 data[]` array. -/
structure display_cursor where
  hdr : SpiceCursorHeader
  default_cursor : Bool
  data : List Nat
deriving DecidableEq, Repr

/-! ## Pixel decoders -/

/-- The loop variables of the inner loop of `mono_cursor`. -/
structure mono_row_state where
  buf : List Nat
  dest : Nat
  bit : Nat
deriving DecidableEq, Repr

/-- The loop variables of the outer loop of `mono_cursor`; `and` and `xor` are
offsets into the payload. -/
structure mono_state where
  buf : List Nat
  dest : Nat
  and : Nat
  xor : Nat
deriving DecidableEq, Repr

/-- The body of the inner loop of `mono_cursor`, for column `x`. -/
def mono_pixel (data : List Nat) (and xor x : Nat) (s : mono_row_state) : mono_row_state :=
  let buf :=
    if byteAt data (and + x / 8) &&& s.bit ≠ 0 then
      if byteAt data (xor + x / 8) &&& s.bit ≠ 0 then
        store4 s.buf s.dest 0x00 0x00 0x00 0x80
      else
        store4 s.buf s.dest 0x00 0x00 0x00 0x00
    else
      if byteAt data (xor + x / 8) &&& s.bit ≠ 0 then
        store4 s.buf s.dest 0xff 0xff 0xff 0xff
      else
        store4 s.buf s.dest 0x00 0x00 0x00 0xff
  let bit := s.bit >>> 1
  { buf := buf, dest := s.dest + 4, bit := if bit = 0 then 0x80 else bit }

/-- The body of the outer loop of `mono_cursor`: one row of pixels, then both
row pointers advance by `bpl`. -/
def mono_row (hdr : SpiceCursorHeader) (data : List Nat) (_y : Nat) (s : mono_state) :
    mono_state :=
  let bpl := (hdr.width + 7) / 8
  let r := forLoop hdr.width (mono_pixel data s.and s.xor)
    { buf := s.buf, dest := s.dest, bit := 0x80 }
  { buf := r.buf, dest := r.dest, and := s.and + bpl, xor := s.xor + bpl }

/-- The function `mono_cursor`: `cursor_data` is the freshly allocated
`cursor->data`, the result is that array after the two loops. -/
def mono_cursor (hdr : SpiceCursorHeader) (cursor_data data : List Nat) : List Nat :=
  let bpl := (hdr.width + 7) / 8
  (forLoop hdr.height (mono_row hdr data)
    { buf := cursor_data, dest := 0, and := 0, xor := bpl * hdr.height }).buf

/-- The function `get_pix_mask`; the result is a `guint8`. -/
def get_pix_mask (data : List Nat) (offset pix_index : Nat) : Nat :=
  byteAt data (offset + (pix_index >>> 3)) &&& (0x80 >>> (pix_index % 8))

/-- The function `get_pix_hack`. -/
def get_pix_hack (pix_index width : Nat) : Nat :=
  if ((pix_index % width) ^^^ (pix_index / width)) &&& 1 ≠ 0 then 0xc0303030 else 0x30505050

/-- The `SPICE_CURSOR_TYPE_COLOR32` case of `set_cursor`. -/
def color32_cursor (hdr : SpiceCursorHeader) (cursor_data data : List Nat) (size : Nat) :
    List Nat :=
  forLoop (hdr.width * hdr.height) (fun i buf =>
      let pix_mask := get_pix_mask data size i
      if pix_mask ≠ 0 ∧ load32 data 0 i = 0xffffff then
        store32 buf i (get_pix_hack i hdr.width)
      else
        store32 buf i (load32 buf 0 i ||| (if pix_mask ≠ 0 then 0 else 0xff000000)))
    (memcpy cursor_data data size)

/-- The `SPICE_CURSOR_TYPE_COLOR16` case of `set_cursor`. -/
def color16_cursor (hdr : SpiceCursorHeader) (cursor_data data : List Nat) (size : Nat) :
    List Nat :=
  forLoop (hdr.width * hdr.height) (fun i buf =>
      let pix_mask := get_pix_mask data size i
      let pix := load16 data i
      if pix_mask ≠ 0 ∧ pix = 0x7fff then
        store32 buf i (get_pix_hack i hdr.width)
      else
        store32 buf i (load32 buf 0 i |||
          (((pix &&& 0x1f) <<< 3) ||| ((pix &&& 0x3e0) <<< 6) |||
            ((pix &&& 0x7c00) <<< 9) ||| (if pix_mask ≠ 0 then 0 else 0xff000000))))
    cursor_data

/-- The `SPICE_CURSOR_TYPE_COLOR4` case of `set_cursor`. -/
def color4_cursor (hdr : SpiceCursorHeader) (cursor_data data : List Nat) : List Nat :=
  let size := (SPICE_ALIGN hdr.width 2 / 2) * hdr.height
  forLoop (hdr.width * hdr.height) (fun i buf =>
      let pix_mask := get_pix_mask data (size + (4 <<< 4)) i
      let idx :=
        if i &&& 1 ≠ 0 then byteAt data (i >>> 1) &&& 0x0f
        else (byteAt data (i >>> 1) &&& 0xf0) >>> 4
      let pix := load32 data size idx
      if pix_mask ≠ 0 ∧ pix = 0xffffff then
        store32 buf i (get_pix_hack i hdr.width)
      else
        store32 buf i (pix ||| (if pix_mask ≠ 0 then 0 else 0xff000000)))
    cursor_data

/-- The body of the final loop of `set_cursor`: `rgba[0]` and `rgba[2]` are
exchanged and `rgba` advances by one cell; the state is the buffer and the
offset of `rgba` in it. -/
def swap_step (_i : Nat) (s : List Nat × Nat) : List Nat × Nat :=
  let val := byteAt s.1 s.2
  let b1 := s.1.set s.2 (byteAt s.1 (s.2 + 2))
  let b2 := b1.set (s.2 + 2) val
  (b2, s.2 + 4)

/-- The final loop of `set_cursor` over `n` cells. -/
def swap_red_blue (n : Nat) (cursor_data : List Nat) : List Nat :=
  (forLoop n swap_step (cursor_data, 0)).1

/-! ## Resource cache -/

/-- Modelled from the spec: a cache entry of `spice-channel-cache.h` (not among
the sources), the pair of a server assigned id and the owned payload. -/
structure display_cache_item where
  id : Nat
  ptr : display_cursor
deriving DecidableEq, Repr

/-- Modelled from the spec: the resource cache of `spice-channel-cache.h` (not
among the sources), a keyed store with an LRU ordering that reflects insertion
and removal only.  The head of the list is the most recently added entry. -/
abbrev display_cache := List display_cache_item

/-- Modelled from the spec: `cache_init` of `spice-channel-cache.h`, the empty
cache. -/
def cache_init : display_cache := []

/-- Modelled from the spec: `find(key) -> Option<handle>` of the resource cache;
it does not alter the ordering. -/
def cache_find (cache : display_cache) (id : Nat) : Option display_cache_item :=
  cache.find? (fun item => item.id == id)

/-- Modelled from the spec: `add(key) -> fresh handle with caller-filled payload`
of the resource cache; the payload the caller stores through the handle is
passed along. -/
def cache_add (cache : display_cache) (id : Nat) (ptr : display_cursor) : display_cache :=
  { id := id, ptr := ptr } :: cache

/-- Modelled from the spec: `del(handle)` of the resource cache.  A handle is
the entry it refers to; keys being unique within one cache, erasing the entry
removes exactly that one. -/
def cache_del (cache : display_cache) (item : display_cache_item) : display_cache :=
  cache.erase item

/-- Modelled from the spec: `get_least_recently_used() -> Option<handle>` of the
resource cache. -/
def cache_get_lru (cache : display_cache) : Option display_cache_item :=
  cache.getLast?

/-! ## Cursor channel -/

/-- The private state `struct spice_cursor_channel`. -/
structure spice_cursor_channel where
  cursors : display_cache
  init_done : Bool
deriving DecidableEq, Repr

/-- The state left by `spice_cursor_channel_init`: zeroed, with an empty cache. -/
def spice_cursor_channel_init : spice_cursor_channel :=
  { cursors := cache_init, init_done := false }

/-- The function `set_cursor`.  The result is the returned pointer (`none` for
`NULL`) and the channel state afterwards; `heap` is the memory `spice_malloc`
hands out.  `size` and the loop bounds are `int` products in the source and
are taken in `Nat` here: the two agree on the headers of `size_in_int_range`. -/
def set_cursor (c : spice_cursor_channel) (scursor : SpiceCursor) (heap : Nat → Nat) :
    Option display_cursor × spice_cursor_channel :=
  let hdr := scursor.header
  if scursor.flags &&& SPICE_CURSOR_FLAGS_NONE ≠ 0 then (none, c)
  else if scursor.flags &&& SPICE_CURSOR_FLAGS_FROM_CACHE ≠ 0 then
    match cache_find c.cursors hdr.unique with
    | none => (none, c)
    | some item => (some item.ptr, c)
  else if scursor.data_size = 0 then (none, c)
  else
    let size := 4 * hdr.width * hdr.height
    let fresh := spice_malloc heap size
    let data := scursor.data
    let decoded : Option (List Nat) :=
      if hdr.type = SPICE_CURSOR_TYPE_MONO then some (mono_cursor hdr fresh data)
      else if hdr.type = SPICE_CURSOR_TYPE_ALPHA then some (memcpy fresh data size)
      else if hdr.type = SPICE_CURSOR_TYPE_COLOR32 then some (color32_cursor hdr fresh data size)
      else if hdr.type = SPICE_CURSOR_TYPE_COLOR16 then some (color16_cursor hdr fresh data size)
      else if hdr.type = SPICE_CURSOR_TYPE_COLOR4 then some (color4_cursor hdr fresh data)
      else none
    let cursor : display_cursor :=
      match decoded with
      | some pixels =>
        { hdr := hdr, default_cursor := false,
          data := swap_red_blue (hdr.width * hdr.height) pixels }
      | none => { hdr := hdr, default_cursor := true, data := fresh }
    if scursor.flags &&& SPICE_CURSOR_FLAGS_CACHE_ME ≠ 0 then
      (some cursor, { c with cursors := cache_add c.cursors hdr.unique cursor })
    else (some cursor, c)

/-- The function `delete_cursor_one` for a non-null `item`. -/
def delete_cursor_one (c : spice_cursor_channel) (item : display_cache_item) :
    spice_cursor_channel :=
  { c with cursors := cache_del c.cursors item }

/-- The function `delete_cursor_all`: `for (;;)` until `cache_get_lru` finds
nothing. -/
def delete_cursor_all (c : spice_cursor_channel) : spice_cursor_channel :=
  match h : cache_get_lru c.cursors with
  | none => c
  | some item =>
    have : (delete_cursor_one c item).cursors.length < c.cursors.length := by
      have hmem : item ∈ c.cursors := List.mem_of_getLast?_eq_some h
      have hpos : 0 < c.cursors.length := List.length_pos_of_mem hmem
      simp only [delete_cursor_one, cache_del, List.length_erase_of_mem hmem]
      omega
    delete_cursor_all (delete_cursor_one c item)
termination_by c.cursors.length

/-- The signals of the cursor channel with the arguments `do_emit_main_context`
passes on; `rgba` is `none` for a `NULL` pixel pointer. -/
inductive CursorSignal where
  | SPICE_CURSOR_SET (width height hot_spot_x hot_spot_y : Nat) (rgba : Option (List Nat))
  | SPICE_CURSOR_MOVE (x y : Int)
  | SPICE_CURSOR_HIDE
  | SPICE_CURSOR_RESET
deriving DecidableEq, Repr

/-- The wire structure `SpicePoint16`. -/
structure SpicePoint16 where
  x : Int
  y : Int
deriving DecidableEq, Repr

/-- The wire structure `SpiceMsgCursorInit`. -/
structure SpiceMsgCursorInit where
  position : SpicePoint16
  trail_length : Nat
  trail_frequency : Nat
  visible : Nat
  cursor : SpiceCursor
deriving DecidableEq, Repr

/-- The wire structure `SpiceMsgCursorSet`. -/
structure SpiceMsgCursorSet where
  position : SpicePoint16
  visible : Nat
  cursor : SpiceCursor
deriving DecidableEq, Repr

/-- The wire structure `SpiceMsgCursorMove`. -/
structure SpiceMsgCursorMove where
  position : SpicePoint16
deriving DecidableEq, Repr

/-- The function `emit_cursor_set`; `g_return_if_fail(cursor != NULL)` returns
without emitting. -/
def emit_cursor_set (cursor : Option display_cursor) : List CursorSignal :=
  match cursor with
  | none => []
  | some cursor =>
    [CursorSignal.SPICE_CURSOR_SET cursor.hdr.width cursor.hdr.height
      cursor.hdr.hot_spot_x cursor.hdr.hot_spot_y
      (if cursor.default_cursor then none else some cursor.data)]

/-- The handler `cursor_handle_init`: the channel state afterwards and the
signals emitted, in order. -/
def cursor_handle_init (c : spice_cursor_channel) (init : SpiceMsgCursorInit)
    (heap : Nat → Nat) : spice_cursor_channel × List CursorSignal :=
  if c.init_done ≠ false then (c, [])
  else
    let c1 := delete_cursor_all c
    let r := set_cursor c1 init.cursor heap
    let c2 := { r.2 with init_done := true }
    if init.visible ≠ 0 ∧ r.1.isSome then (c2, emit_cursor_set r.1)
    else (c2, [CursorSignal.SPICE_CURSOR_HIDE])

/-- The handler `cursor_handle_reset`. -/
def cursor_handle_reset (c : spice_cursor_channel) : spice_cursor_channel × List CursorSignal :=
  let c1 := delete_cursor_all c
  ({ c1 with init_done := false }, [CursorSignal.SPICE_CURSOR_RESET])

/-- The handler `cursor_handle_set`. -/
def cursor_handle_set (c : spice_cursor_channel) (set : SpiceMsgCursorSet)
    (heap : Nat → Nat) : spice_cursor_channel × List CursorSignal :=
  if c.init_done ≠ true then (c, [])
  else
    let r := set_cursor c set.cursor heap
    (r.2, emit_cursor_set r.1)

/-- The handler `cursor_handle_move`. -/
def cursor_handle_move (c : spice_cursor_channel) (move : SpiceMsgCursorMove) :
    spice_cursor_channel × List CursorSignal :=
  if c.init_done ≠ true then (c, [])
  else (c, [CursorSignal.SPICE_CURSOR_MOVE move.position.x move.position.y])

/-- The handler `cursor_handle_hide`; `EXTRA_CHECKS` tells whether the build
defines the preprocessor symbol of that name. -/
def cursor_handle_hide (EXTRA_CHECKS : Bool) (c : spice_cursor_channel) :
    spice_cursor_channel × List CursorSignal :=
  if EXTRA_CHECKS = true ∧ c.init_done ≠ true then (c, [])
  else (c, [CursorSignal.SPICE_CURSOR_HIDE])

/-- The handler `cursor_handle_trail`; past the check it only logs a warning. -/
def cursor_handle_trail (c : spice_cursor_channel) : spice_cursor_channel × List CursorSignal :=
  if c.init_done ≠ true then (c, [])
  else (c, [])

/-! ## Vocabulary of the specification -/

/-- The four bytes at offset `d` of a buffer. -/
def quad (buf : List Nat) (d : Nat) : Nat × Nat × Nat × Nat :=
  (byteAt buf d, byteAt buf (d + 1), byteAt buf (d + 2), byteAt buf (d + 3))

/-- The bytes `(b0, b1, b2, b3)` of cell `i` of a pixel buffer. -/
def cell (buf : List Nat) (i : Nat) : Nat × Nat × Nat × Nat := quad buf (4 * i)

/-- Bit `7 - x mod 8` (most significant bit first) of the byte at `off + x / 8`. -/
def msb_bit (data : List Nat) (off x : Nat) : Bool :=
  (byteAt data (off + x / 8)).testBit (7 - x % 8)

/-- The truth table of the specification for a Mono pixel with the given AND
and XOR bits. -/
def mono_cell (and xor : Bool) : Nat × Nat × Nat × Nat :=
  match and, xor with
  | true, true => (0x00, 0x00, 0x00, 0x80)
  | true, false => (0x00, 0x00, 0x00, 0x00)
  | false, true => (0xff, 0xff, 0xff, 0xff)
  | false, false => (0x00, 0x00, 0x00, 0xff)

/-- A cell with its red and blue bytes (bytes 0 and 2) exchanged. -/
def swap_cell (q : Nat × Nat × Nat × Nat) : Nat × Nat × Nat × Nat :=
  (q.2.2.1, q.2.1, q.1, q.2.2.2)

/-- Re-deriving the (AND, XOR) pair of a Mono pixel from its output cell: the
alpha byte tells the marker and the transparent cell apart from the opaque
ones, the colour bytes tell white from black. -/
def mono_masks_of_cell (q : Nat × Nat × Nat × Nat) : Bool × Bool :=
  if q.2.2.2 = 0x80 then (true, true)
  else if q.2.2.2 = 0x00 then (true, false)
  else if q.1 = 0xff then (false, true)
  else (false, false)

/-- The headers on which the sizes of `set_cursor` are computed without
overflow: `width` and `height` are `uint16_t` values and `4 * width * height`,
an `int` in the source, does not exceed `INT_MAX`. -/
def size_in_int_range (hdr : SpiceCursorHeader) : Prop :=
  hdr.width < 65536 ∧ hdr.height < 65536 ∧ 4 * hdr.width * hdr.height ≤ 2147483647

instance (hdr : SpiceCursorHeader) : Decidable (size_in_int_range hdr) := by
  unfold size_in_int_range; infer_instance

/-! ## Example inputs -/

/-- A 3 x 2 Mono cursor: AND rows `101`, `010`, XOR rows `110`, `001`. -/
def mono_example : SpiceCursor :=
  { flags := 0,
    header := { unique := 7, type := 1, width := 3, height := 2, hot_spot_x := 0, hot_spot_y := 0 },
    data_size := 4,
    data := [0xA0, 0x40, 0xC0, 0x20] }

/-- A Mono cursor that `set_cursor` decodes: neither `NONE` nor `FROM_CACHE`,
and a payload made of the AND bitmap followed by the XOR bitmap, each of
`(width + 7) / 8 * height` bytes. -/
def valid_mono (s : SpiceCursor) : Prop :=
  s.flags &&& SPICE_CURSOR_FLAGS_NONE = 0 ∧
  s.flags &&& SPICE_CURSOR_FLAGS_FROM_CACHE = 0 ∧
  s.header.type = SPICE_CURSOR_TYPE_MONO ∧
  s.data_size = s.data.length ∧
  s.data.length = 2 * ((s.header.width + 7) / 8 * s.header.height)

instance (s : SpiceCursor) : Decidable (valid_mono s) := by
  unfold valid_mono; infer_instance

/-- The AND bit of pixel `(x, y)` of a Mono payload. -/
def mono_and_bit (s : SpiceCursor) (x y : Nat) : Bool :=
  msb_bit s.data ((s.header.width + 7) / 8 * y) x

/-- The XOR bit of pixel `(x, y)` of a Mono payload. -/
def mono_xor_bit (s : SpiceCursor) (x y : Nat) : Bool :=
  msb_bit s.data ((s.header.width + 7) / 8 * s.header.height + (s.header.width + 7) / 8 * y) x

/-- The 3 x 2 Mono cursor `mono_example` with the XOR bit of pixel `(0, 0)` cleared. -/
def mono_example_2 : SpiceCursor :=
  { mono_example with data := [0xA0, 0x40, 0x40, 0x20] }

/-- The four bytes of a 32 bit value, least significant first. -/
def word_bytes (v : Nat) : Nat × Nat × Nat × Nat :=
  (v % 256, v / 256 % 256, v / 65536 % 256, v / 16777216 % 256)

/-- The 32 bit value of four bytes, least significant first. -/
def word_of_cell (q : Nat × Nat × Nat × Nat) : Nat :=
  q.1 + 256 * q.2.1 + 65536 * q.2.2.1 + 16777216 * q.2.2.2

/-- The value the Color32 loop body stores in cell `i`, both branches taken
together. -/
def color32_value (hdr : SpiceCursorHeader) (data : List Nat) (size i : Nat) (buf : List Nat) :
    Nat :=
  if get_pix_mask data size i ≠ 0 ∧ load32 data 0 i = 0xffffff then get_pix_hack i hdr.width
  else load32 buf 0 i ||| (if get_pix_mask data size i ≠ 0 then 0 else 0xff000000)

/-- A 4 x 1 Color32 cursor whose pixel 1 is `0xFFFFFF` with its mask bit set. -/
def color32_example : SpiceCursor :=
  { flags := 0,
    header := { unique := 9, type := 6, width := 4, height := 1, hot_spot_x := 0, hot_spot_y := 0 },
    data_size := 17,
    data := [1, 2, 3, 4, 0xff, 0xff, 0xff, 0, 5, 6, 7, 8, 9, 10, 11, 12, 0x40] }

/-- A 2 x 1 Color16 cursor with the pixels `0x0400` and `0x8000`; every byte
after the pixels is zero, so no mask bit is set. -/
def color16_example : SpiceCursor :=
  { flags := 0,
    header := { unique := 11, type := 4, width := 2, height := 1, hot_spot_x := 0, hot_spot_y := 0 },
    data_size := 9,
    data := [0x00, 0x04, 0x00, 0x80, 0, 0, 0, 0, 0] }

/-- A 2 x 1 Alpha cursor. -/
def alpha_example : SpiceCursor :=
  { flags := 0,
    header := { unique := 13, type := 0, width := 2, height := 1, hot_spot_x := 0, hot_spot_y := 0 },
    data_size := 8,
    data := [1, 2, 3, 4, 5, 6, 7, 8] }

/-- The palette index of pixel `(x, y)` of a Color4 cursor in the words of the
specification: rows of `(w + 1) / 2` bytes, one index per nibble, high nibble
first. -/
def color4_index_spec (data : List Nat) (w x y : Nat) : Nat :=
  if x % 2 = 0 then byteAt data (y * ((w + 1) / 2) + x / 2) / 16
  else byteAt data (y * ((w + 1) / 2) + x / 2) % 16

/-- A 1 x 2 Color4 cursor: row 0 is the byte `0x10` (index 1), row 1 the byte
`0x20` (index 2); the palette follows at offset 2 with entry 0 black, entry 1
`0x131211` and entry 2 `0x232221`; the mask byte at offset 66 is zero. -/
def color4_example : SpiceCursor :=
  { flags := 0,
    header := { unique := 15, type := 2, width := 1, height := 2, hot_spot_x := 0, hot_spot_y := 0 },
    data_size := 67,
    data := [0x10, 0x20] ++ [0, 0, 0, 0, 0x11, 0x12, 0x13, 0, 0x21, 0x22, 0x23, 0]
      ++ List.replicate 52 0 ++ [0] }

/-- A cursor with the `NONE` flag. -/
def none_cursor : SpiceCursor :=
  { flags := 1,
    header := { unique := 17, type := 0, width := 2, height := 1, hot_spot_x := 0, hot_spot_y := 0 },
    data_size := 0,
    data := [] }

/-- A cursor channel in the Ready state with an empty cache. -/
def ready_channel : spice_cursor_channel := { cursors := cache_init, init_done := true }

/-- A cursor channel in the Ready state whose cache holds the decoded
`alpha_example` under the id 13. -/
def cached_channel : spice_cursor_channel :=
  { cursors := cache_add cache_init 13
      { hdr := alpha_example.header, default_cursor := false,
        data := [3, 2, 1, 4, 7, 6, 5, 8] },
    init_done := true }

/-- A reference to the cursor cached under id 13, with `FROM_CACHE` and
`CACHE_ME` both set. -/
def from_cache_cursor : SpiceCursor :=
  { flags := 6,
    header := { unique := 13, type := 0, width := 2, height := 1, hot_spot_x := 0, hot_spot_y := 0 },
    data_size := 0,
    data := [] }

/-- An Init message that carries `alpha_example` and is not visible. -/
def hidden_init : SpiceMsgCursorInit :=
  { position := { x := 0, y := 0 }, trail_length := 0, trail_frequency := 0,
    visible := 0, cursor := alpha_example }

/-- The Alpha cursor `alpha_example` with the `CACHE_ME` flag. -/
def cache_me_example : SpiceCursor := { alpha_example with flags := 2 }

/-- A cursor of the unknown type 3 with the `CACHE_ME` flag. -/
def unknown_type_example : SpiceCursor :=
  { flags := 2,
    header := { unique := 19, type := 3, width := 2, height := 1, hot_spot_x := 1, hot_spot_y := 0 },
    data_size := 2,
    data := [0x12, 0x34] }

/-- A cursor with the flags `NONE`, `CACHE_ME` and `FROM_CACHE` all set and the
id 13 that `cached_channel` holds. -/
def none_all_flags_cursor : SpiceCursor := { from_cache_cursor with flags := 7 }

/-! ## Inputs channel (`channel-inputs.c`) -/

/-- Modelled from the spec: the connection state of a channel
(`Unconnected`, `Connecting`, `Ready`, terminal `Closed`); the enumeration of
`spice-channel-priv.h` is not among the sources. -/
inductive spice_channel_state where
  | SPICE_CHANNEL_STATE_UNCONNECTED
  | SPICE_CHANNEL_STATE_CONNECTING
  | SPICE_CHANNEL_STATE_READY
  | SPICE_CHANNEL_STATE_CLOSED
deriving DecidableEq, Repr

/-- Modelled from the spec: `SPICE_MOUSE_BUTTON_LEFT` of `spice/enums.h`. -/
def SPICE_MOUSE_BUTTON_LEFT : Nat := 1

/-- Modelled from the spec: `SPICE_MOUSE_BUTTON_MIDDLE` of `spice/enums.h`. -/
def SPICE_MOUSE_BUTTON_MIDDLE : Nat := 2

/-- Modelled from the spec: `SPICE_MOUSE_BUTTON_RIGHT` of `spice/enums.h`. -/
def SPICE_MOUSE_BUTTON_RIGHT : Nat := 3

/-- Modelled from the spec: `SPICE_MOUSE_BUTTON_MASK_LEFT` of `spice/enums.h`. -/
def SPICE_MOUSE_BUTTON_MASK_LEFT : Nat := 1

/-- Modelled from the spec: `SPICE_MOUSE_BUTTON_MASK_MIDDLE` of `spice/enums.h`. -/
def SPICE_MOUSE_BUTTON_MASK_MIDDLE : Nat := 2

/-- Modelled from the spec: `SPICE_MOUSE_BUTTON_MASK_RIGHT` of `spice/enums.h`. -/
def SPICE_MOUSE_BUTTON_MASK_RIGHT : Nat := 4

/-- The conversion of a `gint` to `unsigned int`: the value modulo `2 ^ 32`. -/
def to_unsigned (v : Int) : Nat := (v % 4294967296).toNat

/-- The value `-1` converted to `unsigned int`, the "no pending position"
mark that `mouse_position` compares `dpy` with. -/
def NO_DISPLAY : Nat := to_unsigned (-1)

/-- The private state `struct spice_inputs_channel`.  `dx`, `dy` and
`motion_count` are `int` and kept as integers (`dx`, `dy` within the `int`
range after every addition, `motion_count` without a bound); `bs`, a `gint`
used as a bit mask, is kept as its 32 bit pattern; `x`, `y`, `dpy` are
`unsigned int`. -/
structure spice_inputs_channel where
  bs : Nat
  dx : Int
  dy : Int
  x : Nat
  y : Nat
  dpy : Nat
  motion_count : Int
  modifiers : Int
  locks : Nat
deriving DecidableEq, Repr

/-- The state left by `spice_inputs_channel_init`: `memset(c, 0, sizeof(*c))`. -/
def spice_inputs_channel_init : spice_inputs_channel :=
  { bs := 0, dx := 0, dy := 0, x := 0, y := 0, dpy := 0, motion_count := 0,
    modifiers := 0, locks := 0 }

/-- The outbound messages of the inputs channel with the fields the code
fills in. -/
inductive InputsMsg where
  | MOUSE_MOTION (buttons_state : Nat) (dx dy : Int)
  | MOUSE_POSITION (buttons_state x y display_id : Nat)
  | MOUSE_PRESS (button buttons_state : Nat)
  | MOUSE_RELEASE (button buttons_state : Nat)
  | KEY_DOWN (code : Nat)
  | KEY_UP (code : Nat)
  | KEY_MODIFIERS (modifiers : Nat)
deriving DecidableEq, Repr

/-- The function `mouse_motion`: the message built (`none` for `NULL`) and the
state afterwards. -/
def mouse_motion (c : spice_inputs_channel) : Option InputsMsg × spice_inputs_channel :=
  if c.dx = 0 ∧ c.dy = 0 then (none, c)
  else
    (some (InputsMsg.MOUSE_MOTION c.bs c.dx c.dy),
      { c with motion_count := c.motion_count + 1, dx := 0, dy := 0 })

/-- The function `mouse_position`. -/
def mouse_position (c : spice_inputs_channel) : Option InputsMsg × spice_inputs_channel :=
  if c.dpy = NO_DISPLAY then (none, c)
  else
    (some (InputsMsg.MOUSE_POSITION c.bs c.x c.y c.dpy),
      { c with motion_count := c.motion_count + 1, dpy := NO_DISPLAY })

/-- The function `send_position`: the state afterwards and the messages sent. -/
def send_position (c : spice_inputs_channel) : spice_inputs_channel × List InputsMsg :=
  match mouse_position c with
  | (none, c1) => (c1, [])
  | (some msg, c1) => (c1, [msg])

/-- The function `send_motion`: the state afterwards and the messages sent. -/
def send_motion (c : spice_inputs_channel) : spice_inputs_channel × List InputsMsg :=
  match mouse_motion c with
  | (none, c1) => (c1, [])
  | (some msg, c1) => (c1, [msg])

/-- The handler `inputs_handle_ack`; `bunch` is the protocol constant
`SPICE_INPUT_MOTION_ACK_BUNCH`, whose header is not among the sources.  The
counter is an `int` in the source and is kept without a bound here: the two
agree while `motion_count - bunch` is not below `INT_MIN`. -/
def inputs_handle_ack (bunch : Int) (c : spice_inputs_channel) :
    spice_inputs_channel × List InputsMsg :=
  let c1 := { c with motion_count := c.motion_count - bunch }
  let m := mouse_motion c1
  let sent1 := match m.1 with
    | some msg => [msg]
    | none => []
  let p := mouse_position m.2
  let sent2 := match p.1 with
    | some msg => [msg]
    | none => []
  (p.2, sent1 ++ sent2)

/-- The value an `int` holds after an addition whose exact result is `v`: `v`
reduced modulo `2 ^ 32` to the range `-2 ^ 31 .. 2 ^ 31 - 1` (two's complement
wrap-around). -/
def wrap_int (v : Int) : Int := (v + 2147483648) % 4294967296 - 2147483648

/-- The function `spice_inputs_motion`; `state` is the connection state of the
channel, `bunch` the constant `SPICE_INPUT_MOTION_ACK_BUNCH`.  The additions
`c->dx += dx` and `c->dy += dy` are on `int`. -/
def spice_inputs_motion (bunch : Int) (state : spice_channel_state) (c : spice_inputs_channel)
    (dx dy : Int) (button_state : Nat) : spice_inputs_channel × List InputsMsg :=
  if state = spice_channel_state.SPICE_CHANNEL_STATE_UNCONNECTED then (c, [])
  else if state ≠ spice_channel_state.SPICE_CHANNEL_STATE_READY then (c, [])
  else
    let c1 := { c with bs := button_state, dx := wrap_int (c.dx + dx),
                       dy := wrap_int (c.dy + dy) }
    if c1.motion_count < bunch * 2 then send_motion c1
    else (c1, [])

/-- The function `spice_inputs_position`. -/
def spice_inputs_position (bunch : Int) (state : spice_channel_state)
    (c : spice_inputs_channel) (x y display : Int) (button_state : Nat) :
    spice_inputs_channel × List InputsMsg :=
  if state ≠ spice_channel_state.SPICE_CHANNEL_STATE_READY then (c, [])
  else
    let c1 := { c with bs := button_state, x := to_unsigned x, y := to_unsigned y,
                       dpy := to_unsigned display }
    if c1.motion_count < bunch * 2 then send_position c1
    else (c1, [])

/-- The function `spice_inputs_button_press`; `button` and `button_state` are
`gint` values kept as 32 bit patterns. -/
def spice_inputs_button_press (state : spice_channel_state) (c : spice_inputs_channel)
    (button button_state : Nat) : spice_inputs_channel × List InputsMsg :=
  if state ≠ spice_channel_state.SPICE_CHANNEL_STATE_READY then (c, [])
  else
    let button_state :=
      if button = SPICE_MOUSE_BUTTON_LEFT then button_state ||| SPICE_MOUSE_BUTTON_MASK_LEFT
      else if button = SPICE_MOUSE_BUTTON_MIDDLE then
        button_state ||| SPICE_MOUSE_BUTTON_MASK_MIDDLE
      else if button = SPICE_MOUSE_BUTTON_RIGHT then
        button_state ||| SPICE_MOUSE_BUTTON_MASK_RIGHT
      else button_state
    ({ c with bs := button_state }, [InputsMsg.MOUSE_PRESS button button_state])

/-- The function `spice_inputs_button_release`; `~mask` on a 32 bit pattern is
`0xffffffff - mask`. -/
def spice_inputs_button_release (state : spice_channel_state) (c : spice_inputs_channel)
    (button button_state : Nat) : spice_inputs_channel × List InputsMsg :=
  if state ≠ spice_channel_state.SPICE_CHANNEL_STATE_READY then (c, [])
  else
    let button_state :=
      if button = SPICE_MOUSE_BUTTON_LEFT then
        button_state &&& (0xffffffff - SPICE_MOUSE_BUTTON_MASK_LEFT)
      else if button = SPICE_MOUSE_BUTTON_MIDDLE then
        button_state &&& (0xffffffff - SPICE_MOUSE_BUTTON_MASK_MIDDLE)
      else if button = SPICE_MOUSE_BUTTON_RIGHT then
        button_state &&& (0xffffffff - SPICE_MOUSE_BUTTON_MASK_RIGHT)
      else button_state
    ({ c with bs := button_state }, [InputsMsg.MOUSE_RELEASE button button_state])

/-- The function `spice_inputs_key_press`; `scancode` is a `guint`, the shift
is taken modulo `2 ^ 32`. -/
def spice_inputs_key_press (state : spice_channel_state) (c : spice_inputs_channel)
    (scancode : Nat) : spice_inputs_channel × List InputsMsg :=
  if state = spice_channel_state.SPICE_CHANNEL_STATE_UNCONNECTED then (c, [])
  else if state ≠ spice_channel_state.SPICE_CHANNEL_STATE_READY then (c, [])
  else
    let code :=
      if scancode < 0x100 then scancode
      else 0xe0 ||| (((scancode - 0x100) <<< 8) % 4294967296)
    (c, [InputsMsg.KEY_DOWN code])

/-- The function `spice_inputs_key_release`. -/
def spice_inputs_key_release (state : spice_channel_state) (c : spice_inputs_channel)
    (scancode : Nat) : spice_inputs_channel × List InputsMsg :=
  if state = spice_channel_state.SPICE_CHANNEL_STATE_UNCONNECTED then (c, [])
  else if state ≠ spice_channel_state.SPICE_CHANNEL_STATE_READY then (c, [])
  else
    let code :=
      if scancode < 0x100 then scancode ||| 0x80
      else 0x80e0 ||| (((scancode - 0x100) <<< 8) % 4294967296)
    (c, [InputsMsg.KEY_UP code])

/-- An accumulator at the threshold for the bunch size 4: counter 8, both
slots empty. -/
def saturated_channel : spice_inputs_channel :=
  { spice_inputs_channel_init with dpy := NO_DISPLAY, motion_count := 8 }

/-- An accumulator with a pending motion `(3, -2)` and a pending position
`(10, 20)` on display 0, counter 9. -/
def pending_channel : spice_inputs_channel :=
  { bs := 1, dx := 3, dy := -2, x := 10, y := 20, dpy := 0, motion_count := 9,
    modifiers := 0, locks := 0 }

/-- A call of the public input functions on a Ready channel, or the arrival of
an ack-credit message. -/
inductive InputsEvent where
  | motion (dx dy : Int) (button_state : Nat)
  | position (x y display : Int) (button_state : Nat)
  | button_press (button button_state : Nat)
  | button_release (button button_state : Nat)
  | key_press (scancode : Nat)
  | key_release (scancode : Nat)
  | ack
deriving DecidableEq, Repr

/-- The effect of one event on a Ready channel. -/
def inputs_step (bunch : Int) (c : spice_inputs_channel) :
    InputsEvent → spice_inputs_channel × List InputsMsg
  | InputsEvent.motion dx dy bs =>
    spice_inputs_motion bunch spice_channel_state.SPICE_CHANNEL_STATE_READY c dx dy bs
  | InputsEvent.position x y display bs =>
    spice_inputs_position bunch spice_channel_state.SPICE_CHANNEL_STATE_READY c x y display bs
  | InputsEvent.button_press button bs =>
    spice_inputs_button_press spice_channel_state.SPICE_CHANNEL_STATE_READY c button bs
  | InputsEvent.button_release button bs =>
    spice_inputs_button_release spice_channel_state.SPICE_CHANNEL_STATE_READY c button bs
  | InputsEvent.key_press scancode =>
    spice_inputs_key_press spice_channel_state.SPICE_CHANNEL_STATE_READY c scancode
  | InputsEvent.key_release scancode =>
    spice_inputs_key_release spice_channel_state.SPICE_CHANNEL_STATE_READY c scancode
  | InputsEvent.ack => inputs_handle_ack bunch c

/-- The effect of a sequence of events: the final state and all messages sent,
in order. -/
def inputs_run (bunch : Int) : spice_inputs_channel → List InputsEvent →
    spice_inputs_channel × List InputsMsg
  | c, [] => (c, [])
  | c, e :: es =>
    ((inputs_run bunch (inputs_step bunch c e).1 es).1,
      (inputs_step bunch c e).2 ++ (inputs_run bunch (inputs_step bunch c e).1 es).2)

/-- A sequence of `spice_inputs_motion` calls, each given as `(dx, dy, bs)`. -/
def motion_events (calls : List (Int × Int × Nat)) : List InputsEvent :=
  calls.map (fun p => InputsEvent.motion p.1 p.2.1 p.2.2)

/-- A sequence of `spice_inputs_position` calls, each given as
`(x, y, display, bs)`. -/
def position_events (calls : List (Int × Int × Int × Nat)) : List InputsEvent :=
  calls.map (fun p => InputsEvent.position p.1 p.2.1 p.2.2.1 p.2.2.2)

/-- A mixed sequence of calls and ack-credit messages. -/
def events_example : List InputsEvent :=
  [InputsEvent.motion 1 1 0, InputsEvent.position 3 4 0 0, InputsEvent.motion 2 0 1,
   InputsEvent.button_press 1 0, InputsEvent.motion 1 0 1, InputsEvent.motion 1 0 1,
   InputsEvent.motion 1 0 1, InputsEvent.position 5 5 0 1, InputsEvent.position 6 5 0 1,
   InputsEvent.position 7 5 0 1, InputsEvent.motion 1 0 1, InputsEvent.key_press 0x1c,
   InputsEvent.ack, InputsEvent.key_release 0x1c, InputsEvent.button_release 1 1]

/-- Three motion calls, the last with the button mask 5. -/
def motion_calls_example : List (Int × Int × Nat) := [(3, -1, 0), (4, 2, 1), (-2, 2, 5)]

/-- Three position calls on display 0, the last at `(7, 9)` with the button
mask 1. -/
def position_calls_example : List (Int × Int × Int × Nat) :=
  [(1, 2, 0, 0), (4, 4, 0, 0), (7, 9, 0, 1)]

/-- The mask bit the button functions pair with a button: LEFT, MIDDLE and
RIGHT have one each, any other button has none. -/
def button_mask (button : Nat) : Nat :=
  if button = SPICE_MOUSE_BUTTON_LEFT then SPICE_MOUSE_BUTTON_MASK_LEFT
  else if button = SPICE_MOUSE_BUTTON_MIDDLE then SPICE_MOUSE_BUTTON_MASK_MIDDLE
  else if button = SPICE_MOUSE_BUTTON_RIGHT then SPICE_MOUSE_BUTTON_MASK_RIGHT
  else 0

/-! ## Cursor invalidation, handler tables and dispatch -/

/-- The handler `cursor_handle_inval_one`.  The result is `none` when the
handler does not return: `cache_find` found nothing and `delete_cursor_one`
reads `item->ptr` through the `NULL` pointer. -/
def cursor_handle_inval_one (c : spice_cursor_channel) (id : Nat) :
    Option (spice_cursor_channel × List CursorSignal) :=
  if c.init_done ≠ true then some (c, [])
  else
    match cache_find c.cursors id with
    | none => none
    | some item => some (delete_cursor_one c item, [])

/-- The handler `cursor_handle_inval_all`. -/
def cursor_handle_inval_all (c : spice_cursor_channel) :
    spice_cursor_channel × List CursorSignal :=
  (delete_cursor_all c, [])

/-- Modelled from the spec: `SPICE_MIGRATE_NEED_FLUSH` of `spice/enums.h`. -/
def SPICE_MIGRATE_NEED_FLUSH : Nat := 1

/-- Modelled from the spec: `SPICE_MIGRATE_NEED_DATA_TRANSFER` of
`spice/enums.h`. -/
def SPICE_MIGRATE_NEED_DATA_TRANSFER : Nat := 2

/-- Modelled from the spec: the inbound message type `SPICE_MSG_MIGRATE` of
`spice/enums.h`. -/
def SPICE_MSG_MIGRATE : Nat := 1

/-- Modelled from the spec: the inbound message type `SPICE_MSG_MIGRATE_DATA`. -/
def SPICE_MSG_MIGRATE_DATA : Nat := 2

/-- Modelled from the spec: the inbound message type `SPICE_MSG_SET_ACK`. -/
def SPICE_MSG_SET_ACK : Nat := 3

/-- Modelled from the spec: the inbound message type `SPICE_MSG_PING`. -/
def SPICE_MSG_PING : Nat := 4

/-- Modelled from the spec: the inbound message type
`SPICE_MSG_WAIT_FOR_CHANNELS`. -/
def SPICE_MSG_WAIT_FOR_CHANNELS : Nat := 5

/-- Modelled from the spec: the inbound message type `SPICE_MSG_DISCONNECTING`. -/
def SPICE_MSG_DISCONNECTING : Nat := 6

/-- Modelled from the spec: the inbound message type `SPICE_MSG_NOTIFY`. -/
def SPICE_MSG_NOTIFY : Nat := 7

/-- Modelled from the spec: the inbound message type `SPICE_MSG_CURSOR_INIT`. -/
def SPICE_MSG_CURSOR_INIT : Nat := 101

/-- Modelled from the spec: the inbound message type `SPICE_MSG_CURSOR_RESET`. -/
def SPICE_MSG_CURSOR_RESET : Nat := 102

/-- Modelled from the spec: the inbound message type `SPICE_MSG_CURSOR_SET`. -/
def SPICE_MSG_CURSOR_SET : Nat := 103

/-- Modelled from the spec: the inbound message type `SPICE_MSG_CURSOR_MOVE`. -/
def SPICE_MSG_CURSOR_MOVE : Nat := 104

/-- Modelled from the spec: the inbound message type `SPICE_MSG_CURSOR_HIDE`. -/
def SPICE_MSG_CURSOR_HIDE : Nat := 105

/-- Modelled from the spec: the inbound message type `SPICE_MSG_CURSOR_TRAIL`. -/
def SPICE_MSG_CURSOR_TRAIL : Nat := 106

/-- Modelled from the spec: the inbound message type
`SPICE_MSG_CURSOR_INVAL_ONE`. -/
def SPICE_MSG_CURSOR_INVAL_ONE : Nat := 107

/-- Modelled from the spec: the inbound message type
`SPICE_MSG_CURSOR_INVAL_ALL`. -/
def SPICE_MSG_CURSOR_INVAL_ALL : Nat := 108

/-- Modelled from the spec: the inbound message type `SPICE_MSG_INPUTS_INIT`. -/
def SPICE_MSG_INPUTS_INIT : Nat := 101

/-- Modelled from the spec: the inbound message type
`SPICE_MSG_INPUTS_KEY_MODIFIERS`. -/
def SPICE_MSG_INPUTS_KEY_MODIFIERS : Nat := 102

/-- Modelled from the spec: the inbound message type
`SPICE_MSG_INPUTS_MOUSE_MOTION_ACK`. -/
def SPICE_MSG_INPUTS_MOUSE_MOTION_ACK : Nat := 111

/-- Modelled from the spec: `SPICE_NOTIFY_SEVERITY_ERROR` of `spice/enums.h`,
the last of info, warn, error. -/
def SPICE_NOTIFY_SEVERITY_ERROR : Nat := 2

/-- Modelled from the spec: `SPICE_NOTIFY_VISIBILITY_HIGH` of `spice/enums.h`,
the last of low, medium, high. -/
def SPICE_NOTIFY_VISIBILITY_HIGH : Nat := 2

/-- The functions a handler table refers to. -/
inductive spice_msg_handler where
  | spice_channel_handle_set_ack
  | spice_channel_handle_ping
  | spice_channel_handle_notify
  | spice_channel_handle_disconnect
  | spice_channel_handle_wait_for_channels
  | spice_channel_handle_migrate
  | cursor_handle_init
  | cursor_handle_reset
  | cursor_handle_set
  | cursor_handle_move
  | cursor_handle_hide
  | cursor_handle_trail
  | cursor_handle_inval_one
  | cursor_handle_inval_all
  | inputs_handle_init
  | inputs_handle_modifiers
  | inputs_handle_ack
deriving DecidableEq, Repr

/-- An array given by designated initializers `[ index ] = handler`: as long as
the largest index plus one, `NULL` (`none`) in every slot not named. -/
def designated_array (entries : List (Nat × spice_msg_handler)) :
    List (Option spice_msg_handler) :=
  (List.range (entries.foldl (fun n e => max n (e.1 + 1)) 0)).map
    (fun i => (entries.find? (fun e => e.1 == i)).map (fun e => e.2))

/-- The table `cursor_handlers`. -/
def cursor_handlers : List (Option spice_msg_handler) :=
  designated_array
    [(SPICE_MSG_SET_ACK, spice_msg_handler.spice_channel_handle_set_ack),
     (SPICE_MSG_PING, spice_msg_handler.spice_channel_handle_ping),
     (SPICE_MSG_NOTIFY, spice_msg_handler.spice_channel_handle_notify),
     (SPICE_MSG_DISCONNECTING, spice_msg_handler.spice_channel_handle_disconnect),
     (SPICE_MSG_WAIT_FOR_CHANNELS, spice_msg_handler.spice_channel_handle_wait_for_channels),
     (SPICE_MSG_MIGRATE, spice_msg_handler.spice_channel_handle_migrate),
     (SPICE_MSG_CURSOR_INIT, spice_msg_handler.cursor_handle_init),
     (SPICE_MSG_CURSOR_RESET, spice_msg_handler.cursor_handle_reset),
     (SPICE_MSG_CURSOR_SET, spice_msg_handler.cursor_handle_set),
     (SPICE_MSG_CURSOR_MOVE, spice_msg_handler.cursor_handle_move),
     (SPICE_MSG_CURSOR_HIDE, spice_msg_handler.cursor_handle_hide),
     (SPICE_MSG_CURSOR_TRAIL, spice_msg_handler.cursor_handle_trail),
     (SPICE_MSG_CURSOR_INVAL_ONE, spice_msg_handler.cursor_handle_inval_one),
     (SPICE_MSG_CURSOR_INVAL_ALL, spice_msg_handler.cursor_handle_inval_all)]

/-- The table `inputs_handlers`. -/
def inputs_handlers : List (Option spice_msg_handler) :=
  designated_array
    [(SPICE_MSG_SET_ACK, spice_msg_handler.spice_channel_handle_set_ack),
     (SPICE_MSG_PING, spice_msg_handler.spice_channel_handle_ping),
     (SPICE_MSG_NOTIFY, spice_msg_handler.spice_channel_handle_notify),
     (SPICE_MSG_DISCONNECTING, spice_msg_handler.spice_channel_handle_disconnect),
     (SPICE_MSG_WAIT_FOR_CHANNELS, spice_msg_handler.spice_channel_handle_wait_for_channels),
     (SPICE_MSG_MIGRATE, spice_msg_handler.spice_channel_handle_migrate),
     (SPICE_MSG_INPUTS_INIT, spice_msg_handler.inputs_handle_init),
     (SPICE_MSG_INPUTS_KEY_MODIFIERS, spice_msg_handler.inputs_handle_modifiers),
     (SPICE_MSG_INPUTS_MOUSE_MOTION_ACK, spice_msg_handler.inputs_handle_ack)]

/-- The body shared by `spice_cursor_handle_msg` and `spice_inputs_handle_msg`
for the table `handlers`.  `type` is the `int` tag of the message; the first
check compares it with the `size_t` count of the table, that is after
conversion to unsigned.  `invoke h s` is the effect on the state `s` of calling
the handler `h` with the message. -/
def handle_msg {σ : Type} (handlers : List (Option spice_msg_handler))
    (invoke : spice_msg_handler → σ → σ) (s : σ) (type : Int) : σ :=
  if ¬ (to_unsigned type < handlers.length) then s
  else
    match handlers.getD (to_unsigned type) none with
    | none => s
    | some h => invoke h s

/-- The function `spice_cursor_handle_msg`. -/
def spice_cursor_handle_msg {σ : Type} (invoke : spice_msg_handler → σ → σ) (s : σ)
    (type : Int) : σ :=
  handle_msg cursor_handlers invoke s type

/-- The function `spice_inputs_handle_msg`. -/
def spice_inputs_handle_msg {σ : Type} (invoke : spice_msg_handler → σ → σ) (s : σ)
    (type : Int) : σ :=
  handle_msg inputs_handlers invoke s type

/-! ## Channel control handlers (`channel-base.c`) -/

/-- The fields of the private state `struct spice_channel` that the control
handlers use; the structure is declared in `spice-channel-priv.h`, which is
not among the sources. -/
structure spice_channel where
  state : spice_channel_state
  message_ack_window : Nat
  message_ack_count : Nat
deriving DecidableEq, Repr

/-- An inbound message `spice_msg_in`: the type and size of its header, its
data bytes, and `dpos`, the count of data bytes received. -/
structure spice_msg_in where
  type : Nat
  size : Nat
  data : List Nat
  dpos : Int
deriving DecidableEq, Repr

/-- The parsed message `SpiceMsgSetAck`. -/
structure SpiceMsgSetAck where
  generation : Nat
  window : Nat
deriving DecidableEq, Repr

/-- The parsed message `SpiceMsgNotify`, its trailing text left out. -/
structure SpiceMsgNotify where
  time_stamp : Nat
  severity : Nat
  visibilty : Nat
  what : Nat
  message_len : Nat
deriving DecidableEq, Repr

/-- What a control handler does besides changing the channel state, in the
order of the calls: blocking flushes (`iterate_write`), messages handed to
`spice_msg_out_send_internal`, the blocking `spice_channel_recv_msg`, the
request `spice_session_channel_migrate`, and warnings. -/
inductive ChannelEffect where
  | iterate_write
  | send_ack_sync (generation : Nat)
  | send_pong (ping : List Nat)
  | send_migrate_flush_mark
  | send_migrate_data (payload : List Nat)
  | recv_msg
  | session_channel_migrate
  | g_warning
deriving DecidableEq, Repr

/-- How a handler ends: it returns, or it reads through a `NULL` pointer. -/
inductive Outcome where
  | returned
  | null_dereference
deriving DecidableEq, Repr

/-- The handler `spice_channel_handle_set_ack`. -/
def spice_channel_handle_set_ack (c : spice_channel) (ack : SpiceMsgSetAck) :
    spice_channel × List ChannelEffect :=
  ({ c with message_ack_window := ack.window, message_ack_count := ack.window },
    [ChannelEffect.send_ack_sync ack.generation])

/-- The handler `spice_channel_handle_ping`; the Pong is marshalled from the
Ping itself. -/
def spice_channel_handle_ping (c : spice_channel) (ping : List Nat) :
    spice_channel × List ChannelEffect :=
  (c, [ChannelEffect.send_pong ping])

/-- The conversion of an `int` to `size_t`, 32 bits wide on the targets of this
client. -/
def to_size_t (v : Int) : Nat := (v % 4294967296).toNat

/-- The handler `spice_channel_handle_notify`: the severity and visibility
strings and whether `message_str` was set to the trailing text.
`sizeof_notify` is `sizeof(*notify)`; the subtraction
`in->dpos - sizeof(*notify)` is done in `size_t`. -/
def spice_channel_handle_notify (sizeof_notify : Nat) (msg : spice_msg_in)
    (notify : SpiceMsgNotify) : String × String × Bool :=
  let severity :=
    if notify.severity ≤ SPICE_NOTIFY_SEVERITY_ERROR then
      ["info", "warn", "error"].getD notify.severity "?"
    else "?"
  let visibility :=
    if notify.visibilty ≤ SPICE_NOTIFY_VISIBILITY_HIGH then
      ["!", "!!", "!!!"].getD notify.visibilty "?"
    else "?"
  let message_str :=
    if notify.message_len ≠ 0 ∧
        notify.message_len ≤ (to_size_t msg.dpos + 4294967296 - sizeof_notify) % 4294967296
    then true else false
  (severity, visibility, message_str)

/-- The callback `get_msg_handler`: `slot` is `*msg`, the result the new `*msg`. -/
def get_msg_handler (slot : Option spice_msg_in) (msg : spice_msg_in) : Option spice_msg_in :=
  if slot ≠ none then slot else some msg

/-- The handler `spice_channel_handle_migrate`.  `received` is the message
`spice_channel_recv_msg` delivers to the callback, `none` when it delivers
nothing.  The result is the effects up to the point where the handler ends,
and how it ends. -/
def spice_channel_handle_migrate (flags : Nat) (received : Option spice_msg_in) :
    List ChannelEffect × Outcome :=
  let flushed :=
    if flags &&& SPICE_MIGRATE_NEED_FLUSH ≠ 0 then
      [ChannelEffect.iterate_write, ChannelEffect.send_migrate_flush_mark,
       ChannelEffect.iterate_write]
    else []
  if flags &&& SPICE_MIGRATE_NEED_DATA_TRANSFER ≠ 0 then
    let data : Option spice_msg_in :=
      match received with
      | none => none
      | some msg => get_msg_handler none msg
    match data with
    | none => (flushed ++ [ChannelEffect.recv_msg], Outcome.null_dereference)
    | some d =>
      let warned := if d.type ≠ SPICE_MSG_MIGRATE_DATA then [ChannelEffect.g_warning] else []
      (flushed ++ [ChannelEffect.recv_msg] ++ warned
        ++ [ChannelEffect.session_channel_migrate,
            ChannelEffect.send_migrate_data (d.data.take d.size)],
        Outcome.returned)
  else (flushed ++ [ChannelEffect.session_channel_migrate], Outcome.returned)

/-- A MigrateData message of three bytes. -/
def migrate_data_example : spice_msg_in :=
  { type := 2, size := 3, data := [0xde, 0xad, 0x42], dpos := 3 }

/-- A Ping message of three bytes, received where MigrateData is expected. -/
def unexpected_msg_example : spice_msg_in :=
  { type := 4, size := 3, data := [1, 2, 3], dpos := 3 }

/-- The tags of a table whose slot is not empty. -/
def registered_tags (handlers : List (Option spice_msg_handler)) : List Nat :=
  (List.range handlers.length).filter (fun i => (handlers.getD i none).isSome)

/-- An Init message, visible, whose cursor is `cache_me_example` (Alpha,
`CACHE_ME`, id 13). -/
def caching_init : SpiceMsgCursorInit :=
  { position := { x := 0, y := 0 }, trail_length := 0, trail_frequency := 0,
    visible := 1, cursor := cache_me_example }

/-- A cursor channel in the Uninitialized state whose cache still holds an
entry under the id 21. -/
def stale_channel : spice_cursor_channel :=
  { cursors := cache_add cache_init 21
      { hdr := alpha_example.header, default_cursor := true, data := [] },
    init_done := false }

/-! ## Inputs channel: scancode range, motion sums and key locks -/

/-- The scancodes the key functions are meant for: `1..0x7f`, and `0x101..0x17f`
for the keys sent with the `0xe0` lead byte. -/
def valid_scancode (s : Nat) : Prop :=
  (1 ≤ s ∧ s ≤ 0x7f) ∨ (0x101 ≤ s ∧ s ≤ 0x17f)

instance (s : Nat) : Decidable (valid_scancode s) := by
  unfold valid_scancode; infer_instance

/-- The component-wise sum of the `(dx, dy)` arguments of the
`spice_inputs_motion` calls in a sequence of events. -/
def motion_args_sum : List InputsEvent → Int × Int
  | [] => (0, 0)
  | InputsEvent.motion dx dy _ :: es =>
    (dx + (motion_args_sum es).1, dy + (motion_args_sum es).2)
  | _ :: es => motion_args_sum es

/-- The component-wise sum of the `(dx, dy)` carried by the motion messages in
a list of sent messages. -/
def motion_msgs_sum : List InputsMsg → Int × Int
  | [] => (0, 0)
  | InputsMsg.MOUSE_MOTION _ dx dy :: ms =>
    (dx + (motion_msgs_sum ms).1, dy + (motion_msgs_sum ms).2)
  | _ :: ms => motion_msgs_sum ms

/-- Whether an event is a `spice_inputs_motion` call or an ack-credit
message. -/
def is_motion_or_ack : InputsEvent → Bool
  | InputsEvent.motion _ _ _ => true
  | InputsEvent.ack => true
  | _ => false

/-- A signed value as the 32 bit pattern of an `int`. -/
def wrap32 (v : Int) : Int := v % 4294967296

/-- A value within the range of an `int`. -/
def in_int_range (v : Int) : Prop := -2147483648 ≤ v ∧ v ≤ 2147483647

instance (v : Int) : Decidable (in_int_range v) := by
  unfold in_int_range; infer_instance

/-- The number of ack-credit messages in a sequence of events. -/
def ack_count : List InputsEvent → Nat
  | [] => 0
  | InputsEvent.ack :: es => ack_count es + 1
  | _ :: es => ack_count es

/-- Motion calls only, for the bunch size 1: two calls that are sent at once
and bring the counter to the threshold, then the deltas `2147483647` and `1`,
whose sum leaves the `int` range. -/
def overflow_motion_example : List InputsEvent :=
  [InputsEvent.motion 1 1 0, InputsEvent.motion 1 1 0, InputsEvent.motion 2147483647 0 0,
   InputsEvent.motion 1 0 0]

/-- Motion calls and ack-credit messages only: five calls, the third and the
later ones while the counter stands at the threshold for the bunch size 1. -/
def motion_ack_example : List InputsEvent :=
  [InputsEvent.motion 3 (-1) 0, InputsEvent.motion 4 2 1, InputsEvent.motion (-2) 2 1,
   InputsEvent.motion 5 5 1, InputsEvent.ack, InputsEvent.motion 1 0 0,
   InputsEvent.motion 0 (-7) 0]

/-- The function `set_key_locks`: the message built (`none` for `NULL`) and the
state afterwards; `locks` is a `guint`, `state` the connection state of the
channel. -/
def set_key_locks (state : spice_channel_state) (c : spice_inputs_channel) (locks : Nat) :
    Option InputsMsg × spice_inputs_channel :=
  let c1 := { c with locks := locks }
  if state ≠ spice_channel_state.SPICE_CHANNEL_STATE_READY then (none, c1)
  else (some (InputsMsg.KEY_MODIFIERS locks), c1)

/-- The function `spice_inputs_set_key_locks`: the state afterwards and the
messages sent. -/
def spice_inputs_set_key_locks (state : spice_channel_state) (c : spice_inputs_channel)
    (locks : Nat) : spice_inputs_channel × List InputsMsg :=
  match set_key_locks state c locks with
  | (none, c1) => (c1, [])
  | (some msg, c1) => (c1, [msg])

/-- The function `spice_inputs_channel_up`.  It hands the result of
`set_key_locks` to `spice_msg_out_send_internal` without a test; the result is
`none` where that would be a `NULL` message. -/
def spice_inputs_channel_up (state : spice_channel_state) (c : spice_inputs_channel) :
    Option (spice_inputs_channel × List InputsMsg) :=
  match set_key_locks state c c.locks with
  | (none, _) => none
  | (some msg, c1) => some (c1, [msg])

/-- An accumulator that has sent and recorded nothing but holds a pending
motion. -/
def locks_example : spice_inputs_channel :=
  { spice_inputs_channel_init with dx := 2, dy := 1, dpy := NO_DISPLAY }

/-! ## Cursor channel: the Color4 value and the mask offsets -/

/-- The value the Color4 loop body stores in cell `i`, both branches taken
together. -/
def color4_value (hdr : SpiceCursorHeader) (data : List Nat) (i : Nat) : Nat :=
  let size := (SPICE_ALIGN hdr.width 2 / 2) * hdr.height
  let idx :=
    if i &&& 1 ≠ 0 then byteAt data (i >>> 1) &&& 0x0f
    else (byteAt data (i >>> 1) &&& 0xf0) >>> 4
  if get_pix_mask data (size + (4 <<< 4)) i ≠ 0 ∧ load32 data size idx = 0xffffff then
    get_pix_hack i hdr.width
  else load32 data size idx |||
    (if get_pix_mask data (size + (4 <<< 4)) i ≠ 0 then 0 else 0xff000000)

/-- The offset `set_cursor` passes to `get_pix_mask` in the case of the type of
`hdr`: `size + (sizeof(uint32_t) << 4)` with the size of the nibble rows for
Color4, and `size = 4 * width * height` for Color32 and for Color16.  For
Color32 and Color4 this is the byte after the colour data; for Color16, whose
colour data ends at `2 * width * height`, it is not. -/
def mask_offset (hdr : SpiceCursorHeader) : Nat :=
  if hdr.type = SPICE_CURSOR_TYPE_COLOR4 then
    (SPICE_ALIGN hdr.width 2 / 2) * hdr.height + (4 <<< 4)
  else 4 * hdr.width * hdr.height

/-- A 1 x 1 Color16 cursor: the pixel `0x0400`, then the mask byte `0x80` at
offset 2, right after the colour data, then two zero bytes. -/
def color16_mask_example : SpiceCursor :=
  { flags := 0,
    header := { unique := 21, type := 4, width := 1, height := 1, hot_spot_x := 0, hot_spot_y := 0 },
    data_size := 5,
    data := [0x00, 0x04, 0x80, 0x00, 0x00] }

/-- A 2 x 1 Color16 cursor: the pixels `0x0400` and `0x001f`, the mask byte
`0x00` at offset 4, right after the colour data, so that both pixels are
opaque; three zero bytes; and the byte `0xc0` at offset 8. -/
def color16_alpha_example : SpiceCursor :=
  { flags := 0,
    header := { unique := 23, type := 4, width := 2, height := 1, hot_spot_x := 0, hot_spot_y := 0 },
    data_size := 9,
    data := [0x00, 0x04, 0x1f, 0x00, 0x00, 0x00, 0x00, 0x00, 0xc0] }

/-- The 1 x 1 Color16 cursor with the byte `0x80` at offset 4 and a zero byte
at offset 2. -/
def color16_mask_example_2 : SpiceCursor :=
  { color16_mask_example with data := [0x00, 0x04, 0x00, 0x00, 0x80] }

/-! ## Cursor channel: the turns of the drain loop -/

/-- One turn of the loop of `delete_cursor_all`: `cache_get_lru`, then
`delete_cursor_one` on the entry found; `none` when the cache has no entry and
the loop is left. -/
def delete_cursor_turn (c : spice_cursor_channel) : Option spice_cursor_channel :=
  match cache_get_lru c.cursors with
  | none => none
  | some item => some (delete_cursor_one c item)

/-- The state after `j` turns of the loop of `delete_cursor_all`; `none` when
the loop is left before the turn `j`. -/
def delete_cursor_turns : Nat → spice_cursor_channel → Option spice_cursor_channel
  | 0, c => some c
  | j + 1, c =>
    match delete_cursor_turn c with
    | none => none
    | some c1 => delete_cursor_turns j c1

/-- The keys of a cache are distinct. -/
def distinct_keys (cache : display_cache) : Prop :=
  (cache.map (fun item => item.id)).Nodup

instance (cache : display_cache) : Decidable (distinct_keys cache) := by
  unfold distinct_keys; infer_instance

/-- A cursor channel whose cache holds three entries, added under the keys 5,
9 and 2 in that order. -/
def three_cursors_channel : spice_cursor_channel :=
  { cursors :=
      cache_add (cache_add (cache_add cache_init 5
        { hdr := alpha_example.header, default_cursor := false, data := [1, 2, 3, 4] }) 9
        { hdr := alpha_example.header, default_cursor := false, data := [5, 6, 7, 8] }) 2
        { hdr := alpha_example.header, default_cursor := true, data := [] },
    init_done := true }

/-! ## Properties: memory and bit lemmas -/

theorem byteAt_set (buf : List Nat) (d v k : Nat) (h : d < buf.length) :
    byteAt (buf.set d v) k = if k = d then v % 256 else byteAt buf k := by
  unfold byteAt
  simp only [List.getD_eq_getElem?_getD, List.getElem?_set]
  by_cases hk : k = d
  · subst hk; simp [h]
  · have : ¬ d = k := fun e => hk e.symm
    simp [hk, this]

theorem store4_length (buf : List Nat) (d b0 b1 b2 b3 : Nat) :
    (store4 buf d b0 b1 b2 b3).length = buf.length := by
  simp [store4]

theorem byteAt_store4 (buf : List Nat) (d b0 b1 b2 b3 k : Nat) (h : d + 3 < buf.length) :
    byteAt (store4 buf d b0 b1 b2 b3) k =
      if k = d then b0 % 256 else if k = d + 1 then b1 % 256
      else if k = d + 2 then b2 % 256 else if k = d + 3 then b3 % 256 else byteAt buf k := by
  unfold store4
  rw [byteAt_set _ _ _ _ (by simp; omega), byteAt_set _ _ _ _ (by simp; omega),
    byteAt_set _ _ _ _ (by simp; omega), byteAt_set _ _ _ _ (by omega)]
  simp only [Nat.mod_mod]
  split_ifs <;> first | rfl | omega

theorem and_shift_ne_zero (b r : Nat) (hr : r < 8) :
    (b &&& (0x80 >>> r) ≠ 0) ↔ b.testBit (7 - r) = true := by
  have h2 : (0x80 : Nat) >>> r = 2 ^ (7 - r) := by
    interval_cases r <;> rfl
  rw [h2]
  constructor
  · intro h
    by_contra hb
    apply h
    apply Nat.eq_of_testBit_eq
    intro i
    simp only [Nat.testBit_and, Nat.zero_testBit, Nat.testBit_two_pow]
    by_cases hi : 7 - r = i
    · subst hi; simp [hb]
    · simp [hi]
  · intro hb h
    have := congrArg (fun n => n.testBit (7 - r)) h
    simp [hb, Nat.testBit_two_pow] at this

theorem quad_store4_same (buf : List Nat) (d b0 b1 b2 b3 : Nat) (h : d + 3 < buf.length) :
    quad (store4 buf d b0 b1 b2 b3) d = (b0 % 256, b1 % 256, b2 % 256, b3 % 256) := by
  simp [quad, byteAt_store4 _ _ _ _ _ _ _ h]

theorem quad_store4_other (buf : List Nat) (d b0 b1 b2 b3 e : Nat) (h : d + 3 < buf.length)
    (he : e + 4 ≤ d ∨ d + 4 ≤ e) :
    quad (store4 buf d b0 b1 b2 b3) e = quad buf e := by
  simp only [quad, byteAt_store4 _ _ _ _ _ _ _ h]
  have h0 : ¬ e = d := by omega
  have h1 : ¬ e = d + 1 := by omega
  have h2 : ¬ e = d + 2 := by omega
  have h3 : ¬ e = d + 3 := by omega
  have h4 : ¬ e + 1 = d := by omega
  have h5 : ¬ e + 2 = d := by omega
  have h6 : ¬ e + 3 = d := by omega
  have h7 : ¬ e + 1 = d + 3 := by omega
  have h8 : ¬ e + 1 = d + 2 := by omega
  have h9 : ¬ e + 2 = d + 3 := by omega
  simp [h0, h1, h2, h3, h4, h5, h6, h7, h8, h9]

theorem mono_pixel_buf (data : List Nat) (and xor x : Nat) (s : mono_row_state)
    (hbit : s.bit = 0x80 >>> (x % 8)) :
    (mono_pixel data and xor x s).buf =
      store4 s.buf s.dest (mono_cell (msb_bit data and x) (msb_bit data xor x)).1
        (mono_cell (msb_bit data and x) (msb_bit data xor x)).2.1
        (mono_cell (msb_bit data and x) (msb_bit data xor x)).2.2.1
        (mono_cell (msb_bit data and x) (msb_bit data xor x)).2.2.2 := by
  have hx : x % 8 < 8 := Nat.mod_lt _ (by decide)
  have ha := and_shift_ne_zero (byteAt data (and + x / 8)) (x % 8) hx
  have hb := and_shift_ne_zero (byteAt data (xor + x / 8)) (x % 8) hx
  unfold mono_pixel msb_bit
  simp only [hbit]
  cases h1 : (byteAt data (and + x / 8)).testBit (7 - x % 8) <;>
    cases h2 : (byteAt data (xor + x / 8)).testBit (7 - x % 8) <;>
    simp [h1, h2] at ha hb <;> simp [ha, hb, mono_cell]

theorem mono_pixel_bit (data : List Nat) (and xor x : Nat) (s : mono_row_state)
    (hbit : s.bit = 0x80 >>> (x % 8)) :
    (mono_pixel data and xor x s).bit = 0x80 >>> ((x + 1) % 8) := by
  have hx : x % 8 < 8 := Nat.mod_lt _ (by decide)
  unfold mono_pixel
  simp only [hbit]
  have hc : x % 8 = 0 ∨ x % 8 = 1 ∨ x % 8 = 2 ∨ x % 8 = 3 ∨ x % 8 = 4 ∨ x % 8 = 5 ∨
      x % 8 = 6 ∨ x % 8 = 7 := by omega
  rcases hc with h | h | h | h | h | h | h | h
  · have : (x + 1) % 8 = 1 := by omega
    rw [h, this]; decide
  · have : (x + 1) % 8 = 2 := by omega
    rw [h, this]; decide
  · have : (x + 1) % 8 = 3 := by omega
    rw [h, this]; decide
  · have : (x + 1) % 8 = 4 := by omega
    rw [h, this]; decide
  · have : (x + 1) % 8 = 5 := by omega
    rw [h, this]; decide
  · have : (x + 1) % 8 = 6 := by omega
    rw [h, this]; decide
  · have : (x + 1) % 8 = 7 := by omega
    rw [h, this]; decide
  · have : (x + 1) % 8 = 0 := by omega
    rw [h, this]; decide

/-! ## Properties: the Mono decoder -/

theorem mono_cell_lt (a b : Bool) :
    (mono_cell a b).1 % 256 = (mono_cell a b).1 ∧ (mono_cell a b).2.1 % 256 = (mono_cell a b).2.1 ∧
    (mono_cell a b).2.2.1 % 256 = (mono_cell a b).2.2.1 ∧
    (mono_cell a b).2.2.2 % 256 = (mono_cell a b).2.2.2 := by
  cases a <;> cases b <;> decide

theorem mono_pixels_spec (data : List Nat) (and xor : Nat) (buf : List Nat) (d0 n : Nat)
    (hlen : d0 + 4 * n ≤ buf.length) :
    (forLoop n (mono_pixel data and xor) { buf := buf, dest := d0, bit := 0x80 }).dest
        = d0 + 4 * n ∧
    (forLoop n (mono_pixel data and xor) { buf := buf, dest := d0, bit := 0x80 }).bit
        = 0x80 >>> (n % 8) ∧
    (forLoop n (mono_pixel data and xor) { buf := buf, dest := d0, bit := 0x80 }).buf.length
        = buf.length ∧
    (∀ x, x < n →
      quad (forLoop n (mono_pixel data and xor) { buf := buf, dest := d0, bit := 0x80 }).buf
          (d0 + 4 * x) = mono_cell (msb_bit data and x) (msb_bit data xor x)) ∧
    (∀ e, e + 4 ≤ d0 ∨ d0 + 4 * n ≤ e →
      quad (forLoop n (mono_pixel data and xor) { buf := buf, dest := d0, bit := 0x80 }).buf e
        = quad buf e) := by
  induction n with
  | zero => exact ⟨rfl, rfl, rfl, fun x hx => absurd hx (Nat.not_lt_zero x), fun _ _ => rfl⟩
  | succ n ih =>
    obtain ⟨hd, hb, hl, hc, ho⟩ := ih (by omega)
    simp only [forLoop]
    generalize forLoop n (mono_pixel data and xor) { buf := buf, dest := d0, bit := 0x80 } = r
      at hd hb hl hc ho
    have hbuf := mono_pixel_buf data and xor n r hb
    have hin : r.dest + 3 < r.buf.length := by omega
    refine ⟨?_, mono_pixel_bit data and xor n r hb, ?_, ?_, ?_⟩
    · simp only [mono_pixel, hd]; omega
    · rw [hbuf, store4_length, hl]
    · intro x hx
      rw [hbuf]
      by_cases hxn : x = n
      · subst hxn
        rw [← hd, quad_store4_same _ _ _ _ _ _ hin]
        obtain ⟨h0, h1, h2, h3⟩ := mono_cell_lt (msb_bit data and x) (msb_bit data xor x)
        rw [h0, h1, h2, h3]
      · rw [quad_store4_other _ _ _ _ _ _ _ hin (by omega)]
        exact hc x (by omega)
    · intro e he
      rw [hbuf, quad_store4_other _ _ _ _ _ _ _ hin (by omega)]
      exact ho e (by omega)

theorem mono_rows_spec (hdr : SpiceCursorHeader) (buf data : List Nat) (m : Nat)
    (hm : m ≤ hdr.height) (hlen : 4 * hdr.width * hdr.height ≤ buf.length) :
    (forLoop m (mono_row hdr data)
        { buf := buf, dest := 0, and := 0, xor := (hdr.width + 7) / 8 * hdr.height }).dest
      = 4 * hdr.width * m ∧
    (forLoop m (mono_row hdr data)
        { buf := buf, dest := 0, and := 0, xor := (hdr.width + 7) / 8 * hdr.height }).and
      = (hdr.width + 7) / 8 * m ∧
    (forLoop m (mono_row hdr data)
        { buf := buf, dest := 0, and := 0, xor := (hdr.width + 7) / 8 * hdr.height }).xor
      = (hdr.width + 7) / 8 * hdr.height + (hdr.width + 7) / 8 * m ∧
    (forLoop m (mono_row hdr data)
        { buf := buf, dest := 0, and := 0, xor := (hdr.width + 7) / 8 * hdr.height }).buf.length
      = buf.length ∧
    (∀ y x, y < m → x < hdr.width →
      cell (forLoop m (mono_row hdr data)
        { buf := buf, dest := 0, and := 0, xor := (hdr.width + 7) / 8 * hdr.height }).buf
        (y * hdr.width + x)
      = mono_cell (msb_bit data ((hdr.width + 7) / 8 * y) x)
          (msb_bit data ((hdr.width + 7) / 8 * hdr.height + (hdr.width + 7) / 8 * y) x)) := by
  induction m with
  | zero =>
    exact ⟨rfl, rfl, rfl, rfl, fun y x hy _ => absurd hy (Nat.not_lt_zero y)⟩
  | succ m ih =>
    obtain ⟨hd, ha, hx, hl, hc⟩ := ih (by omega)
    simp only [forLoop]
    generalize forLoop m (mono_row hdr data)
      { buf := buf, dest := 0, and := 0, xor := (hdr.width + 7) / 8 * hdr.height } = s
      at hd ha hx hl hc
    have hrow : 4 * hdr.width * (m + 1) ≤ 4 * hdr.width * hdr.height :=
      Nat.mul_le_mul_left _ hm
    have hfit : s.dest + 4 * hdr.width ≤ s.buf.length := by
      rw [hd, hl]; rw [Nat.mul_succ] at hrow; omega
    obtain ⟨pd, _, pl, pc, po⟩ := mono_pixels_spec data s.and s.xor s.buf s.dest hdr.width hfit
    refine ⟨?_, ?_, ?_, ?_, ?_⟩
    · simp only [mono_row]; rw [pd, hd, Nat.mul_succ]
    · simp only [mono_row, ha, Nat.mul_succ]
    · simp only [mono_row, hx, Nat.mul_succ, Nat.add_assoc]
    · simp only [mono_row]; rw [pl, hl]
    · intro y x hy hxw
      simp only [mono_row, cell]
      by_cases hym : y = m
      · subst hym
        have he : 4 * (y * hdr.width + x) = s.dest + 4 * x := by rw [hd]; ring
        rw [he, pc x hxw, ha, hx]
      · have hlt : y < m := by omega
        have hle : (y + 1) * hdr.width ≤ m * hdr.width := Nat.mul_le_mul_right _ hlt
        have hd2 : s.dest = 4 * (m * hdr.width) := by rw [hd]; ring
        have he : 4 * (y * hdr.width + x) + 4 ≤ s.dest := by
          rw [hd2]; rw [Nat.succ_mul] at hle; omega
        rw [po _ (Or.inl he)]
        exact hc y x hlt hxw

theorem byteAt_lt (buf : List Nat) (k : Nat) : byteAt buf k < 256 :=
  Nat.mod_lt _ (by decide)

theorem swap_step_byteAt (i : Nat) (b : List Nat) (off k : Nat) (h : off + 3 < b.length) :
    byteAt (swap_step i (b, off)).1 k =
      if k = off then byteAt b (off + 2) else if k = off + 2 then byteAt b off
      else byteAt b k := by
  simp only [swap_step]
  rw [byteAt_set _ _ _ _ (by simp; omega), byteAt_set _ _ _ _ (by omega)]
  rw [Nat.mod_eq_of_lt (byteAt_lt _ _), Nat.mod_eq_of_lt (byteAt_lt _ _)]
  split_ifs <;> first | rfl | omega

theorem swap_loop_spec (buf : List Nat) (n m : Nat) (hm : m ≤ n) (hlen : 4 * n ≤ buf.length) :
    (forLoop m swap_step (buf, 0)).2 = 4 * m ∧
    (forLoop m swap_step (buf, 0)).1.length = buf.length ∧
    (∀ i, i < m → cell (forLoop m swap_step (buf, 0)).1 i = swap_cell (cell buf i)) ∧
    (∀ k, 4 * m ≤ k → byteAt (forLoop m swap_step (buf, 0)).1 k = byteAt buf k) := by
  induction m with
  | zero => exact ⟨rfl, rfl, fun i hi => absurd hi (Nat.not_lt_zero i), fun _ _ => rfl⟩
  | succ m ih =>
    obtain ⟨ho, hl, hc, hk⟩ := ih (by omega)
    simp only [forLoop]
    generalize forLoop m swap_step (buf, 0) = s at ho hl hc hk
    obtain ⟨b, off⟩ := s
    simp only at ho hl hc hk
    subst ho
    have hin : 4 * m + 3 < b.length := by omega
    have hb : ∀ k, byteAt (swap_step m (b, 4 * m)).1 k =
        if k = 4 * m then byteAt b (4 * m + 2) else if k = 4 * m + 2 then byteAt b (4 * m)
        else byteAt b k := fun k => swap_step_byteAt m b (4 * m) k hin
    refine ⟨?_, ?_, ?_, ?_⟩
    · simp only [swap_step]; omega
    · simp only [swap_step, List.length_set, hl]
    · intro i hi
      by_cases him : i = m
      · subst him
        simp only [cell, quad, swap_cell, hb]
        rw [hk (4 * i) (by omega), hk (4 * i + 1) (by omega), hk (4 * i + 2) (by omega),
          hk (4 * i + 3) (by omega)]
        simp
      · have hlt : i < m := by omega
        rw [← hc i hlt]
        simp only [cell, quad, hb]
        have e0 : ¬ 4 * i = 4 * m := by omega
        have e1 : ¬ 4 * i = 4 * m + 2 := by omega
        have e2 : ¬ 4 * i + 1 = 4 * m := by omega
        have e3 : ¬ 4 * i + 1 = 4 * m + 2 := by omega
        have e4 : ¬ 4 * i + 2 = 4 * m := by omega
        have e5 : ¬ 4 * i + 2 = 4 * m + 2 := by omega
        have e6 : ¬ 4 * i + 3 = 4 * m := by omega
        have e7 : ¬ 4 * i + 3 = 4 * m + 2 := by omega
        simp only [e0, e1, e2, e3, e4, e5, e6, e7, if_false]
    · intro k hk4
      rw [hb]
      have e0 : ¬ k = 4 * m := by omega
      have e1 : ¬ k = 4 * m + 2 := by omega
      simp only [e0, e1, if_false]
      exact hk k (by omega)

theorem swap_red_blue_cell (buf : List Nat) (n i : Nat) (hi : i < n)
    (hlen : 4 * n ≤ buf.length) :
    cell (swap_red_blue n buf) i = swap_cell (cell buf i) :=
  (swap_loop_spec buf n n (Nat.le_refl n) hlen).2.2.1 i hi

theorem swap_red_blue_length (buf : List Nat) (n : Nat) (hlen : 4 * n ≤ buf.length) :
    (swap_red_blue n buf).length = buf.length :=
  (swap_loop_spec buf n n (Nat.le_refl n) hlen).2.1

theorem spice_malloc_length (heap : Nat → Nat) (size : Nat) :
    (spice_malloc heap size).length = size := by
  simp [spice_malloc]

theorem mono_cursor_cell (hdr : SpiceCursorHeader) (buf data : List Nat) (x y : Nat)
    (hx : x < hdr.width) (hy : y < hdr.height)
    (hlen : 4 * hdr.width * hdr.height ≤ buf.length) :
    cell (mono_cursor hdr buf data) (y * hdr.width + x)
      = mono_cell (msb_bit data ((hdr.width + 7) / 8 * y) x)
          (msb_bit data ((hdr.width + 7) / 8 * hdr.height + (hdr.width + 7) / 8 * y) x) :=
  (mono_rows_spec hdr buf data hdr.height (Nat.le_refl _) hlen).2.2.2.2 y x hy hx

theorem mono_cursor_length (hdr : SpiceCursorHeader) (buf data : List Nat)
    (hlen : 4 * hdr.width * hdr.height ≤ buf.length) :
    (mono_cursor hdr buf data).length = buf.length :=
  (mono_rows_spec hdr buf data hdr.height (Nat.le_refl _) hlen).2.2.2.1

theorem swap_cell_mono_cell (a b : Bool) : swap_cell (mono_cell a b) = mono_cell a b := by
  cases a <;> cases b <;> rfl

theorem pixel_index_lt (w h x y : Nat) (hx : x < w) (hy : y < h) : y * w + x < w * h := by
  have h1 : (y + 1) * w ≤ h * w := Nat.mul_le_mul_right _ hy
  rw [Nat.succ_mul] at h1
  rw [Nat.mul_comm w h]
  omega

theorem set_cursor_mono (c : spice_cursor_channel) (scursor : SpiceCursor) (heap : Nat → Nat)
    (hnone : scursor.flags &&& SPICE_CURSOR_FLAGS_NONE = 0)
    (hcache : scursor.flags &&& SPICE_CURSOR_FLAGS_FROM_CACHE = 0)
    (hsize : scursor.data_size ≠ 0)
    (htype : scursor.header.type = SPICE_CURSOR_TYPE_MONO) :
    (set_cursor c scursor heap).1 = some
      { hdr := scursor.header, default_cursor := false,
        data := swap_red_blue (scursor.header.width * scursor.header.height)
          (mono_cursor scursor.header
            (spice_malloc heap (4 * scursor.header.width * scursor.header.height))
            scursor.data) } := by
  unfold set_cursor
  simp only [hnone, hcache, hsize, htype, ne_eq, not_true_eq_false, if_false, if_true]
  split <;> rfl

/-! ## Properties: claims on the Mono decoder -/

/-- C1: for a Mono cursor whose payload is the AND bitmap followed by the XOR
bitmap (rows of `(width + 7) / 8` bytes, most significant bit first) and whose
size `4 * width * height` is within the `int` range in which `set_cursor`
computes it, `set_cursor` returns a cursor whose cell for pixel `(x, y)` holds
the bytes of the truth table `mono_cell` at the AND and XOR bits of that
pixel, and the final red/blue swap has left that cell as `mono_cursor` wrote
it. -/
theorem mono_truth_table (c : spice_cursor_channel) (scursor : SpiceCursor)
    (heap : Nat → Nat) (x y : Nat)
    (hnone : scursor.flags &&& SPICE_CURSOR_FLAGS_NONE = 0)
    (hcache : scursor.flags &&& SPICE_CURSOR_FLAGS_FROM_CACHE = 0)
    (htype : scursor.header.type = SPICE_CURSOR_TYPE_MONO)
    (hsize : scursor.data_size = scursor.data.length)
    (hlen : scursor.data.length
      = 2 * ((scursor.header.width + 7) / 8 * scursor.header.height))
    (hx : x < scursor.header.width) (hy : y < scursor.header.height)
    (hrange : size_in_int_range scursor.header) :
    ∃ cursor : display_cursor,
      (set_cursor c scursor heap).1 = some cursor ∧
      cursor.default_cursor = false ∧
      cell cursor.data (y * scursor.header.width + x)
        = mono_cell
            (msb_bit scursor.data ((scursor.header.width + 7) / 8 * y) x)
            (msb_bit scursor.data ((scursor.header.width + 7) / 8 * scursor.header.height
              + (scursor.header.width + 7) / 8 * y) x) ∧
      mono_cell true true = (0x00, 0x00, 0x00, 0x80) ∧
      mono_cell true false = (0x00, 0x00, 0x00, 0x00) ∧
      mono_cell false true = (0xff, 0xff, 0xff, 0xff) ∧
      mono_cell false false = (0x00, 0x00, 0x00, 0xff) ∧
      cell cursor.data (y * scursor.header.width + x)
        = cell (mono_cursor scursor.header
            (spice_malloc heap (4 * scursor.header.width * scursor.header.height))
            scursor.data) (y * scursor.header.width + x) := by
  have hbpl : 0 < (scursor.header.width + 7) / 8 := by omega
  have hpos : 0 < (scursor.header.width + 7) / 8 * scursor.header.height :=
    Nat.mul_pos hbpl (by omega)
  have hne : scursor.data_size ≠ 0 := by omega
  have hfresh : 4 * scursor.header.width * scursor.header.height
      ≤ (spice_malloc heap (4 * scursor.header.width * scursor.header.height)).length := by
    rw [spice_malloc_length]
  have hmono := mono_cursor_cell scursor.header _ scursor.data x y hx hy hfresh
  have hidx := pixel_index_lt _ _ x y hx hy
  have hswap := swap_red_blue_cell
    (mono_cursor scursor.header
      (spice_malloc heap (4 * scursor.header.width * scursor.header.height)) scursor.data)
    (scursor.header.width * scursor.header.height) (y * scursor.header.width + x) hidx
    (by rw [mono_cursor_length _ _ _ hfresh, spice_malloc_length, Nat.mul_assoc])
  refine ⟨_, set_cursor_mono c scursor heap hnone hcache hne htype, rfl, ?_, rfl, rfl, rfl, rfl, ?_⟩
  · simp only [hswap, hmono, swap_cell_mono_cell]
  · simp only [hswap, hmono, swap_cell_mono_cell]

/-- C1 at pixel `(0, 0)` of `mono_example` (AND = 1, XOR = 1). -/
theorem mono_truth_table_witness :
    mono_example.header.type = SPICE_CURSOR_TYPE_MONO ∧
    ∃ cursor : display_cursor,
      (set_cursor spice_cursor_channel_init mono_example (fun _ => 0x55)).1 = some cursor ∧
      cursor.default_cursor = false ∧
      cell cursor.data (0 * mono_example.header.width + 0)
        = mono_cell
            (msb_bit mono_example.data ((mono_example.header.width + 7) / 8 * 0) 0)
            (msb_bit mono_example.data ((mono_example.header.width + 7) / 8
              * mono_example.header.height
              + (mono_example.header.width + 7) / 8 * 0) 0) ∧
      mono_cell true true = (0x00, 0x00, 0x00, 0x80) ∧
      mono_cell true false = (0x00, 0x00, 0x00, 0x00) ∧
      mono_cell false true = (0xff, 0xff, 0xff, 0xff) ∧
      mono_cell false false = (0x00, 0x00, 0x00, 0xff) ∧
      cell cursor.data (0 * mono_example.header.width + 0)
        = cell (mono_cursor mono_example.header
            (spice_malloc (fun _ => 0x55)
              (4 * mono_example.header.width * mono_example.header.height))
            mono_example.data) (0 * mono_example.header.width + 0) :=
  ⟨rfl, mono_truth_table spice_cursor_channel_init mono_example (fun _ => 0x55) 0 0
    (by decide) (by decide) rfl rfl rfl (by decide) (by decide) (by decide)⟩

theorem mono_decoded_cell (hdr : SpiceCursorHeader) (data : List Nat) (heap : Nat → Nat)
    (x y : Nat) (hx : x < hdr.width) (hy : y < hdr.height) :
    cell (swap_red_blue (hdr.width * hdr.height)
        (mono_cursor hdr (spice_malloc heap (4 * hdr.width * hdr.height)) data))
      (y * hdr.width + x)
      = mono_cell (msb_bit data ((hdr.width + 7) / 8 * y) x)
          (msb_bit data ((hdr.width + 7) / 8 * hdr.height + (hdr.width + 7) / 8 * y) x) := by
  have hfresh : 4 * hdr.width * hdr.height
      ≤ (spice_malloc heap (4 * hdr.width * hdr.height)).length := by
    rw [spice_malloc_length]
  rw [swap_red_blue_cell _ _ _ (pixel_index_lt _ _ x y hx hy)
    (by rw [mono_cursor_length _ _ _ hfresh, spice_malloc_length, Nat.mul_assoc]),
    mono_cursor_cell hdr _ data x y hx hy hfresh, swap_cell_mono_cell]

theorem valid_mono_size (s : SpiceCursor) (hv : valid_mono s) (x y : Nat)
    (hx : x < s.header.width) (hy : y < s.header.height) : s.data_size ≠ 0 := by
  obtain ⟨_, _, _, hsize, hlen⟩ := hv
  have hbpl : 0 < (s.header.width + 7) / 8 := by omega
  have hpos : 0 < (s.header.width + 7) / 8 * s.header.height := Nat.mul_pos hbpl (by omega)
  omega

theorem mono_masks_of_mono_cell (a b : Bool) : mono_masks_of_cell (mono_cell a b) = (a, b) := by
  cases a <;> cases b <;> decide

/-- C2: decoding a valid Mono cursor, of a size within the `int` range in which
`set_cursor` computes it, and re-deriving the (AND, XOR) pair of a pixel from
its output cell gives back the bits of the payload; the truth table is
injective; and two valid Mono payloads of the same header that differ in the
AND or the XOR bit of a pixel inside the image decode to different buffers. -/
theorem mono_roundtrip (c1 c2 : spice_cursor_channel) (s1 s2 : SpiceCursor)
    (heap1 heap2 : Nat → Nat) (x y : Nat)
    (hv1 : valid_mono s1) (hv2 : valid_mono s2) (hhdr : s1.header = s2.header)
    (hx : x < s1.header.width) (hy : y < s1.header.height)
    (hrange : size_in_int_range s1.header) :
    ∃ cur1 cur2 : display_cursor,
      (set_cursor c1 s1 heap1).1 = some cur1 ∧
      (set_cursor c2 s2 heap2).1 = some cur2 ∧
      mono_masks_of_cell (cell cur1.data (y * s1.header.width + x))
        = (mono_and_bit s1 x y, mono_xor_bit s1 x y) ∧
      Function.Injective (fun p : Bool × Bool => mono_cell p.1 p.2) ∧
      ((mono_and_bit s1 x y ≠ mono_and_bit s2 x y ∨ mono_xor_bit s1 x y ≠ mono_xor_bit s2 x y) →
        cur1.data ≠ cur2.data) := by
  have hx2 : x < s2.header.width := hhdr ▸ hx
  have hy2 : y < s2.header.height := hhdr ▸ hy
  have e1 := set_cursor_mono c1 s1 heap1 hv1.1 hv1.2.1 (valid_mono_size s1 hv1 x y hx hy)
    hv1.2.2.1
  have e2 := set_cursor_mono c2 s2 heap2 hv2.1 hv2.2.1 (valid_mono_size s2 hv2 x y hx2 hy2)
    hv2.2.2.1
  have d1 := mono_decoded_cell s1.header s1.data heap1 x y hx hy
  have d2 := mono_decoded_cell s2.header s2.data heap2 x y hx2 hy2
  have hinj : Function.Injective (fun p : Bool × Bool => mono_cell p.1 p.2) := by
    intro p q hpq
    have := congrArg mono_masks_of_cell hpq
    simpa [mono_masks_of_mono_cell] using this
  refine ⟨_, _, e1, e2, ?_, hinj, ?_⟩
  · simp only [d1, mono_masks_of_mono_cell, mono_and_bit, mono_xor_bit]
  · intro hdiff heq
    simp only at heq
    have hc := congrArg (fun b => mono_masks_of_cell (cell b (y * s1.header.width + x))) heq
    simp only at hc
    rw [d1] at hc
    rw [hhdr] at hc
    rw [d2] at hc
    simp only [mono_masks_of_mono_cell, Prod.mk.injEq] at hc
    simp only [mono_and_bit, mono_xor_bit, hhdr] at hdiff
    rcases hdiff with h | h
    · exact h hc.1
    · exact h hc.2

/-- C2 at pixel `(0, 0)` of `mono_example` and `mono_example_2`, which differ
in the XOR bit of that pixel. -/
theorem mono_roundtrip_witness :
    valid_mono mono_example ∧ valid_mono mono_example_2 ∧
    mono_xor_bit mono_example 0 0 ≠ mono_xor_bit mono_example_2 0 0 ∧
    ∃ cur1 cur2 : display_cursor,
      (set_cursor spice_cursor_channel_init mono_example (fun _ => 0)).1 = some cur1 ∧
      (set_cursor spice_cursor_channel_init mono_example_2 (fun _ => 0)).1 = some cur2 ∧
      mono_masks_of_cell (cell cur1.data (0 * mono_example.header.width + 0))
        = (mono_and_bit mono_example 0 0, mono_xor_bit mono_example 0 0) ∧
      Function.Injective (fun p : Bool × Bool => mono_cell p.1 p.2) ∧
      ((mono_and_bit mono_example 0 0 ≠ mono_and_bit mono_example_2 0 0 ∨
          mono_xor_bit mono_example 0 0 ≠ mono_xor_bit mono_example_2 0 0) →
        cur1.data ≠ cur2.data) :=
  ⟨by decide, by decide, by decide,
    mono_roundtrip spice_cursor_channel_init spice_cursor_channel_init mono_example
      mono_example_2 (fun _ => 0) (fun _ => 0) 0 0 (by decide) (by decide) rfl
      (by decide) (by decide) (by decide)⟩

/-! ## Properties: cell loops -/

theorem load32_eq_word_of_cell (buf : List Nat) (i : Nat) :
    load32 buf 0 i = word_of_cell (cell buf i) := by
  simp [load32, word_of_cell, cell, quad]

theorem word_of_cell_word_bytes (v : Nat) : word_of_cell (word_bytes v) = v % 4294967296 := by
  simp only [word_of_cell, word_bytes]
  omega

theorem store32_length (buf : List Nat) (i v : Nat) : (store32 buf i v).length = buf.length := by
  simp [store32, store4_length]

theorem cell_store32_same (buf : List Nat) (i v : Nat) (h : 4 * i + 3 < buf.length) :
    cell (store32 buf i v) i = word_bytes v := by
  simp only [cell, store32, quad_store4_same _ _ _ _ _ _ h, word_bytes]

theorem cell_store32_other (buf : List Nat) (i j v : Nat) (h : 4 * i + 3 < buf.length)
    (hij : j ≠ i) : cell (store32 buf i v) j = cell buf j := by
  simp only [cell, store32]
  exact quad_store4_other _ _ _ _ _ _ _ h (by omega)

theorem byteAt_store32_other (buf : List Nat) (i v k : Nat) (h : 4 * i + 3 < buf.length)
    (hk : k < 4 * i ∨ 4 * i + 4 ≤ k) : byteAt (store32 buf i v) k = byteAt buf k := by
  simp only [store32, byteAt_store4 _ _ _ _ _ _ _ h]
  have e0 : ¬ k = 4 * i := by omega
  have e1 : ¬ k = 4 * i + 1 := by omega
  have e2 : ¬ k = 4 * i + 2 := by omega
  have e3 : ¬ k = 4 * i + 3 := by omega
  simp only [e0, e1, e2, e3, if_false]

/-- A loop that stores into cell `i` a value depending on the buffer through
cell `i` only leaves in every cell the value computed from the initial buffer. -/
theorem cell_loop_spec (body : Nat → List Nat → List Nat) (g : Nat → List Nat → Nat)
    (hbody : ∀ i b, body i b = store32 b i (g i b))
    (hg : ∀ i b b2, cell b i = cell b2 i → g i b = g i b2)
    (buf : List Nat) (n m : Nat) (hm : m ≤ n) (hlen : 4 * n ≤ buf.length) :
    (forLoop m body buf).length = buf.length ∧
    (∀ i, i < m → cell (forLoop m body buf) i = word_bytes (g i buf)) ∧
    (∀ i, m ≤ i → cell (forLoop m body buf) i = cell buf i) := by
  induction m with
  | zero => exact ⟨rfl, fun i hi => absurd hi (Nat.not_lt_zero i), fun _ _ => rfl⟩
  | succ m ih =>
    obtain ⟨hl, hc, ho⟩ := ih (by omega)
    simp only [forLoop, hbody]
    have hin : 4 * m + 3 < (forLoop m body buf).length := by omega
    refine ⟨by rw [store32_length, hl], ?_, ?_⟩
    · intro i hi
      by_cases him : i = m
      · subst him
        rw [cell_store32_same _ _ _ hin, hg i _ buf (ho i (Nat.le_refl i))]
      · rw [cell_store32_other _ _ _ _ hin him]
        exact hc i (by omega)
    · intro i hi
      rw [cell_store32_other _ _ _ _ hin (by omega)]
      exact ho i (by omega)

theorem get_pix_mask_ne_zero (data : List Nat) (offset i : Nat) :
    get_pix_mask data offset i ≠ 0 ↔ msb_bit data offset i = true := by
  unfold get_pix_mask msb_bit
  rw [Nat.shiftRight_eq_div_pow]
  exact and_shift_ne_zero _ _ (Nat.mod_lt _ (by decide))

theorem get_pix_hack_eq (i w : Nat) :
    get_pix_hack i w = if ((i % w) ^^^ (i / w)) % 2 = 1 then 0xc0303030 else 0x30505050 := by
  unfold get_pix_hack
  rw [Nat.and_one_is_mod]
  have h2 : ((i % w) ^^^ (i / w)) % 2 < 2 := Nat.mod_lt _ (by decide)
  by_cases h : ((i % w) ^^^ (i / w)) % 2 = 1
  · simp [h]
  · have h0 : ((i % w) ^^^ (i / w)) % 2 = 0 := by omega
    simp [h0]

theorem swap_cell_hack (i w : Nat) :
    swap_cell (word_bytes (get_pix_hack i w)) = word_bytes (get_pix_hack i w) := by
  unfold get_pix_hack
  split <;> decide

/-! ## Properties: the Color32 decoder -/

theorem memcpy_length (dst src : List Nat) (n : Nat) (h : n ≤ dst.length) :
    (memcpy dst src n).length = dst.length := by
  simp [memcpy]; omega

theorem byteAt_memcpy (dst src : List Nat) (n k : Nat) (hk : k < n) :
    byteAt (memcpy dst src n) k = byteAt src k := by
  have hlen : k < ((List.range n).map (byteAt src)).length := by simp [hk]
  have hget : (memcpy dst src n).getD k 0 = byteAt src k := by
    unfold memcpy
    rw [List.getD_append _ _ _ _ hlen, List.getD_eq_getElem _ _ hlen]
    simp
  show (memcpy dst src n).getD k 0 % 256 = byteAt src k
  rw [hget, Nat.mod_eq_of_lt (byteAt_lt src k)]

theorem color32_cursor_cell (hdr : SpiceCursorHeader) (buf data : List Nat) (size i : Nat)
    (hi : i < hdr.width * hdr.height) (hlen : 4 * (hdr.width * hdr.height) ≤ buf.length)
    (hsz : size ≤ buf.length) :
    cell (color32_cursor hdr buf data size) i
      = word_bytes (color32_value hdr data size i (memcpy buf data size)) ∧
    (color32_cursor hdr buf data size).length = buf.length := by
  have h := cell_loop_spec
    (fun i buf =>
      let pix_mask := get_pix_mask data size i
      if pix_mask ≠ 0 ∧ load32 data 0 i = 0xffffff then
        store32 buf i (get_pix_hack i hdr.width)
      else
        store32 buf i (load32 buf 0 i ||| (if pix_mask ≠ 0 then 0 else 0xff000000)))
    (color32_value hdr data size)
    (by intro i b; simp only [color32_value]; split <;> rfl)
    (by intro i b b2 hb; simp only [color32_value, load32_eq_word_of_cell, hb])
    (memcpy buf data size) (hdr.width * hdr.height) (hdr.width * hdr.height) (Nat.le_refl _)
    (by rw [memcpy_length _ _ _ hsz]; exact hlen)
  exact ⟨h.2.1 i hi, by rw [← memcpy_length buf data size hsz]; exact h.1⟩

theorem set_cursor_color32 (c : spice_cursor_channel) (scursor : SpiceCursor)
    (heap : Nat → Nat)
    (hnone : scursor.flags &&& SPICE_CURSOR_FLAGS_NONE = 0)
    (hcache : scursor.flags &&& SPICE_CURSOR_FLAGS_FROM_CACHE = 0)
    (hsize : scursor.data_size ≠ 0)
    (htype : scursor.header.type = SPICE_CURSOR_TYPE_COLOR32) :
    (set_cursor c scursor heap).1 = some
      { hdr := scursor.header, default_cursor := false,
        data := swap_red_blue (scursor.header.width * scursor.header.height)
          (color32_cursor scursor.header
            (spice_malloc heap (4 * scursor.header.width * scursor.header.height))
            scursor.data (4 * scursor.header.width * scursor.header.height)) } := by
  unfold set_cursor
  simp only [hnone, hcache, hsize, htype, ne_eq, not_true_eq_false, if_false, if_true]
  split <;> rfl

/-- The decoded cell `i` of a Color32 cursor, after the red/blue swap. -/
theorem color32_decoded_cell (hdr : SpiceCursorHeader) (data : List Nat) (heap : Nat → Nat)
    (i : Nat) (hi : i < hdr.width * hdr.height) :
    cell (swap_red_blue (hdr.width * hdr.height)
        (color32_cursor hdr (spice_malloc heap (4 * hdr.width * hdr.height)) data
          (4 * hdr.width * hdr.height))) i
      = swap_cell (word_bytes (color32_value hdr data (4 * hdr.width * hdr.height) i
          (memcpy (spice_malloc heap (4 * hdr.width * hdr.height)) data
            (4 * hdr.width * hdr.height)))) := by
  have hfresh : (spice_malloc heap (4 * hdr.width * hdr.height)).length
      = 4 * (hdr.width * hdr.height) := by
    rw [spice_malloc_length, Nat.mul_assoc]
  obtain ⟨hc, hl⟩ := color32_cursor_cell hdr (spice_malloc heap (4 * hdr.width * hdr.height))
    data (4 * hdr.width * hdr.height) i hi (by omega) (by rw [spice_malloc_length])
  rw [swap_red_blue_cell _ _ _ hi (by omega), hc]

/-- C3: in a Color32 cursor of a size within the `int` range in which
`set_cursor` computes it, a pixel `i` whose transparency-mask bit is set and
whose raw colour is `0xFFFFFF` decodes (red/blue swap included) to the
checkerboard constant chosen by the parity of `(i mod w) xor (i div w)`; its
alpha byte is not zero; and pixel 1 of a 4 wide image gets `0xc0303030`. -/
theorem color32_checkerboard (c : spice_cursor_channel) (scursor : SpiceCursor)
    (heap : Nat → Nat) (i : Nat)
    (hnone : scursor.flags &&& SPICE_CURSOR_FLAGS_NONE = 0)
    (hcache : scursor.flags &&& SPICE_CURSOR_FLAGS_FROM_CACHE = 0)
    (htype : scursor.header.type = SPICE_CURSOR_TYPE_COLOR32)
    (hsize : scursor.data_size ≠ 0)
    (hi : i < scursor.header.width * scursor.header.height)
    (hmask : msb_bit scursor.data (4 * scursor.header.width * scursor.header.height) i = true)
    (hraw : load32 scursor.data 0 i = 0xffffff)
    (hrange : size_in_int_range scursor.header) :
    ∃ cursor : display_cursor,
      (set_cursor c scursor heap).1 = some cursor ∧
      cursor.default_cursor = false ∧
      load32 cursor.data 0 i
        = (if ((i % scursor.header.width) ^^^ (i / scursor.header.width)) % 2 = 1
            then 0xc0303030 else 0x30505050) ∧
      byteAt cursor.data (4 * i + 3) ≠ 0 ∧
      (scursor.header.width = 4 → i = 1 → load32 cursor.data 0 i = 0xc0303030) := by
  have hcell := color32_decoded_cell scursor.header scursor.data heap i hi
  have hm := (get_pix_mask_ne_zero scursor.data
    (4 * scursor.header.width * scursor.header.height) i).2 hmask
  have hv : color32_value scursor.header scursor.data
      (4 * scursor.header.width * scursor.header.height) i
      (memcpy (spice_malloc heap (4 * scursor.header.width * scursor.header.height))
        scursor.data (4 * scursor.header.width * scursor.header.height))
      = get_pix_hack i scursor.header.width := by
    simp only [color32_value, hm, hraw, ne_eq, not_false_eq_true, and_self, if_true]
  rw [hv, swap_cell_hack] at hcell
  have hload : load32 (swap_red_blue (scursor.header.width * scursor.header.height)
      (color32_cursor scursor.header
        (spice_malloc heap (4 * scursor.header.width * scursor.header.height))
        scursor.data (4 * scursor.header.width * scursor.header.height))) 0 i
      = get_pix_hack i scursor.header.width := by
    rw [load32_eq_word_of_cell, hcell, word_of_cell_word_bytes]
    unfold get_pix_hack; split <;> rfl
  have halpha : byteAt (swap_red_blue (scursor.header.width * scursor.header.height)
      (color32_cursor scursor.header
        (spice_malloc heap (4 * scursor.header.width * scursor.header.height))
        scursor.data (4 * scursor.header.width * scursor.header.height))) (4 * i + 3) ≠ 0 := by
    have h3 := congrArg (fun q => q.2.2.2) hcell
    simp only [cell, quad] at h3
    rw [h3]
    unfold get_pix_hack; split <;> decide
  refine ⟨_, set_cursor_color32 c scursor heap hnone hcache hsize htype, rfl, ?_, halpha, ?_⟩
  · simp only [hload, get_pix_hack_eq]
  · intro hw h1
    subst h1
    rw [hload, hw]
    rfl

/-- C3 at pixel 1 of the 4 wide `color32_example`. -/
theorem color32_checkerboard_witness :
    msb_bit color32_example.data
      (4 * color32_example.header.width * color32_example.header.height) 1 = true ∧
    load32 color32_example.data 0 1 = 0xffffff ∧
    ∃ cursor : display_cursor,
      (set_cursor spice_cursor_channel_init color32_example (fun _ => 0)).1 = some cursor ∧
      cursor.default_cursor = false ∧
      load32 cursor.data 0 1
        = (if ((1 % color32_example.header.width) ^^^ (1 / color32_example.header.width)) % 2 = 1
            then 0xc0303030 else 0x30505050) ∧
      byteAt cursor.data (4 * 1 + 3) ≠ 0 ∧
      (color32_example.header.width = 4 → 1 = 1 → load32 cursor.data 0 1 = 0xc0303030) :=
  ⟨by decide, by decide,
    color32_checkerboard spice_cursor_channel_init color32_example (fun _ => 0) 1
      (by decide) (by decide) rfl (by decide) (by decide) (by decide) (by decide) (by decide)⟩

/-! ## Properties: the Color16 decoder -/

theorem set_cursor_alpha (c : spice_cursor_channel) (scursor : SpiceCursor)
    (heap : Nat → Nat)
    (hnone : scursor.flags &&& SPICE_CURSOR_FLAGS_NONE = 0)
    (hcache : scursor.flags &&& SPICE_CURSOR_FLAGS_FROM_CACHE = 0)
    (hsize : scursor.data_size ≠ 0)
    (htype : scursor.header.type = SPICE_CURSOR_TYPE_ALPHA) :
    (set_cursor c scursor heap).1 = some
      { hdr := scursor.header, default_cursor := false,
        data := swap_red_blue (scursor.header.width * scursor.header.height)
          (memcpy (spice_malloc heap (4 * scursor.header.width * scursor.header.height))
            scursor.data (4 * scursor.header.width * scursor.header.height)) } := by
  unfold set_cursor
  simp only [hnone, hcache, hsize, htype, ne_eq, not_true_eq_false, if_false, if_true,
    SPICE_CURSOR_TYPE_MONO, SPICE_CURSOR_TYPE_ALPHA]
  split <;> rfl

/-- C5: an Alpha cursor with a payload `p` of at least `4 * w * h` bytes, that
size being within the `int` range in which `set_cursor` computes it, decodes
to a buffer of `4 * w * h` bytes whose cell `i` is
`(p[4i+2], p[4i+1], p[4i], p[4i+3])`: the payload copied byte for byte, then
red and blue exchanged, green and alpha as they were. -/
theorem alpha_copy_swapped (c : spice_cursor_channel) (scursor : SpiceCursor)
    (heap : Nat → Nat) (i : Nat)
    (hnone : scursor.flags &&& SPICE_CURSOR_FLAGS_NONE = 0)
    (hcache : scursor.flags &&& SPICE_CURSOR_FLAGS_FROM_CACHE = 0)
    (htype : scursor.header.type = SPICE_CURSOR_TYPE_ALPHA)
    (hsize : scursor.data_size = scursor.data.length)
    (hlen : 4 * scursor.header.width * scursor.header.height ≤ scursor.data.length)
    (hi : i < scursor.header.width * scursor.header.height)
    (hrange : size_in_int_range scursor.header) :
    ∃ cursor : display_cursor,
      (set_cursor c scursor heap).1 = some cursor ∧
      cursor.default_cursor = false ∧
      cursor.data.length = 4 * scursor.header.width * scursor.header.height ∧
      cell cursor.data i
        = (byteAt scursor.data (4 * i + 2), byteAt scursor.data (4 * i + 1),
            byteAt scursor.data (4 * i), byteAt scursor.data (4 * i + 3)) := by
  have hne : scursor.data_size ≠ 0 := by
    rw [Nat.mul_assoc] at hlen; omega
  have hcopy : (memcpy (spice_malloc heap (4 * scursor.header.width * scursor.header.height))
      scursor.data (4 * scursor.header.width * scursor.header.height)).length
      = 4 * (scursor.header.width * scursor.header.height) := by
    rw [memcpy_length _ _ _ (by rw [spice_malloc_length]), spice_malloc_length, Nat.mul_assoc]
  refine ⟨_, set_cursor_alpha c scursor heap hnone hcache hne htype, rfl, ?_, ?_⟩
  · simp only
    rw [swap_red_blue_length _ _ (by omega), hcopy, Nat.mul_assoc]
  · simp only
    rw [swap_red_blue_cell _ _ _ hi (by omega)]
    simp only [swap_cell, cell, quad]
    rw [Nat.mul_assoc] at *
    rw [byteAt_memcpy _ _ _ _ (by omega), byteAt_memcpy _ _ _ _ (by omega),
      byteAt_memcpy _ _ _ _ (by omega), byteAt_memcpy _ _ _ _ (by omega)]

/-- C5 at cell 1 of `alpha_example`. -/
theorem alpha_copy_swapped_witness :
    alpha_example.header.type = SPICE_CURSOR_TYPE_ALPHA ∧
    ∃ cursor : display_cursor,
      (set_cursor spice_cursor_channel_init alpha_example (fun _ => 0xaa)).1 = some cursor ∧
      cursor.default_cursor = false ∧
      cursor.data.length = 4 * alpha_example.header.width * alpha_example.header.height ∧
      cell cursor.data 1
        = (byteAt alpha_example.data (4 * 1 + 2), byteAt alpha_example.data (4 * 1 + 1),
            byteAt alpha_example.data (4 * 1), byteAt alpha_example.data (4 * 1 + 3)) :=
  ⟨rfl, alpha_copy_swapped spice_cursor_channel_init alpha_example (fun _ => 0xaa) 1
    (by decide) (by decide) rfl rfl (by decide) (by decide) (by decide)⟩

/-! ## Properties: the Color4 decoder and the Set handler -/

/-- C6 fails on the code for an odd width.  In the 1 x 2 `color4_example` the
colour data is two rows of one byte and the palette is read at offset 2, yet
the index of pixel `(0, 1)` is taken from the low nibble of byte 0 (index 0,
black) and not from the high nibble of row 1 (index 2, colour `0x232221`). -/
theorem color4_odd_width_index :
    ∃ cursor : display_cursor,
      (set_cursor spice_cursor_channel_init color4_example (fun _ => 0)).1 = some cursor ∧
      get_pix_mask color4_example.data (2 + 64) 1 = 0 ∧
      color4_index_spec color4_example.data 1 0 1 = 2 ∧
      load32 color4_example.data 2 2 = 0x232221 ∧
      swap_cell (word_bytes (0x232221 ||| 0xff000000)) = (0x23, 0x22, 0x21, 0xff) ∧
      cell cursor.data (1 * 1 + 0) = (0, 0, 0, 0xff) ∧
      cell cursor.data (0 * 1 + 0) = (0x13, 0x12, 0x11, 0xff) :=
  ⟨_, rfl, by decide, by decide, by decide, by decide, by decide, by decide⟩

/-- C7 fails on the code: a Set message with the `NONE` flag handled in the
Ready state emits no signal at all, neither cursor-set nor cursor-hide, and
leaves the channel as it was; the Init handler, given the same cursor, emits
cursor-hide. -/
theorem cursor_set_none_emits_nothing (heap : Nat → Nat) :
    (set_cursor ready_channel none_cursor heap).1 = none ∧
    cursor_handle_set ready_channel
        { position := { x := 0, y := 0 }, visible := 1, cursor := none_cursor } heap
      = (ready_channel, []) ∧
    (cursor_handle_init spice_cursor_channel_init
        { position := { x := 0, y := 0 }, trail_length := 0, trail_frequency := 0,
          visible := 1, cursor := none_cursor } heap).2
      = [CursorSignal.SPICE_CURSOR_HIDE] := by
  refine ⟨rfl, rfl, ?_⟩
  simp [cursor_handle_init, spice_cursor_channel_init, delete_cursor_all, cache_get_lru,
    cache_init, set_cursor, none_cursor, SPICE_CURSOR_FLAGS_NONE]

/-! ## Properties: the cursor handlers and the cache -/

theorem delete_cursor_all_eq (c : spice_cursor_channel) :
    delete_cursor_all c = { c with cursors := [] } := by
  generalize hn : c.cursors.length = n
  induction n using Nat.strong_induction_on generalizing c with
  | _ n ih =>
    rw [delete_cursor_all]
    split
    · next h =>
      have hnil : c.cursors = [] := by
        simpa [cache_get_lru, List.getLast?_eq_none_iff] using h
      cases c
      simp only at hnil
      simp [hnil]
    · next item h =>
      have hmem : item ∈ c.cursors := List.mem_of_getLast?_eq_some h
      have hpos : 0 < c.cursors.length := List.length_pos_of_mem hmem
      have hlt : (delete_cursor_one c item).cursors.length < n := by
        simp only [delete_cursor_one, cache_del, List.length_erase_of_mem hmem]
        omega
      rw [ih _ hlt _ rfl]
      simp [delete_cursor_one]

/-- C8, as stated, fails for Hide: in a build without `EXTRA_CHECKS` the Hide
handler emits cursor-hide in the Uninitialized state. -/
theorem hide_not_rejected :
    spice_cursor_channel_init.init_done = false ∧
    cursor_handle_hide false spice_cursor_channel_init
      = (spice_cursor_channel_init, [CursorSignal.SPICE_CURSOR_HIDE]) :=
  ⟨rfl, rfl⟩

/-- C8, amended: in the Uninitialized state Set, Move and Trail emit no signal
and leave the channel (`init_done` and the cache) unchanged; Hide does the same
in a build with `EXTRA_CHECKS`, and without it emits cursor-hide, still leaving
the channel unchanged. -/
theorem not_ready_rejected (c : spice_cursor_channel) (set : SpiceMsgCursorSet)
    (move : SpiceMsgCursorMove) (heap : Nat → Nat) (h : c.init_done = false) :
    cursor_handle_set c set heap = (c, []) ∧
    cursor_handle_move c move = (c, []) ∧
    cursor_handle_trail c = (c, []) ∧
    cursor_handle_hide true c = (c, []) ∧
    cursor_handle_hide false c = (c, [CursorSignal.SPICE_CURSOR_HIDE]) := by
  simp [cursor_handle_set, cursor_handle_move, cursor_handle_trail, cursor_handle_hide, h]

/-- C8 amended, at the freshly constructed channel. -/
theorem not_ready_rejected_witness :
    spice_cursor_channel_init.init_done = false ∧
    cursor_handle_set spice_cursor_channel_init
        { position := { x := 0, y := 0 }, visible := 1, cursor := alpha_example } (fun _ => 0)
      = (spice_cursor_channel_init, []) ∧
    cursor_handle_move spice_cursor_channel_init { position := { x := 3, y := 4 } }
      = (spice_cursor_channel_init, []) ∧
    cursor_handle_trail spice_cursor_channel_init = (spice_cursor_channel_init, []) ∧
    cursor_handle_hide true spice_cursor_channel_init = (spice_cursor_channel_init, []) ∧
    cursor_handle_hide false spice_cursor_channel_init
      = (spice_cursor_channel_init, [CursorSignal.SPICE_CURSOR_HIDE]) :=
  ⟨rfl, not_ready_rejected spice_cursor_channel_init
    { position := { x := 0, y := 0 }, visible := 1, cursor := alpha_example }
    { position := { x := 3, y := 4 } } (fun _ => 0) rfl⟩

/-- C9, as stated, fails in the Ready state: an Init message with
`visible = 0` is rejected there and no cursor-hide is emitted. -/
theorem init_when_ready_emits_nothing :
    hidden_init.visible = 0 ∧ ready_channel.init_done = true ∧
    cursor_handle_init ready_channel hidden_init (fun _ => 0) = (ready_channel, []) ∧
    (cursor_handle_init ready_channel hidden_init (fun _ => 0)).2
      ≠ [CursorSignal.SPICE_CURSOR_HIDE] :=
  ⟨rfl, rfl, rfl, by decide⟩

/-- C9, amended: an Init message handled in the Uninitialized state emits
exactly one signal.  With `visible = 0` it is cursor-hide, whatever
`set_cursor` decoded; with `visible` set it is cursor-set for the cursor
`set_cursor` returned, and cursor-hide when `set_cursor` returned none. -/
theorem init_emits (c : spice_cursor_channel) (init : SpiceMsgCursorInit) (heap : Nat → Nat)
    (h : c.init_done = false) :
    (init.visible = 0 →
      (cursor_handle_init c init heap).2 = [CursorSignal.SPICE_CURSOR_HIDE]) ∧
    (∀ cursor : display_cursor, init.visible ≠ 0 →
      (set_cursor (delete_cursor_all c) init.cursor heap).1 = some cursor →
      (cursor_handle_init c init heap).2
        = [CursorSignal.SPICE_CURSOR_SET cursor.hdr.width cursor.hdr.height
            cursor.hdr.hot_spot_x cursor.hdr.hot_spot_y
            (if cursor.default_cursor then none else some cursor.data)]) ∧
    ((set_cursor (delete_cursor_all c) init.cursor heap).1 = none →
      (cursor_handle_init c init heap).2 = [CursorSignal.SPICE_CURSOR_HIDE]) := by
  refine ⟨?_, ?_, ?_⟩
  · intro hv
    simp [cursor_handle_init, h, hv]
  · intro cursor hv hc
    simp [cursor_handle_init, h, hv, hc, emit_cursor_set]
  · intro hc
    simp [cursor_handle_init, h, hc]

/-- C9 amended, at the freshly constructed channel and `hidden_init`, whose
cursor decodes to a non-null cursor. -/
theorem init_emits_witness :
    spice_cursor_channel_init.init_done = false ∧
    (set_cursor spice_cursor_channel_init hidden_init.cursor (fun _ => 0)).1.isSome = true ∧
    ((hidden_init.visible = 0 →
      (cursor_handle_init spice_cursor_channel_init hidden_init (fun _ => 0)).2
        = [CursorSignal.SPICE_CURSOR_HIDE]) ∧
    (∀ cursor : display_cursor, hidden_init.visible ≠ 0 →
      (set_cursor (delete_cursor_all spice_cursor_channel_init) hidden_init.cursor
        (fun _ => 0)).1 = some cursor →
      (cursor_handle_init spice_cursor_channel_init hidden_init (fun _ => 0)).2
        = [CursorSignal.SPICE_CURSOR_SET cursor.hdr.width cursor.hdr.height
            cursor.hdr.hot_spot_x cursor.hdr.hot_spot_y
            (if cursor.default_cursor then none else some cursor.data)]) ∧
    ((set_cursor (delete_cursor_all spice_cursor_channel_init) hidden_init.cursor
        (fun _ => 0)).1 = none →
      (cursor_handle_init spice_cursor_channel_init hidden_init (fun _ => 0)).2
        = [CursorSignal.SPICE_CURSOR_HIDE])) :=
  ⟨rfl, by decide, init_emits spice_cursor_channel_init hidden_init (fun _ => 0) rfl⟩

/-- C10: for a cursor with `FROM_CACHE` and without `NONE`, whatever its other
flags, `set_cursor` returns the payload of the cache entry found under the
header's id, or nothing when there is no entry with that id, and leaves the
channel state, the cache included, unchanged. -/
theorem from_cache_lookup (c : spice_cursor_channel) (scursor : SpiceCursor)
    (heap : Nat → Nat)
    (hnone : scursor.flags &&& SPICE_CURSOR_FLAGS_NONE = 0)
    (hcache : scursor.flags &&& SPICE_CURSOR_FLAGS_FROM_CACHE ≠ 0) :
    (set_cursor c scursor heap).2 = c ∧
    (set_cursor c scursor heap).1
      = (cache_find c.cursors scursor.header.unique).map (fun item => item.ptr) ∧
    (∀ cursor : display_cursor, (set_cursor c scursor heap).1 = some cursor →
      ∃ item, item ∈ c.cursors ∧ item.id = scursor.header.unique ∧ item.ptr = cursor) ∧
    ((set_cursor c scursor heap).1 = none ↔
      ∀ item, item ∈ c.cursors → item.id ≠ scursor.header.unique) := by
  have hres : set_cursor c scursor heap
      = ((cache_find c.cursors scursor.header.unique).map (fun item => item.ptr), c) := by
    unfold set_cursor
    simp only [hnone, hcache, ne_eq, not_true_eq_false, not_false_eq_true, if_false, if_true]
    split <;> simp [*]
  rw [hres]
  refine ⟨rfl, rfl, ?_, ?_⟩
  · intro cursor hc
    simp only [Option.map_eq_some'] at hc
    obtain ⟨item, hfind, hptr⟩ := hc
    refine ⟨item, List.mem_of_find?_eq_some hfind, ?_, hptr⟩
    have := List.find?_some hfind
    simpa using this
  · simp only [Option.map_eq_none', cache_find, List.find?_eq_none]
    constructor
    · intro hall item hmem hid
      exact hall item hmem (by simp [hid])
    · intro hall item hmem hid
      exact hall item hmem (by simpa using hid)

/-- C10 at `cached_channel` and a reference with `FROM_CACHE` and `CACHE_ME`. -/
theorem from_cache_lookup_witness :
    from_cache_cursor.flags &&& SPICE_CURSOR_FLAGS_CACHE_ME ≠ 0 ∧
    (set_cursor cached_channel from_cache_cursor (fun _ => 0)).2 = cached_channel ∧
    (set_cursor cached_channel from_cache_cursor (fun _ => 0)).1
      = (cache_find cached_channel.cursors from_cache_cursor.header.unique).map
          (fun item => item.ptr) ∧
    (∀ cursor : display_cursor,
      (set_cursor cached_channel from_cache_cursor (fun _ => 0)).1 = some cursor →
      ∃ item, item ∈ cached_channel.cursors ∧ item.id = from_cache_cursor.header.unique ∧
        item.ptr = cursor) ∧
    ((set_cursor cached_channel from_cache_cursor (fun _ => 0)).1 = none ↔
      ∀ item, item ∈ cached_channel.cursors → item.id ≠ from_cache_cursor.header.unique) :=
  ⟨by decide, from_cache_lookup cached_channel from_cache_cursor (fun _ => 0)
    (by decide) (by decide)⟩

/-! ## Properties: caching in set_cursor -/

/-- Past the `NONE`, `FROM_CACHE` and `data_size` checks `set_cursor` returns a
cursor, and the cache gains that cursor under the header's id exactly when
`CACHE_ME` is set. -/
theorem set_cursor_decode (c : spice_cursor_channel) (scursor : SpiceCursor)
    (heap : Nat → Nat)
    (hnone : scursor.flags &&& SPICE_CURSOR_FLAGS_NONE = 0)
    (hcache : scursor.flags &&& SPICE_CURSOR_FLAGS_FROM_CACHE = 0)
    (hsize : scursor.data_size ≠ 0) :
    ∃ cursor : display_cursor,
      cursor.hdr = scursor.header ∧
      (set_cursor c scursor heap).1 = some cursor ∧
      (scursor.flags &&& SPICE_CURSOR_FLAGS_CACHE_ME ≠ 0 →
        (set_cursor c scursor heap).2
          = { c with cursors := cache_add c.cursors scursor.header.unique cursor }) ∧
      (scursor.flags &&& SPICE_CURSOR_FLAGS_CACHE_ME = 0 → (set_cursor c scursor heap).2 = c) := by
  unfold set_cursor
  simp only [hnone, hcache, hsize, ne_eq, not_true_eq_false, if_false]
  by_cases hme : scursor.flags &&& SPICE_CURSOR_FLAGS_CACHE_ME = 0
  · rw [if_neg (fun h => h hme)]
    refine ⟨_, ?_, rfl, fun h => absurd hme h, fun _ => rfl⟩
    split <;> rfl
  · rw [if_pos hme]
    refine ⟨_, ?_, rfl, fun _ => rfl, fun h => absurd h hme⟩
    split <;> rfl

theorem cache_find_cache_add (cache : display_cache) (id : Nat) (ptr : display_cursor) :
    cache_find (cache_add cache id ptr) id = some { id := id, ptr := ptr } := by
  simp [cache_find, cache_add]

theorem set_cursor_from_cache (c : spice_cursor_channel) (scursor : SpiceCursor)
    (heap : Nat → Nat)
    (hnone : scursor.flags &&& SPICE_CURSOR_FLAGS_NONE = 0)
    (hcache : scursor.flags &&& SPICE_CURSOR_FLAGS_FROM_CACHE ≠ 0) :
    set_cursor c scursor heap
      = ((cache_find c.cursors scursor.header.unique).map (fun item => item.ptr), c) := by
  unfold set_cursor
  simp only [hnone, hcache, ne_eq, not_true_eq_false, not_false_eq_true, if_false, if_true]
  split <;> simp [*]

/-- C11: a cursor that is decoded (neither `NONE` nor `FROM_CACHE`, non-zero
data size) with `CACHE_ME` is added to the cache under the header's id, and a
following `set_cursor` with `FROM_CACHE` and the same id returns that very
cursor; without `CACHE_ME` the cache is left as it was and, the id not being
cached before, the following lookup returns nothing. -/
theorem cache_round_trip (c : spice_cursor_channel) (scursor ref : SpiceCursor)
    (heap heap2 : Nat → Nat)
    (hnone : scursor.flags &&& SPICE_CURSOR_FLAGS_NONE = 0)
    (hcache : scursor.flags &&& SPICE_CURSOR_FLAGS_FROM_CACHE = 0)
    (hsize : scursor.data_size ≠ 0)
    (hnew : cache_find c.cursors scursor.header.unique = none)
    (hrnone : ref.flags &&& SPICE_CURSOR_FLAGS_NONE = 0)
    (hrcache : ref.flags &&& SPICE_CURSOR_FLAGS_FROM_CACHE ≠ 0)
    (hid : ref.header.unique = scursor.header.unique) :
    ∃ cursor : display_cursor,
      (set_cursor c scursor heap).1 = some cursor ∧
      cursor.hdr = scursor.header ∧
      (scursor.flags &&& SPICE_CURSOR_FLAGS_CACHE_ME ≠ 0 →
        (set_cursor c scursor heap).2.cursors
          = cache_add c.cursors scursor.header.unique cursor ∧
        (set_cursor (set_cursor c scursor heap).2 ref heap2).1 = some cursor) ∧
      (scursor.flags &&& SPICE_CURSOR_FLAGS_CACHE_ME = 0 →
        (set_cursor c scursor heap).2 = c ∧
        (set_cursor (set_cursor c scursor heap).2 ref heap2).1 = none) := by
  obtain ⟨cursor, hhdr, hres, hme, hno⟩ := set_cursor_decode c scursor heap hnone hcache hsize
  refine ⟨cursor, hres, hhdr, ?_, ?_⟩
  · intro h
    rw [hme h, set_cursor_from_cache _ _ _ hrnone hrcache, hid]
    simp only [cache_find_cache_add, Option.map_some', and_self]
  · intro h
    rw [hno h, set_cursor_from_cache _ _ _ hrnone hrcache, hid, hnew]
    exact ⟨rfl, rfl⟩

/-- C11 at the empty cache, `cache_me_example` (Alpha, `CACHE_ME`, id 13) and
the reference `from_cache_cursor` to id 13. -/
theorem cache_round_trip_witness :
    cache_me_example.flags &&& SPICE_CURSOR_FLAGS_CACHE_ME ≠ 0 ∧
    ∃ cursor : display_cursor,
      (set_cursor ready_channel cache_me_example (fun _ => 0)).1 = some cursor ∧
      cursor.hdr = cache_me_example.header ∧
      (cache_me_example.flags &&& SPICE_CURSOR_FLAGS_CACHE_ME ≠ 0 →
        (set_cursor ready_channel cache_me_example (fun _ => 0)).2.cursors
          = cache_add ready_channel.cursors cache_me_example.header.unique cursor ∧
        (set_cursor (set_cursor ready_channel cache_me_example (fun _ => 0)).2
          from_cache_cursor (fun _ => 1)).1 = some cursor) ∧
      (cache_me_example.flags &&& SPICE_CURSOR_FLAGS_CACHE_ME = 0 →
        (set_cursor ready_channel cache_me_example (fun _ => 0)).2 = ready_channel ∧
        (set_cursor (set_cursor ready_channel cache_me_example (fun _ => 0)).2
          from_cache_cursor (fun _ => 1)).1 = none) :=
  ⟨by decide, cache_round_trip ready_channel cache_me_example from_cache_cursor
    (fun _ => 0) (fun _ => 1) (by decide) (by decide) (by decide) (by decide) (by decide)
    (by decide) (by decide)⟩

/-- C12: a cursor of a type other than MONO, ALPHA, COLOR32, COLOR16 and COLOR4
(neither `NONE` nor `FROM_CACHE`, non-zero data size) makes `set_cursor` return
a cursor with `default_cursor` set that carries the message header; it is
added to the cache exactly when `CACHE_ME` is set, and `emit_cursor_set`
publishes it as one cursor-set with absent pixel data. -/
theorem unknown_type_default (c : spice_cursor_channel) (scursor : SpiceCursor)
    (heap : Nat → Nat)
    (hnone : scursor.flags &&& SPICE_CURSOR_FLAGS_NONE = 0)
    (hcache : scursor.flags &&& SPICE_CURSOR_FLAGS_FROM_CACHE = 0)
    (hsize : scursor.data_size ≠ 0)
    (hmono : scursor.header.type ≠ SPICE_CURSOR_TYPE_MONO)
    (halpha : scursor.header.type ≠ SPICE_CURSOR_TYPE_ALPHA)
    (h32 : scursor.header.type ≠ SPICE_CURSOR_TYPE_COLOR32)
    (h16 : scursor.header.type ≠ SPICE_CURSOR_TYPE_COLOR16)
    (h4 : scursor.header.type ≠ SPICE_CURSOR_TYPE_COLOR4) :
    ∃ cursor : display_cursor,
      (set_cursor c scursor heap).1 = some cursor ∧
      cursor.default_cursor = true ∧
      cursor.hdr = scursor.header ∧
      (scursor.flags &&& SPICE_CURSOR_FLAGS_CACHE_ME ≠ 0 →
        (set_cursor c scursor heap).2
          = { c with cursors := cache_add c.cursors scursor.header.unique cursor }) ∧
      (scursor.flags &&& SPICE_CURSOR_FLAGS_CACHE_ME = 0 → (set_cursor c scursor heap).2 = c) ∧
      emit_cursor_set (some cursor)
        = [CursorSignal.SPICE_CURSOR_SET scursor.header.width scursor.header.height
            scursor.header.hot_spot_x scursor.header.hot_spot_y none] := by
  unfold set_cursor
  simp only [hnone, hcache, hsize, hmono, halpha, h32, h16, h4, ne_eq, not_true_eq_false,
    if_false]
  by_cases hme : scursor.flags &&& SPICE_CURSOR_FLAGS_CACHE_ME = 0
  · rw [if_neg (fun h => h hme)]
    exact ⟨_, rfl, rfl, rfl, fun h => absurd hme h, fun _ => rfl, rfl⟩
  · rw [if_pos hme]
    exact ⟨_, rfl, rfl, rfl, fun _ => rfl, fun h => absurd h hme, rfl⟩

/-- C12 at `unknown_type_example` (type 3, `CACHE_ME`). -/
theorem unknown_type_default_witness :
    unknown_type_example.flags &&& SPICE_CURSOR_FLAGS_CACHE_ME ≠ 0 ∧
    ∃ cursor : display_cursor,
      (set_cursor ready_channel unknown_type_example (fun _ => 0)).1 = some cursor ∧
      cursor.default_cursor = true ∧
      cursor.hdr = unknown_type_example.header ∧
      (unknown_type_example.flags &&& SPICE_CURSOR_FLAGS_CACHE_ME ≠ 0 →
        (set_cursor ready_channel unknown_type_example (fun _ => 0)).2
          = { ready_channel with
              cursors := cache_add ready_channel.cursors unknown_type_example.header.unique
                cursor }) ∧
      (unknown_type_example.flags &&& SPICE_CURSOR_FLAGS_CACHE_ME = 0 →
        (set_cursor ready_channel unknown_type_example (fun _ => 0)).2 = ready_channel) ∧
      emit_cursor_set (some cursor)
        = [CursorSignal.SPICE_CURSOR_SET unknown_type_example.header.width
            unknown_type_example.header.height unknown_type_example.header.hot_spot_x
            unknown_type_example.header.hot_spot_y none] :=
  ⟨by decide, unknown_type_default ready_channel unknown_type_example (fun _ => 0)
    (by decide) (by decide) (by decide) (by decide) (by decide) (by decide) (by decide)
    (by decide)⟩

/-- C13: a cursor whose flags include `NONE` makes `set_cursor` return no
cursor and leave the channel state, the cache included, exactly as it was,
whatever the other flags, the type, the payload and the cache contents. -/
theorem none_flag_no_cursor (c : spice_cursor_channel) (scursor : SpiceCursor)
    (heap : Nat → Nat)
    (hnone : scursor.flags &&& SPICE_CURSOR_FLAGS_NONE ≠ 0) :
    set_cursor c scursor heap = (none, c) ∧
    (set_cursor c scursor heap).2.cursors = c.cursors := by
  unfold set_cursor
  simp only [hnone, ne_eq, not_false_eq_true, if_true, and_self]

/-- C13 at `cached_channel` and a cursor with all three flags set whose id is
cached. -/
theorem none_flag_no_cursor_witness :
    none_all_flags_cursor.flags &&& SPICE_CURSOR_FLAGS_FROM_CACHE ≠ 0 ∧
    none_all_flags_cursor.flags &&& SPICE_CURSOR_FLAGS_CACHE_ME ≠ 0 ∧
    (cache_find cached_channel.cursors none_all_flags_cursor.header.unique).isSome = true ∧
    set_cursor cached_channel none_all_flags_cursor (fun _ => 0) = (none, cached_channel) ∧
    (set_cursor cached_channel none_all_flags_cursor (fun _ => 0)).2.cursors
      = cached_channel.cursors :=
  ⟨by decide, by decide, by decide,
    none_flag_no_cursor cached_channel none_all_flags_cursor (fun _ => 0) (by decide)⟩

/-! ## Properties: key codes -/

/-- The extended key code: `0xe0` in the low byte and, above it, the scancode
less `0x100`, truncated to 32 bits. -/
theorem extended_code_eq (s : Nat) :
    0xe0 ||| (((s - 0x100) <<< 8) % 4294967296) = 0xe0 + 256 * ((s - 0x100) % 16777216) := by
  have h : ((s - 0x100) <<< 8) % 4294967296 = 2 ^ 8 * ((s - 0x100) % 16777216) := by
    rw [Nat.shiftLeft_eq]
    show (s - 256) * 256 % 4294967296 = 256 * ((s - 256) % 16777216)
    omega
  rw [h, Nat.or_comm, ← Nat.mul_add_lt_is_or (by decide) _]
  show 256 * ((s - 256) % 16777216) + 224 = 224 + 256 * ((s - 256) % 16777216)
  omega

/-- C14: in the Ready state `spice_inputs_key_press` sends exactly one
key-down message, whose code is the scancode below `0x100` and
`0xe0 | ((s - 0x100) << 8)` modulo `2 ^ 32` from `0x100` on (the byte `0xe0`
followed by the scancode less `0x100`), and returns the accumulator
unchanged. -/
theorem key_press_code (c : spice_inputs_channel) (s : Nat) :
    spice_inputs_key_press spice_channel_state.SPICE_CHANNEL_STATE_READY c s
      = (c, [InputsMsg.KEY_DOWN
          (if s < 0x100 then s else 0xe0 ||| ((s - 0x100) * 2 ^ 8 % 2 ^ 32))]) ∧
    (0x100 ≤ s →
      spice_inputs_key_press spice_channel_state.SPICE_CHANNEL_STATE_READY c s
        = (c, [InputsMsg.KEY_DOWN (0xe0 + 256 * ((s - 0x100) % 2 ^ 24))])) := by
  constructor
  · simp only [spice_inputs_key_press, Nat.shiftLeft_eq, Nat.reducePow]
    rfl
  · intro hs
    have h := extended_code_eq s
    have hns : ¬ s < 0x100 := by omega
    simp only [spice_inputs_key_press, Nat.reducePow]
    rw [if_neg hns, h]
    rfl

/-- C15: in the Ready state `spice_inputs_key_release` sends exactly one key-up
message, whose code is `s | 0x80` below `0x100` and
`0x80e0 | ((s - 0x100) << 8)` modulo `2 ^ 32` from `0x100` on, and returns
the accumulator unchanged; scancode `0x101` gives `0x80e0 | (1 << 8)`; and the
release code is the press code with `0x80` (below `0x100`) or `0x8000` (from
`0x100` on) OR-ed in. -/
theorem key_release_code (c : spice_inputs_channel) (s : Nat) :
    spice_inputs_key_release spice_channel_state.SPICE_CHANNEL_STATE_READY c s
      = (c, [InputsMsg.KEY_UP
          (if s < 0x100 then s ||| 0x80 else 0x80e0 ||| ((s - 0x100) * 2 ^ 8 % 2 ^ 32))]) ∧
    spice_inputs_key_release spice_channel_state.SPICE_CHANNEL_STATE_READY c 0x101
      = (c, [InputsMsg.KEY_UP (0x80e0 ||| ((0x101 - 0x100) <<< 8))]) ∧
    (0x80e0 ||| ((0x101 - 0x100) <<< 8) : Nat) = 0x81e0 ∧
    (∃ down up : Nat,
      spice_inputs_key_press spice_channel_state.SPICE_CHANNEL_STATE_READY c s
        = (c, [InputsMsg.KEY_DOWN down]) ∧
      spice_inputs_key_release spice_channel_state.SPICE_CHANNEL_STATE_READY c s
        = (c, [InputsMsg.KEY_UP up]) ∧
      up = down ||| (if s < 0x100 then 0x80 else 0x8000)) := by
  refine ⟨?_, rfl, rfl, ?_⟩
  · simp only [spice_inputs_key_release, Nat.shiftLeft_eq, Nat.reducePow]
    rfl
  · refine ⟨_, _, rfl, rfl, ?_⟩
    by_cases hs : s < 0x100
    · simp only [hs, if_true]
    · simp only [hs, if_false]
      have h : (0x80e0 : Nat) = 0xe0 ||| 0x8000 := rfl
      rw [h, Nat.or_assoc, Nat.or_assoc, Nat.or_comm 0x8000]

/-- C14 at the scancodes `0x1c` and `0x11c`. -/
theorem key_press_code_witness :
    (spice_inputs_key_press spice_channel_state.SPICE_CHANNEL_STATE_READY
        spice_inputs_channel_init 0x11c
      = (spice_inputs_channel_init, [InputsMsg.KEY_DOWN
          (if 0x11c < 0x100 then 0x11c else 0xe0 ||| ((0x11c - 0x100) * 2 ^ 8 % 2 ^ 32))]) ∧
    (0x100 ≤ 0x11c →
      spice_inputs_key_press spice_channel_state.SPICE_CHANNEL_STATE_READY
          spice_inputs_channel_init 0x11c
        = (spice_inputs_channel_init,
            [InputsMsg.KEY_DOWN (0xe0 + 256 * ((0x11c - 0x100) % 2 ^ 24))]))) ∧
    spice_inputs_key_press spice_channel_state.SPICE_CHANNEL_STATE_READY
        spice_inputs_channel_init 0x11c
      = (spice_inputs_channel_init, [InputsMsg.KEY_DOWN 0x1ce0]) ∧
    spice_inputs_key_press spice_channel_state.SPICE_CHANNEL_STATE_READY
        spice_inputs_channel_init 0x1c
      = (spice_inputs_channel_init, [InputsMsg.KEY_DOWN 0x1c]) :=
  ⟨key_press_code spice_inputs_channel_init 0x11c, by decide, by decide⟩

/-- C15 at the scancode `0x1c`. -/
theorem key_release_code_witness :
    (spice_inputs_key_release spice_channel_state.SPICE_CHANNEL_STATE_READY
        spice_inputs_channel_init 0x1c
      = (spice_inputs_channel_init, [InputsMsg.KEY_UP
          (if 0x1c < 0x100 then 0x1c ||| 0x80
            else 0x80e0 ||| ((0x1c - 0x100) * 2 ^ 8 % 2 ^ 32))]) ∧
    spice_inputs_key_release spice_channel_state.SPICE_CHANNEL_STATE_READY
        spice_inputs_channel_init 0x101
      = (spice_inputs_channel_init, [InputsMsg.KEY_UP (0x80e0 ||| ((0x101 - 0x100) <<< 8))]) ∧
    (0x80e0 ||| ((0x101 - 0x100) <<< 8) : Nat) = 0x81e0 ∧
    (∃ down up : Nat,
      spice_inputs_key_press spice_channel_state.SPICE_CHANNEL_STATE_READY
          spice_inputs_channel_init 0x1c
        = (spice_inputs_channel_init, [InputsMsg.KEY_DOWN down]) ∧
      spice_inputs_key_release spice_channel_state.SPICE_CHANNEL_STATE_READY
          spice_inputs_channel_init 0x1c
        = (spice_inputs_channel_init, [InputsMsg.KEY_UP up]) ∧
      up = down ||| (if 0x1c < 0x100 then 0x80 else 0x8000))) ∧
    spice_inputs_key_release spice_channel_state.SPICE_CHANNEL_STATE_READY
        spice_inputs_channel_init 0x1c
      = (spice_inputs_channel_init, [InputsMsg.KEY_UP 0x9c]) :=
  ⟨key_release_code spice_inputs_channel_init 0x1c, by decide⟩

/-! ## Properties: the input coalescer -/

theorem wrap_int_of_range (v : Int) (h : in_int_range v) : wrap_int v = v := by
  unfold in_int_range at h
  unfold wrap_int
  omega

theorem wrap_int_range (v : Int) : in_int_range (wrap_int v) := by
  unfold in_int_range wrap_int
  omega

theorem wrap_int_emod (v : Int) : wrap_int v % 4294967296 = v % 4294967296 := by
  unfold wrap_int
  omega

theorem wrap_int_add (a b : Int) : wrap_int (wrap_int a + b) = wrap_int (a + b) := by
  unfold wrap_int
  omega

/-- C16: in the Ready state, with the counter at or above twice the bunch size,
`spice_inputs_motion` sends nothing, adds `(dx, dy)` to the motion slot in
`int` arithmetic, sets the button mask and changes nothing else; with the
counter below and an accumulated delta other than `(0, 0)` it sends exactly
one motion message, carrying the accumulated delta; and while the exact sums
are within the `int` range the accumulated delta is `(c.dx + dx, c.dy + dy)`. -/
theorem motion_call (bunch : Int) (c : spice_inputs_channel) (dx dy : Int) (bs : Nat) :
    (bunch * 2 ≤ c.motion_count →
      spice_inputs_motion bunch spice_channel_state.SPICE_CHANNEL_STATE_READY c dx dy bs
        = ({ c with bs := bs, dx := wrap_int (c.dx + dx), dy := wrap_int (c.dy + dy) }, [])) ∧
    (c.motion_count < bunch * 2 →
      ¬ (wrap_int (c.dx + dx) = 0 ∧ wrap_int (c.dy + dy) = 0) →
      spice_inputs_motion bunch spice_channel_state.SPICE_CHANNEL_STATE_READY c dx dy bs
        = ({ c with bs := bs, dx := 0, dy := 0, motion_count := c.motion_count + 1 },
            [InputsMsg.MOUSE_MOTION bs (wrap_int (c.dx + dx)) (wrap_int (c.dy + dy))])) ∧
    (in_int_range (c.dx + dx) → in_int_range (c.dy + dy) →
      wrap_int (c.dx + dx) = c.dx + dx ∧ wrap_int (c.dy + dy) = c.dy + dy) := by
  refine ⟨?_, ?_, ?_⟩
  · intro h
    have hn : ¬ c.motion_count < bunch * 2 := by omega
    simp only [spice_inputs_motion, ne_eq, not_true_eq_false, if_false, reduceCtorEq, hn]
  · intro h hz
    simp only [spice_inputs_motion, ne_eq, not_true_eq_false, if_false, reduceCtorEq, h,
      if_true, send_motion, mouse_motion, hz]
  · intro hx hy
    exact ⟨wrap_int_of_range _ hx, wrap_int_of_range _ hy⟩

/-- C16 at `saturated_channel` (counter 8, bunch size 4) and at the freshly
constructed accumulator (counter 0), with the delta `(5, -6)`; and at
`saturated_channel` with the delta `(2147483647, 0)` added twice, where the
second addition leaves the `int` range and the slot holds `-2`. -/
theorem motion_call_witness :
    (4 : Int) * 2 ≤ saturated_channel.motion_count ∧
    spice_inputs_channel_init.motion_count < (4 : Int) * 2 ∧
    in_int_range (saturated_channel.dx + 5) ∧ in_int_range (saturated_channel.dy + (-6)) ∧
    spice_inputs_motion 4 spice_channel_state.SPICE_CHANNEL_STATE_READY saturated_channel
        5 (-6) 1
      = ({ saturated_channel with bs := 1, dx := 5, dy := -6 }, []) ∧
    spice_inputs_motion 4 spice_channel_state.SPICE_CHANNEL_STATE_READY
        spice_inputs_channel_init 5 (-6) 1
      = ({ spice_inputs_channel_init with bs := 1, dx := 0, dy := 0, motion_count := 1 },
          [InputsMsg.MOUSE_MOTION 1 5 (-6)]) ∧
    (spice_inputs_motion 4 spice_channel_state.SPICE_CHANNEL_STATE_READY
        (spice_inputs_motion 4 spice_channel_state.SPICE_CHANNEL_STATE_READY saturated_channel
          2147483647 0 0).1 2147483647 0 0).1.dx = -2 ∧
    ((4 : Int) * 2 ≤ saturated_channel.motion_count →
      spice_inputs_motion 4 spice_channel_state.SPICE_CHANNEL_STATE_READY saturated_channel
          5 (-6) 1
        = ({ saturated_channel with
              bs := 1, dx := wrap_int (saturated_channel.dx + 5),
              dy := wrap_int (saturated_channel.dy + (-6)) }, [])) ∧
    (spice_inputs_channel_init.motion_count < (4 : Int) * 2 →
      ¬ (wrap_int (spice_inputs_channel_init.dx + 5) = 0
        ∧ wrap_int (spice_inputs_channel_init.dy + (-6)) = 0) →
      spice_inputs_motion 4 spice_channel_state.SPICE_CHANNEL_STATE_READY
          spice_inputs_channel_init 5 (-6) 1
        = ({ spice_inputs_channel_init with
              bs := 1, dx := 0, dy := 0,
              motion_count := spice_inputs_channel_init.motion_count + 1 },
            [InputsMsg.MOUSE_MOTION 1 (wrap_int (spice_inputs_channel_init.dx + 5))
              (wrap_int (spice_inputs_channel_init.dy + (-6)))])) :=
  ⟨by decide, by decide, by decide, by decide, by decide, by decide, by decide,
    (motion_call 4 saturated_channel 5 (-6) 1).1,
    (motion_call 4 spice_inputs_channel_init 5 (-6) 1).2.1⟩

theorem mouse_motion_eq (c : spice_inputs_channel) :
    mouse_motion c
      = if c.dx = 0 ∧ c.dy = 0 then (none, c)
        else (some (InputsMsg.MOUSE_MOTION c.bs c.dx c.dy),
              { c with motion_count := c.motion_count + 1, dx := 0, dy := 0 }) := rfl

theorem mouse_position_eq (c : spice_inputs_channel) :
    mouse_position c
      = if c.dpy = NO_DISPLAY then (none, c)
        else (some (InputsMsg.MOUSE_POSITION c.bs c.x c.y c.dpy),
              { c with motion_count := c.motion_count + 1, dpy := NO_DISPLAY }) := rfl

/-- The four cases of `inputs_handle_ack`, by what is pending. -/
theorem inputs_handle_ack_cases (bunch : Int) (c : spice_inputs_channel) :
    inputs_handle_ack bunch c
      = if c.dx = 0 ∧ c.dy = 0 then
          if c.dpy = NO_DISPLAY then
            ({ c with motion_count := c.motion_count - bunch }, [])
          else
            ({ c with motion_count := c.motion_count - bunch + 1, dpy := NO_DISPLAY },
              [InputsMsg.MOUSE_POSITION c.bs c.x c.y c.dpy])
        else
          if c.dpy = NO_DISPLAY then
            ({ c with motion_count := c.motion_count - bunch + 1, dx := 0, dy := 0 },
              [InputsMsg.MOUSE_MOTION c.bs c.dx c.dy])
          else
            ({ c with motion_count := c.motion_count - bunch + 1 + 1, dx := 0, dy := 0,
                      dpy := NO_DISPLAY },
              [InputsMsg.MOUSE_MOTION c.bs c.dx c.dy,
               InputsMsg.MOUSE_POSITION c.bs c.x c.y c.dpy]) := by
  unfold inputs_handle_ack
  simp only [mouse_motion_eq]
  by_cases hm : c.dx = 0 ∧ c.dy = 0
  · rw [if_pos hm, if_pos hm]
    simp only [mouse_position_eq]
    by_cases hp : c.dpy = NO_DISPLAY
    · rw [if_pos hp, if_pos hp]; rfl
    · rw [if_neg hp, if_neg hp]; rfl
  · rw [if_neg hm, if_neg hm]
    simp only [mouse_position_eq]
    by_cases hp : c.dpy = NO_DISPLAY
    · rw [if_pos hp, if_pos hp]; rfl
    · rw [if_neg hp, if_neg hp]; rfl

/-- C18: `inputs_handle_ack` sends the pending motion, if it is not `(0, 0)`,
then the pending position, if `dpy` is not the "no pending" mark, in that
order; afterwards the motion slot is `(0, 0)`, the position slot holds the
mark, the counter is the former counter less the bunch size plus the number
of messages sent, which is at most 2, and no other field has changed. -/
theorem ack_flush (bunch : Int) (c : spice_inputs_channel) :
    (inputs_handle_ack bunch c).2
      = (if c.dx = 0 ∧ c.dy = 0 then [] else [InputsMsg.MOUSE_MOTION c.bs c.dx c.dy])
        ++ (if c.dpy = NO_DISPLAY then []
            else [InputsMsg.MOUSE_POSITION c.bs c.x c.y c.dpy]) ∧
    (inputs_handle_ack bunch c).1
      = { c with dx := 0, dy := 0, dpy := NO_DISPLAY,
                 motion_count := c.motion_count - bunch
                   + ((inputs_handle_ack bunch c).2.length : Int) } ∧
    (inputs_handle_ack bunch c).2.length ≤ 2 := by
  rw [inputs_handle_ack_cases]
  obtain ⟨bs, dx, dy, x, y, dpy, mc, mods, locks⟩ := c
  by_cases hm : dx = 0 ∧ dy = 0
  · obtain ⟨hdx, hdy⟩ := hm
    subst hdx
    subst hdy
    by_cases hp : dpy = NO_DISPLAY
    · subst hp
      simp only [and_self, if_true, List.append_nil, List.length_nil, Nat.cast_zero,
        Int.add_zero, true_and]
      decide
    · simp only [and_self, if_true, hp, if_false, List.nil_append, List.length_singleton,
        Nat.cast_one, true_and]
      decide
  · by_cases hp : dpy = NO_DISPLAY
    · subst hp
      simp only [hm, if_false, if_true, List.append_nil, List.length_singleton,
        Nat.cast_one, true_and]
      decide
    · simp only [hm, hp, if_false, List.singleton_append, List.length_cons,
        List.length_nil, true_and]
      refine ⟨?_, by decide⟩
      simp only [spice_inputs_channel.mk.injEq, true_and, and_true]
      push_cast
      omega

/-- C18 at `pending_channel` with the bunch size 4: both slots are flushed,
motion first, and the counter goes from 9 to 9 - 4 + 2. -/
theorem ack_flush_witness :
    ((inputs_handle_ack 4 pending_channel).2
      = (if pending_channel.dx = 0 ∧ pending_channel.dy = 0 then []
          else [InputsMsg.MOUSE_MOTION pending_channel.bs pending_channel.dx pending_channel.dy])
        ++ (if pending_channel.dpy = NO_DISPLAY then []
            else [InputsMsg.MOUSE_POSITION pending_channel.bs pending_channel.x
              pending_channel.y pending_channel.dpy]) ∧
    (inputs_handle_ack 4 pending_channel).1
      = { pending_channel with
            dx := 0, dy := 0, dpy := NO_DISPLAY,
            motion_count := pending_channel.motion_count - 4
              + ((inputs_handle_ack 4 pending_channel).2.length : Int) } ∧
    (inputs_handle_ack 4 pending_channel).2.length ≤ 2) ∧
    inputs_handle_ack 4 pending_channel
      = ({ pending_channel with dx := 0, dy := 0, dpy := NO_DISPLAY, motion_count := 7 },
          [InputsMsg.MOUSE_MOTION 1 3 (-2), InputsMsg.MOUSE_POSITION 1 10 20 0]) :=
  ⟨ack_flush 4 pending_channel, by decide⟩

/-! ## Properties: sequences of input events -/

theorem mouse_motion_count (c : spice_inputs_channel) :
    (mouse_motion c).2.motion_count ≤ c.motion_count + 1 ∧
    ((mouse_motion c).1 = none → (mouse_motion c).2 = c) := by
  unfold mouse_motion
  split
  · exact ⟨by simp, fun _ => rfl⟩
  · exact ⟨by simp, fun h => by simp at h⟩

theorem mouse_position_count (c : spice_inputs_channel) :
    (mouse_position c).2.motion_count ≤ c.motion_count + 1 ∧
    ((mouse_position c).1 = none → (mouse_position c).2 = c) := by
  unfold mouse_position
  split
  · exact ⟨by simp, fun _ => rfl⟩
  · exact ⟨by simp, fun h => by simp at h⟩

theorem inputs_handle_ack_count (bunch : Int) (c : spice_inputs_channel) :
    (inputs_handle_ack bunch c).1.motion_count ≤ c.motion_count - bunch + 2 := by
  simp only [inputs_handle_ack]
  have h1 := (mouse_motion_count { c with motion_count := c.motion_count - bunch }).1
  have h2 := (mouse_position_count
    (mouse_motion { c with motion_count := c.motion_count - bunch }).2).1
  simp only at h1
  omega

theorem send_motion_count (c : spice_inputs_channel) :
    (send_motion c).1.motion_count ≤ c.motion_count + 1 := by
  have h := (mouse_motion_count c).1
  unfold send_motion
  split <;> simp_all

theorem send_position_count (c : spice_inputs_channel) :
    (send_position c).1.motion_count ≤ c.motion_count + 1 := by
  have h := (mouse_position_count c).1
  unfold send_position
  split <;> simp_all

theorem inputs_step_bound (bunch : Int) (hb : 2 ≤ bunch) (c : spice_inputs_channel)
    (e : InputsEvent) (hc : c.motion_count ≤ bunch * 2) :
    (inputs_step bunch c e).1.motion_count ≤ bunch * 2 := by
  cases e with
  | motion dx dy bs =>
    simp only [inputs_step, spice_inputs_motion]
    simp only [ne_eq, not_true_eq_false, if_false, reduceCtorEq]
    split
    · next hlt =>
      have h := send_motion_count
        { c with bs := bs, dx := wrap_int (c.dx + dx), dy := wrap_int (c.dy + dy) }
      simp only at h hlt
      omega
    · exact hc
  | position x y display bs =>
    simp only [inputs_step, spice_inputs_position]
    simp only [ne_eq, not_true_eq_false, if_false]
    split
    · next hlt =>
      have h := send_position_count
        { c with bs := bs, x := to_unsigned x, y := to_unsigned y, dpy := to_unsigned display }
      simp only at h hlt
      omega
    · exact hc
  | button_press button bs =>
    simp only [inputs_step, spice_inputs_button_press, ne_eq, not_true_eq_false, if_false]
    exact hc
  | button_release button bs =>
    simp only [inputs_step, spice_inputs_button_release, ne_eq, not_true_eq_false, if_false]
    exact hc
  | key_press s =>
    simp only [inputs_step, spice_inputs_key_press, ne_eq, not_true_eq_false, if_false,
      reduceCtorEq]
    exact hc
  | key_release s =>
    simp only [inputs_step, spice_inputs_key_release, ne_eq, not_true_eq_false, if_false,
      reduceCtorEq]
    exact hc
  | ack =>
    have h := inputs_handle_ack_count bunch c
    simp only [inputs_step]
    omega

theorem inputs_run_bound (bunch : Int) (hb : 2 ≤ bunch) (events : List InputsEvent) :
    ∀ c : spice_inputs_channel, c.motion_count ≤ bunch * 2 →
      (inputs_run bunch c events).1.motion_count ≤ bunch * 2 := by
  induction events with
  | nil => intro c hc; exact hc
  | cons e es ih =>
    intro c hc
    simp only [inputs_run]
    exact ih _ (inputs_step_bound bunch hb c e hc)

theorem mouse_motion_lower (c : spice_inputs_channel) :
    c.motion_count ≤ (mouse_motion c).2.motion_count := by
  unfold mouse_motion
  split
  · exact Int.le_refl _
  · show c.motion_count ≤ c.motion_count + 1
    omega

theorem mouse_position_lower (c : spice_inputs_channel) :
    c.motion_count ≤ (mouse_position c).2.motion_count := by
  unfold mouse_position
  split
  · exact Int.le_refl _
  · show c.motion_count ≤ c.motion_count + 1
    omega

theorem send_motion_lower (c : spice_inputs_channel) :
    c.motion_count ≤ (send_motion c).1.motion_count := by
  have h := mouse_motion_lower c
  unfold send_motion
  split <;> simp_all

theorem send_position_lower (c : spice_inputs_channel) :
    c.motion_count ≤ (send_position c).1.motion_count := by
  have h := mouse_position_lower c
  unfold send_position
  split <;> simp_all

theorem inputs_handle_ack_lower (bunch : Int) (c : spice_inputs_channel) :
    c.motion_count - bunch ≤ (inputs_handle_ack bunch c).1.motion_count := by
  simp only [inputs_handle_ack]
  have h1 := mouse_motion_lower { c with motion_count := c.motion_count - bunch }
  have h2 := mouse_position_lower
    (mouse_motion { c with motion_count := c.motion_count - bunch }).2
  simp only at h1
  omega

/-- One event lowers the counter by the bunch size at most, and only when it
is an ack-credit message. -/
theorem inputs_step_lower (bunch : Int) (hb : 0 ≤ bunch) (c : spice_inputs_channel)
    (e : InputsEvent) :
    c.motion_count - bunch * (ack_count [e] : Int) ≤ (inputs_step bunch c e).1.motion_count := by
  cases e with
  | motion dx dy bs =>
    simp only [inputs_step, spice_inputs_motion, ack_count]
    simp only [ne_eq, not_true_eq_false, if_false, reduceCtorEq]
    split
    · have h := send_motion_lower
        { c with bs := bs, dx := wrap_int (c.dx + dx), dy := wrap_int (c.dy + dy) }
      simp only at h
      simp only [Nat.cast_zero, Int.mul_zero, Int.sub_zero]
      exact h
    · simp only [Nat.cast_zero, Int.mul_zero, Int.sub_zero]
      exact Int.le_refl _
  | position x y display bs =>
    simp only [inputs_step, spice_inputs_position, ack_count]
    simp only [ne_eq, not_true_eq_false, if_false]
    split
    · have h := send_position_lower
        { c with bs := bs, x := to_unsigned x, y := to_unsigned y, dpy := to_unsigned display }
      simp only at h
      simp only [Nat.cast_zero, Int.mul_zero, Int.sub_zero]
      exact h
    · simp only [Nat.cast_zero, Int.mul_zero, Int.sub_zero]
      exact Int.le_refl _
  | button_press button bs =>
    simp only [inputs_step, spice_inputs_button_press, ne_eq, not_true_eq_false, if_false,
      ack_count, Nat.cast_zero, Int.mul_zero, Int.sub_zero]
    exact Int.le_refl _
  | button_release button bs =>
    simp only [inputs_step, spice_inputs_button_release, ne_eq, not_true_eq_false, if_false,
      ack_count, Nat.cast_zero, Int.mul_zero, Int.sub_zero]
    exact Int.le_refl _
  | key_press s =>
    simp only [inputs_step, spice_inputs_key_press, ne_eq, not_true_eq_false, if_false,
      reduceCtorEq, ack_count, Nat.cast_zero, Int.mul_zero, Int.sub_zero]
    exact Int.le_refl _
  | key_release s =>
    simp only [inputs_step, spice_inputs_key_release, ne_eq, not_true_eq_false, if_false,
      reduceCtorEq, ack_count, Nat.cast_zero, Int.mul_zero, Int.sub_zero]
    exact Int.le_refl _
  | ack =>
    have h := inputs_handle_ack_lower bunch c
    simp only [inputs_step, ack_count, Nat.zero_add, Nat.cast_one, Int.mul_one]
    exact h

theorem ack_count_cons (e : InputsEvent) (es : List InputsEvent) :
    ack_count (e :: es) = ack_count [e] + ack_count es := by
  cases e <;> simp [ack_count, Nat.add_comm]

/-- A sequence of events lowers the counter by the bunch size for each
ack-credit message at most. -/
theorem inputs_run_lower (bunch : Int) (hb : 0 ≤ bunch) (events : List InputsEvent) :
    ∀ c : spice_inputs_channel,
      c.motion_count - bunch * (ack_count events : Int)
        ≤ (inputs_run bunch c events).1.motion_count := by
  induction events with
  | nil =>
    intro c
    simp only [inputs_run, ack_count, Nat.cast_zero, Int.mul_zero, Int.sub_zero]
    exact Int.le_refl _
  | cons e es ih =>
    intro c
    have h1 := inputs_step_lower bunch hb c e
    have h2 := ih (inputs_step bunch c e).1
    simp only [inputs_run]
    rw [ack_count_cons]
    push_cast
    rw [Int.mul_add]
    omega

theorem ack_count_take (events : List InputsEvent) (k : Nat) :
    ack_count (events.take k) ≤ ack_count events := by
  induction events generalizing k with
  | nil => simp [ack_count]
  | cons e es ih =>
    cases k with
    | zero => simp [ack_count]
    | succ k =>
      rw [List.take_succ_cons, ack_count_cons, ack_count_cons e es]
      have := ih k
      omega

/-- C19: for a bunch size of at least 2 (twice which is an `int`), after every
finite sequence of motion, position, button and key calls and ack-credit
messages handled in the Ready state from the freshly constructed accumulator,
the outstanding counter is at most twice the bunch size, as long as the
ack-credits of the sequence, each of which takes the bunch size off the `int`
counter, cannot take it below `INT_MIN`: the bunch size times the number of
ack-credit messages is at most `2 ^ 31`.  The counter is then within the `int`
range after every event of the sequence. -/
theorem counter_bounded (bunch : Int) (hb : 2 ≤ bunch) (hmax : bunch * 2 ≤ 2147483647)
    (events : List InputsEvent)
    (hacks : bunch * (ack_count events : Int) ≤ 2147483648) :
    (inputs_run bunch spice_inputs_channel_init events).1.motion_count ≤ bunch * 2 ∧
    in_int_range (inputs_run bunch spice_inputs_channel_init events).1.motion_count ∧
    (∀ k : Nat,
      (inputs_run bunch spice_inputs_channel_init (events.take k)).1.motion_count ≤ bunch * 2 ∧
      in_int_range
        (inputs_run bunch spice_inputs_channel_init (events.take k)).1.motion_count) := by
  have h0 : spice_inputs_channel_init.motion_count = 0 := rfl
  have hall : ∀ es : List InputsEvent, bunch * (ack_count es : Int) ≤ 2147483648 →
      (inputs_run bunch spice_inputs_channel_init es).1.motion_count ≤ bunch * 2 ∧
      in_int_range (inputs_run bunch spice_inputs_channel_init es).1.motion_count := by
    intro es hes
    have hup := inputs_run_bound bunch hb es spice_inputs_channel_init (by
      show (0 : Int) ≤ bunch * 2
      omega)
    have hlow := inputs_run_lower bunch (by omega) es spice_inputs_channel_init
    rw [h0] at hlow
    refine ⟨hup, ?_⟩
    unfold in_int_range
    omega
  refine ⟨(hall events hacks).1, (hall events hacks).2, ?_⟩
  intro k
  apply hall
  have hk := ack_count_take events k
  have hk2 : bunch * (ack_count (events.take k) : Int) ≤ bunch * (ack_count events : Int) :=
    Int.mul_le_mul_of_nonneg_left (by exact_mod_cast hk) (by omega)
  omega

/-- C19 at the bunch size 4 and `events_example`, which holds one ack-credit
message and reaches the bound 8 before it. -/
theorem counter_bounded_witness :
    (2 : Int) ≤ 4 ∧
    ack_count events_example = 1 ∧
    (inputs_run 4 spice_inputs_channel_init (events_example.take 12)).1.motion_count = 8 ∧
    (inputs_run 4 spice_inputs_channel_init events_example).1.motion_count ≤ (4 : Int) * 2 ∧
    in_int_range (inputs_run 4 spice_inputs_channel_init events_example).1.motion_count :=
  ⟨by decide, by decide, by decide,
    (counter_bounded 4 (by decide) (by decide) events_example (by decide)).1,
    (counter_bounded 4 (by decide) (by decide) events_example (by decide)).2.1⟩

theorem inputs_run_motion_saturated (bunch : Int) (calls : List (Int × Int × Nat)) :
    ∀ c : spice_inputs_channel, bunch * 2 ≤ c.motion_count →
      in_int_range c.dx → in_int_range c.dy →
      inputs_run bunch c (motion_events calls)
        = ({ c with bs := calls.foldl (fun _ p => p.2.2) c.bs,
                    dx := wrap_int (c.dx + (calls.map (fun p => p.1)).sum),
                    dy := wrap_int (c.dy + (calls.map (fun p => p.2.1)).sum) }, []) := by
  induction calls with
  | nil =>
    intro c _ hx hy
    simp only [motion_events, List.map_nil, inputs_run, List.foldl_nil, List.sum_nil,
      Int.add_zero, wrap_int_of_range _ hx, wrap_int_of_range _ hy]
  | cons p ps ih =>
    intro c hc hx hy
    have hn : ¬ c.motion_count < bunch * 2 := by omega
    have hstep : inputs_step bunch c (InputsEvent.motion p.1 p.2.1 p.2.2)
        = ({ c with bs := p.2.2, dx := wrap_int (c.dx + p.1),
                    dy := wrap_int (c.dy + p.2.1) }, []) := by
      simp only [inputs_step, spice_inputs_motion, ne_eq, not_true_eq_false, if_false,
        reduceCtorEq, hn]
    have ih2 := ih { c with bs := p.2.2, dx := wrap_int (c.dx + p.1),
                            dy := wrap_int (c.dy + p.2.1) } hc
      (wrap_int_range _) (wrap_int_range _)
    simp only [motion_events, List.map_cons, inputs_run, hstep, List.nil_append] at ih2 ⊢
    rw [ih2]
    simp only [List.foldl_cons, List.sum_cons, wrap_int_add, Int.add_assoc]

theorem foldl_last_eq {α β : Type} (f : α → β) (l : List α) (b : β) (last : α)
    (h : l.getLast? = some last) : l.foldl (fun _ p => f p) b = f last := by
  induction l generalizing b with
  | nil => simp at h
  | cons a as ih =>
    cases as with
    | nil =>
      simp only [List.getLast?_singleton, Option.some.injEq] at h
      simp [h]
    | cons a2 as2 =>
      rw [List.getLast?_cons_cons] at h
      simp only [List.foldl_cons] at ih ⊢
      exact ih b h

/-- C17: motion calls issued from an empty motion slot while the counter is at
or above twice the bunch size send nothing; when the sum of their deltas, in
`int` arithmetic, is not `(0, 0)` the ack-credit handler then sends exactly
one motion message, first, carrying the component-wise sum of all deltas in
`int` arithmetic and the button mask of the last call (after it only the
pending position, if there is one), and leaves the motion slot at `(0, 0)`;
while the exact sums are within the `int` range they are the values carried. -/
theorem motion_flush_sum (bunch : Int) (c : spice_inputs_channel)
    (calls : List (Int × Int × Nat))
    (hdx : c.dx = 0) (hdy : c.dy = 0) (hcount : bunch * 2 ≤ c.motion_count)
    (hsum : ¬ (wrap_int (calls.map (fun p => p.1)).sum = 0
      ∧ wrap_int (calls.map (fun p => p.2.1)).sum = 0)) :
    (inputs_run bunch c (motion_events calls)).2 = [] ∧
    (∃ last : Int × Int × Nat, calls.getLast? = some last ∧
      (inputs_handle_ack bunch (inputs_run bunch c (motion_events calls)).1).2
        = InputsMsg.MOUSE_MOTION last.2.2 (wrap_int (calls.map (fun p => p.1)).sum)
            (wrap_int (calls.map (fun p => p.2.1)).sum)
          :: (if c.dpy = NO_DISPLAY then []
              else [InputsMsg.MOUSE_POSITION last.2.2 c.x c.y c.dpy]) ∧
      (inputs_handle_ack bunch (inputs_run bunch c (motion_events calls)).1).1.dx = 0 ∧
      (inputs_handle_ack bunch (inputs_run bunch c (motion_events calls)).1).1.dy = 0) ∧
    (in_int_range (calls.map (fun p => p.1)).sum →
      in_int_range (calls.map (fun p => p.2.1)).sum →
      wrap_int (calls.map (fun p => p.1)).sum = (calls.map (fun p => p.1)).sum ∧
      wrap_int (calls.map (fun p => p.2.1)).sum = (calls.map (fun p => p.2.1)).sum) := by
  have hne : calls ≠ [] := by
    intro h
    apply hsum
    subst h
    exact ⟨by decide, by decide⟩
  obtain ⟨last, hlast⟩ : ∃ last, calls.getLast? = some last := by
    cases hl : calls.getLast? with
    | none => exact absurd (List.getLast?_eq_none_iff.1 hl) hne
    | some v => exact ⟨v, rfl⟩
  have hr0 : in_int_range (0 : Int) := by decide
  rw [inputs_run_motion_saturated bunch calls c hcount (hdx ▸ hr0) (hdy ▸ hr0),
    foldl_last_eq (fun p : Int × Int × Nat => p.2.2) calls c.bs last hlast, hdx, hdy]
  simp only [Int.zero_add]
  refine ⟨trivial, ⟨last, hlast, ?_⟩, fun hx hy => ⟨wrap_int_of_range _ hx, wrap_int_of_range _ hy⟩⟩
  rw [inputs_handle_ack_cases]
  simp only [hsum, if_false]
  by_cases hp : c.dpy = NO_DISPLAY
  · simp only [hp, if_true, and_self]
  · simp only [hp, if_false, and_self]

/-- C17 at `saturated_channel` (counter 8, bunch size 4) and three calls
whose deltas sum to `(5, 3)`. -/
theorem motion_flush_sum_witness :
    ¬ (wrap_int (motion_calls_example.map (fun p => p.1)).sum = 0
      ∧ wrap_int (motion_calls_example.map (fun p => p.2.1)).sum = 0) ∧
    in_int_range (motion_calls_example.map (fun p => p.1)).sum ∧
    in_int_range (motion_calls_example.map (fun p => p.2.1)).sum ∧
    inputs_handle_ack 4 (inputs_run 4 saturated_channel (motion_events motion_calls_example)).1
      = ({ saturated_channel with bs := 5, motion_count := 5 },
          [InputsMsg.MOUSE_MOTION 5 5 3]) ∧
    (inputs_run 4 saturated_channel (motion_events motion_calls_example)).2 = [] ∧
    (∃ last : Int × Int × Nat, motion_calls_example.getLast? = some last ∧
      (inputs_handle_ack 4
          (inputs_run 4 saturated_channel (motion_events motion_calls_example)).1).2
        = InputsMsg.MOUSE_MOTION last.2.2
            (wrap_int (motion_calls_example.map (fun p => p.1)).sum)
            (wrap_int (motion_calls_example.map (fun p => p.2.1)).sum)
          :: (if saturated_channel.dpy = NO_DISPLAY then []
              else [InputsMsg.MOUSE_POSITION last.2.2 saturated_channel.x saturated_channel.y
                saturated_channel.dpy]) ∧
      (inputs_handle_ack 4
          (inputs_run 4 saturated_channel (motion_events motion_calls_example)).1).1.dx = 0 ∧
      (inputs_handle_ack 4
          (inputs_run 4 saturated_channel (motion_events motion_calls_example)).1).1.dy = 0) :=
  ⟨by decide, by decide, by decide, by decide,
    (motion_flush_sum 4 saturated_channel motion_calls_example rfl rfl (by decide)
      (by decide)).1,
    (motion_flush_sum 4 saturated_channel motion_calls_example rfl rfl (by decide)
      (by decide)).2.1⟩

theorem inputs_step_position_saturated (bunch : Int) (c : spice_inputs_channel)
    (p : Int × Int × Int × Nat) (hc : bunch * 2 ≤ c.motion_count) :
    inputs_step bunch c (InputsEvent.position p.1 p.2.1 p.2.2.1 p.2.2.2)
      = ({ c with bs := p.2.2.2, x := to_unsigned p.1, y := to_unsigned p.2.1,
                  dpy := to_unsigned p.2.2.1 }, []) := by
  have hn : ¬ c.motion_count < bunch * 2 := by omega
  simp only [inputs_step, spice_inputs_position, ne_eq, not_true_eq_false, if_false, hn]

theorem inputs_run_position_saturated (bunch : Int) (calls : List (Int × Int × Int × Nat))
    (last : Int × Int × Int × Nat) (hlast : calls.getLast? = some last) :
    ∀ c : spice_inputs_channel, bunch * 2 ≤ c.motion_count →
      inputs_run bunch c (position_events calls)
        = ({ c with bs := last.2.2.2, x := to_unsigned last.1, y := to_unsigned last.2.1,
                    dpy := to_unsigned last.2.2.1 }, []) := by
  induction calls with
  | nil => simp at hlast
  | cons p ps ih =>
    intro c hc
    have hstep := inputs_step_position_saturated bunch c p hc
    simp only [position_events, List.map_cons, inputs_run, hstep, List.nil_append]
    cases ps with
    | nil =>
      simp only [List.getLast?_singleton, Option.some.injEq] at hlast
      subst hlast
      simp only [List.map_nil, inputs_run]
    | cons p2 ps2 =>
      rw [List.getLast?_cons_cons] at hlast
      have ih2 := ih hlast
        { c with bs := p.2.2.2, x := to_unsigned p.1, y := to_unsigned p.2.1,
                 dpy := to_unsigned p.2.2.1 } hc
      simp only [position_events] at ih2
      rw [ih2]

/-- C20, as stated, fails when the last call names the display `-1`: the call
`spice_inputs_position(5, 6, -1, 0)` at a counter of 8 (bunch size 4) stores
the "no pending" mark in `dpy`, and the next ack-credit sends no position
message. -/
theorem position_sentinel_not_flushed :
    (4 : Int) * 2 ≤ saturated_channel.motion_count ∧
    (inputs_run 4 saturated_channel (position_events [(5, 6, -1, 0)])).2 = [] ∧
    (inputs_run 4 saturated_channel (position_events [(5, 6, -1, 0)])).1.dpy = NO_DISPLAY ∧
    (inputs_handle_ack 4
      (inputs_run 4 saturated_channel (position_events [(5, 6, -1, 0)])).1).2 = [] := by
  decide

/-- C20, amended: position calls issued while the counter is at or above twice
the bunch size send nothing, and when the last of them names a display other
than `-1` the next ack-credit sends exactly one position message, carrying
`x`, `y`, `display` and the button mask of that last call only (after the
pending motion, if there is one); with the counter below the threshold a call
with a display other than `-1` sends one position message with its own
arguments and leaves the "no pending" mark in the slot. -/
theorem position_overwrites (bunch : Int) (c : spice_inputs_channel)
    (calls : List (Int × Int × Int × Nat)) (last : Int × Int × Int × Nat)
    (hcount : bunch * 2 ≤ c.motion_count) (hlast : calls.getLast? = some last)
    (hdpy : to_unsigned last.2.2.1 ≠ NO_DISPLAY) :
    (inputs_run bunch c (position_events calls)).2 = [] ∧
    (inputs_handle_ack bunch (inputs_run bunch c (position_events calls)).1).2
      = (if c.dx = 0 ∧ c.dy = 0 then [] else [InputsMsg.MOUSE_MOTION last.2.2.2 c.dx c.dy])
        ++ [InputsMsg.MOUSE_POSITION last.2.2.2 (to_unsigned last.1) (to_unsigned last.2.1)
              (to_unsigned last.2.2.1)] ∧
    (∀ (c2 : spice_inputs_channel) (x y display : Int) (bs : Nat),
      c2.motion_count < bunch * 2 → to_unsigned display ≠ NO_DISPLAY →
      spice_inputs_position bunch spice_channel_state.SPICE_CHANNEL_STATE_READY c2 x y display bs
        = ({ c2 with bs := bs, x := to_unsigned x, y := to_unsigned y, dpy := NO_DISPLAY,
                     motion_count := c2.motion_count + 1 },
            [InputsMsg.MOUSE_POSITION bs (to_unsigned x) (to_unsigned y)
              (to_unsigned display)])) := by
  rw [inputs_run_position_saturated bunch calls last hlast c hcount]
  refine ⟨rfl, ?_, ?_⟩
  · rw [inputs_handle_ack_cases]
    simp only [hdpy, if_false]
    by_cases hm : c.dx = 0 ∧ c.dy = 0
    · simp only [hm, and_self, if_true, List.nil_append]
    · simp only [hm, if_false, List.singleton_append]
  · intro c2 x y display bs hlt hd
    simp only [spice_inputs_position, ne_eq, not_true_eq_false, if_false, hlt, if_true,
      send_position, mouse_position, hd]

/-- C20 amended, at `saturated_channel` (counter 8, bunch size 4) and three
calls. -/
theorem position_overwrites_witness :
    (4 : Int) * 2 ≤ saturated_channel.motion_count ∧
    position_calls_example.getLast? = some (7, 9, 0, 1) ∧
    to_unsigned (0 : Int) ≠ NO_DISPLAY ∧
    inputs_handle_ack 4
        (inputs_run 4 saturated_channel (position_events position_calls_example)).1
      = ({ saturated_channel with bs := 1, x := 7, y := 9, motion_count := 5 },
          [InputsMsg.MOUSE_POSITION 1 7 9 0]) ∧
    ((inputs_run 4 saturated_channel (position_events position_calls_example)).2 = [] ∧
    (inputs_handle_ack 4
        (inputs_run 4 saturated_channel (position_events position_calls_example)).1).2
      = (if saturated_channel.dx = 0 ∧ saturated_channel.dy = 0 then []
          else [InputsMsg.MOUSE_MOTION 1 saturated_channel.dx saturated_channel.dy])
        ++ [InputsMsg.MOUSE_POSITION 1 (to_unsigned 7) (to_unsigned 9) (to_unsigned 0)] ∧
    (∀ (c2 : spice_inputs_channel) (x y display : Int) (bs : Nat),
      c2.motion_count < (4 : Int) * 2 → to_unsigned display ≠ NO_DISPLAY →
      spice_inputs_position 4 spice_channel_state.SPICE_CHANNEL_STATE_READY c2 x y display bs
        = ({ c2 with bs := bs, x := to_unsigned x, y := to_unsigned y, dpy := NO_DISPLAY,
                     motion_count := c2.motion_count + 1 },
            [InputsMsg.MOUSE_POSITION bs (to_unsigned x) (to_unsigned y)
              (to_unsigned display)]))) :=
  ⟨by decide, rfl, by decide, by decide,
    position_overwrites 4 saturated_channel position_calls_example (7, 9, 0, 1)
      (by decide) rfl (by decide)⟩

/-! ## Properties: mouse buttons -/

theorem and_not_mask_testBit (bs m i : Nat) (hbs : bs < 2 ^ 32) (hm : m < 2 ^ 32) :
    (bs &&& (0xffffffff - m)).testBit i = (bs.testBit i && !m.testBit i) := by
  have hx : 0xffffffff - m = (2 ^ 32 - 1) ^^^ m := by
    apply Nat.eq_of_testBit_eq
    intro j
    have h1 : (0xffffffff : Nat) = 2 ^ 32 - 1 := rfl
    rw [h1, Nat.testBit_xor, Nat.testBit_two_pow_sub_one]
    have h2 := Nat.testBit_two_pow_sub_succ hm j
    have h3 : 2 ^ 32 - (m + 1) = 2 ^ 32 - 1 - m := by omega
    rw [h3] at h2
    rw [h2]
    by_cases hj : j < 32
    · simp [hj]
    · have hle : 2 ^ 32 ≤ 2 ^ j := Nat.pow_le_pow_right (by decide) (by omega)
      have hf : m.testBit j = false := Nat.testBit_lt_two_pow (by omega)
      simp [hj, hf]
  rw [hx, Nat.testBit_and, Nat.testBit_xor, Nat.testBit_two_pow_sub_one]
  by_cases hi : i < 32
  · simp [hi]
  · have hle : 2 ^ 32 ≤ 2 ^ i := Nat.pow_le_pow_right (by decide) (by omega)
    have hf : bs.testBit i = false := Nat.testBit_lt_two_pow (by omega)
    simp [hf]

theorem button_mask_lt (button : Nat) : button_mask button < 2 ^ 32 := by
  unfold button_mask
  split
  · decide
  · split
    · decide
    · split <;> decide

/-- C21: in the Ready state, whatever the counter, `spice_inputs_button_press`
sends exactly one press message whose buttons state is `button_state` with
the mask bit of the button set (unchanged for a button other than LEFT,
MIDDLE, RIGHT), and `spice_inputs_button_release` exactly one release message
with that bit cleared; the stored button mask becomes the same value and the
motion slot, the position slot and the counter are unchanged. -/
theorem button_bypass (c : spice_inputs_channel) (button button_state : Nat)
    (hbs : button_state < 2 ^ 32) :
    spice_inputs_button_press spice_channel_state.SPICE_CHANNEL_STATE_READY c button button_state
      = ({ c with bs := button_state ||| button_mask button },
          [InputsMsg.MOUSE_PRESS button (button_state ||| button_mask button)]) ∧
    (∀ i, (button_state ||| button_mask button).testBit i
      = (button_state.testBit i || (button_mask button).testBit i)) ∧
    (∃ released : Nat,
      spice_inputs_button_release spice_channel_state.SPICE_CHANNEL_STATE_READY c button
          button_state
        = ({ c with bs := released }, [InputsMsg.MOUSE_RELEASE button released]) ∧
      ∀ i, released.testBit i = (button_state.testBit i && !(button_mask button).testBit i)) ∧
    button_mask SPICE_MOUSE_BUTTON_LEFT = SPICE_MOUSE_BUTTON_MASK_LEFT ∧
    button_mask SPICE_MOUSE_BUTTON_MIDDLE = SPICE_MOUSE_BUTTON_MASK_MIDDLE ∧
    button_mask SPICE_MOUSE_BUTTON_RIGHT = SPICE_MOUSE_BUTTON_MASK_RIGHT ∧
    (button ≠ SPICE_MOUSE_BUTTON_LEFT → button ≠ SPICE_MOUSE_BUTTON_MIDDLE →
      button ≠ SPICE_MOUSE_BUTTON_RIGHT → button_mask button = 0) := by
  refine ⟨?_, fun i => Nat.testBit_or _ _ i, ?_, rfl, rfl, rfl, ?_⟩
  · simp only [spice_inputs_button_press, button_mask, ne_eq, not_true_eq_false, if_false]
    split
    · rfl
    · split
      · rfl
      · split
        · rfl
        · simp
  · refine ⟨button_state &&& (0xffffffff - button_mask button), ?_,
      fun i => and_not_mask_testBit _ _ i hbs (button_mask_lt button)⟩
    simp only [spice_inputs_button_release, button_mask, ne_eq, not_true_eq_false, if_false]
    split
    · rfl
    · split
      · rfl
      · split
        · rfl
        · have h : button_state &&& (0xffffffff - 0) = button_state := by
            have h1 : (0xffffffff : Nat) - 0 = 2 ^ 32 - 1 := rfl
            rw [h1, Nat.and_pow_two_sub_one_eq_mod, Nat.mod_eq_of_lt hbs]
          rw [h]
  · intro h1 h2 h3
    simp [button_mask, h1, h2, h3]

/-- C21 at `pending_channel` (counter 9, above the threshold for the bunch
size 4), the left button and the button state 6. -/
theorem button_bypass_witness :
    (6 : Nat) < 2 ^ 32 ∧
    spice_inputs_button_press spice_channel_state.SPICE_CHANNEL_STATE_READY pending_channel 1 6
      = ({ pending_channel with bs := 7 }, [InputsMsg.MOUSE_PRESS 1 7]) ∧
    spice_inputs_button_release spice_channel_state.SPICE_CHANNEL_STATE_READY pending_channel 2 6
      = ({ pending_channel with bs := 4 }, [InputsMsg.MOUSE_RELEASE 2 4]) ∧
    (spice_inputs_button_press spice_channel_state.SPICE_CHANNEL_STATE_READY pending_channel 1 6
      = ({ pending_channel with bs := 6 ||| button_mask 1 },
          [InputsMsg.MOUSE_PRESS 1 (6 ||| button_mask 1)]) ∧
    (∀ i, (6 ||| button_mask 1).testBit i
      = ((6 : Nat).testBit i || (button_mask 1).testBit i)) ∧
    (∃ released : Nat,
      spice_inputs_button_release spice_channel_state.SPICE_CHANNEL_STATE_READY pending_channel 1
          6
        = ({ pending_channel with bs := released }, [InputsMsg.MOUSE_RELEASE 1 released]) ∧
      ∀ i, released.testBit i = ((6 : Nat).testBit i && !(button_mask 1).testBit i)) ∧
    button_mask SPICE_MOUSE_BUTTON_LEFT = SPICE_MOUSE_BUTTON_MASK_LEFT ∧
    button_mask SPICE_MOUSE_BUTTON_MIDDLE = SPICE_MOUSE_BUTTON_MASK_MIDDLE ∧
    button_mask SPICE_MOUSE_BUTTON_RIGHT = SPICE_MOUSE_BUTTON_MASK_RIGHT ∧
    ((1 : Nat) ≠ SPICE_MOUSE_BUTTON_LEFT → (1 : Nat) ≠ SPICE_MOUSE_BUTTON_MIDDLE →
      (1 : Nat) ≠ SPICE_MOUSE_BUTTON_RIGHT → button_mask 1 = 0)) :=
  ⟨by decide, by decide, by decide, button_bypass pending_channel 1 6 (by decide)⟩

/-! ## Properties: the control handlers -/

/-- C22: with `NEED_FLUSH` and `NEED_DATA_TRANSFER` both set and a MigrateData
message received, the effects of `spice_channel_handle_migrate` are, in this
order, a flush, the FlushMark, a flush, the blocking receive, the session
rebind and one outbound MigrateData whose payload is the data of the received
message; with neither flag the only effect is the session rebind.  The
handler returns in both cases. -/
theorem migrate_sequence (flags : Nat) (msg : spice_msg_in)
    (htype : msg.type = SPICE_MSG_MIGRATE_DATA) (hsize : msg.size = msg.data.length) :
    (flags &&& SPICE_MIGRATE_NEED_FLUSH ≠ 0 → flags &&& SPICE_MIGRATE_NEED_DATA_TRANSFER ≠ 0 →
      spice_channel_handle_migrate flags (some msg)
        = ([ChannelEffect.iterate_write, ChannelEffect.send_migrate_flush_mark,
            ChannelEffect.iterate_write, ChannelEffect.recv_msg,
            ChannelEffect.session_channel_migrate, ChannelEffect.send_migrate_data msg.data],
           Outcome.returned)) ∧
    (∀ received : Option spice_msg_in,
      flags &&& SPICE_MIGRATE_NEED_FLUSH = 0 → flags &&& SPICE_MIGRATE_NEED_DATA_TRANSFER = 0 →
      spice_channel_handle_migrate flags received
        = ([ChannelEffect.session_channel_migrate], Outcome.returned)) := by
  constructor
  · intro hf hd
    simp only [spice_channel_handle_migrate, hf, hd, ne_eq, not_false_eq_true, if_true,
      get_msg_handler, not_true_eq_false, if_false, htype, hsize, List.take_length,
      List.append_nil, List.cons_append, List.nil_append]
  · intro received hf hd
    simp only [spice_channel_handle_migrate, hf, hd, ne_eq, not_true_eq_false, if_false,
      List.nil_append]

/-- C22 at the flags `NEED_FLUSH | NEED_DATA_TRANSFER` and a MigrateData message
of three bytes. -/
theorem migrate_sequence_witness :
    migrate_data_example.type = SPICE_MSG_MIGRATE_DATA ∧
    migrate_data_example.size = migrate_data_example.data.length ∧
    spice_channel_handle_migrate 3 (some migrate_data_example)
      = ([ChannelEffect.iterate_write, ChannelEffect.send_migrate_flush_mark,
          ChannelEffect.iterate_write, ChannelEffect.recv_msg,
          ChannelEffect.session_channel_migrate,
          ChannelEffect.send_migrate_data [0xde, 0xad, 0x42]],
         Outcome.returned) ∧
    spice_channel_handle_migrate 0 (some migrate_data_example)
      = ([ChannelEffect.session_channel_migrate], Outcome.returned) :=
  ⟨rfl, rfl,
    (migrate_sequence 3 migrate_data_example rfl rfl).1 (by decide) (by decide),
    (migrate_sequence 0 migrate_data_example rfl rfl).2 _ (by decide) (by decide)⟩

/-- C23 fails on the code when no message is captured: with
`NEED_DATA_TRANSFER` and nothing delivered by `spice_channel_recv_msg`, `data`
is still `NULL` when the warning reads `data->header.type`; the handler ends
there, before the session rebind.  When a message of another type is received
the violation is reported and the handshake completes. -/
theorem migrate_without_data :
    spice_channel_handle_migrate SPICE_MIGRATE_NEED_DATA_TRANSFER none
      = ([ChannelEffect.recv_msg], Outcome.null_dereference) ∧
    ChannelEffect.session_channel_migrate
      ∉ (spice_channel_handle_migrate SPICE_MIGRATE_NEED_DATA_TRANSFER none).1 ∧
    spice_channel_handle_migrate SPICE_MIGRATE_NEED_DATA_TRANSFER (some unexpected_msg_example)
      = ([ChannelEffect.recv_msg, ChannelEffect.g_warning,
          ChannelEffect.session_channel_migrate, ChannelEffect.send_migrate_data [1, 2, 3]],
         Outcome.returned) := by
  decide

/-- C29: `spice_channel_handle_set_ack` sets the ack window and the ack count
of the channel to the window of the message, sends exactly one Ack-Sync with
the generation of the message, and changes nothing else. -/
theorem set_ack_window (c : spice_channel) (ack : SpiceMsgSetAck) :
    (spice_channel_handle_set_ack c ack).1.message_ack_window = ack.window ∧
    (spice_channel_handle_set_ack c ack).1.message_ack_count = ack.window ∧
    (spice_channel_handle_set_ack c ack).2 = [ChannelEffect.send_ack_sync ack.generation] ∧
    (spice_channel_handle_set_ack c ack).1
      = { c with message_ack_window := ack.window, message_ack_count := ack.window } ∧
    (spice_channel_handle_set_ack c ack).1.state = c.state :=
  ⟨rfl, rfl, rfl, rfl, rfl⟩

/-- C29 at a Ready channel with window 10 and count 3, for a SetAck with
generation 7 and window 20. -/
theorem set_ack_window_witness :
    spice_channel_handle_set_ack
        { state := spice_channel_state.SPICE_CHANNEL_STATE_READY, message_ack_window := 10,
          message_ack_count := 3 }
        { generation := 7, window := 20 }
      = ({ state := spice_channel_state.SPICE_CHANNEL_STATE_READY, message_ack_window := 20,
           message_ack_count := 20 },
         [ChannelEffect.send_ack_sync 7]) ∧
    (spice_channel_handle_set_ack
        { state := spice_channel_state.SPICE_CHANNEL_STATE_READY, message_ack_window := 10,
          message_ack_count := 3 }
        { generation := 7, window := 20 }).1.message_ack_window = 20 :=
  ⟨by decide,
    (set_ack_window
      { state := spice_channel_state.SPICE_CHANNEL_STATE_READY, message_ack_window := 10,
        message_ack_count := 3 }
      { generation := 7, window := 20 }).1⟩

theorem to_unsigned_nonneg (v : Int) (h0 : 0 ≤ v) (h1 : v < 2147483648) :
    to_unsigned v = v.toNat := by
  unfold to_unsigned
  rw [Int.emod_eq_of_lt h0 (by omega)]

theorem to_unsigned_neg (v : Int) (h0 : v < 0) (h1 : -2147483648 ≤ v) :
    2147483648 ≤ to_unsigned v := by
  unfold to_unsigned
  have h : v % 4294967296 = v + 4294967296 := by omega
  rw [h]
  omega

theorem handle_msg_spec {σ : Type} (handlers : List (Option spice_msg_handler))
    (hlen : handlers.length < 2147483648)
    (invoke : spice_msg_handler → σ → σ) (s : σ) (type : Int)
    (hlow : -2147483648 ≤ type) (hhigh : type < 2147483648) :
    (∀ h, 0 ≤ type → type.toNat < handlers.length →
      handlers.getD type.toNat none = some h → handle_msg handlers invoke s type = invoke h s) ∧
    ((type < 0 ∨ handlers.length ≤ type.toNat ∨ handlers.getD type.toNat none = none) →
      handle_msg handlers invoke s type = s) := by
  constructor
  · intro h h0 hlt hslot
    have hconv := to_unsigned_nonneg type h0 hhigh
    unfold handle_msg
    rw [hconv, if_neg (fun hn => hn hlt), hslot]
  · intro hcase
    unfold handle_msg
    by_cases h0 : 0 ≤ type
    · have hconv := to_unsigned_nonneg type h0 hhigh
      rw [hconv]
      rcases hcase with hneg | hbig | hnone
      · omega
      · rw [if_pos (by omega)]
      · split
        · rfl
        · rw [hnone]
    · have hbig := to_unsigned_neg type (by omega) hlow
      rw [if_pos (by omega)]

/-- C27: `spice_cursor_handle_msg` and `spice_inputs_handle_msg` call the
handler their table holds for the type tag of the message when the tag is
inside the table and the slot is not empty, and nothing else; for a negative
tag, a tag at or beyond the length of the table, or an empty slot they call
no handler and the state is what it was.  The cursor table has 109 slots and
the inputs table 112, filled at the tags listed. -/
theorem dispatch_by_tag {σ : Type} (invoke : spice_msg_handler → σ → σ) (s : σ) (type : Int)
    (hlow : -2147483648 ≤ type) (hhigh : type < 2147483648) :
    (∀ h, 0 ≤ type → type.toNat < cursor_handlers.length →
      cursor_handlers.getD type.toNat none = some h →
      spice_cursor_handle_msg invoke s type = invoke h s) ∧
    ((type < 0 ∨ cursor_handlers.length ≤ type.toNat
        ∨ cursor_handlers.getD type.toNat none = none) →
      spice_cursor_handle_msg invoke s type = s) ∧
    (∀ h, 0 ≤ type → type.toNat < inputs_handlers.length →
      inputs_handlers.getD type.toNat none = some h →
      spice_inputs_handle_msg invoke s type = invoke h s) ∧
    ((type < 0 ∨ inputs_handlers.length ≤ type.toNat
        ∨ inputs_handlers.getD type.toNat none = none) →
      spice_inputs_handle_msg invoke s type = s) ∧
    cursor_handlers.length = 109 ∧
    registered_tags cursor_handlers = [1, 3, 4, 5, 6, 7, 101, 102, 103, 104, 105, 106, 107, 108] ∧
    inputs_handlers.length = 112 ∧
    registered_tags inputs_handlers = [1, 3, 4, 5, 6, 7, 101, 102, 111] := by
  have hc := handle_msg_spec cursor_handlers (by decide) invoke s type hlow hhigh
  have hi := handle_msg_spec inputs_handlers (by decide) invoke s type hlow hhigh
  exact ⟨hc.1, hc.2, hi.1, hi.2, by decide, by decide, by decide, by decide⟩

/-- C27 with a state that records the handlers called: the tag 103 of the
cursor channel calls `cursor_handle_set` and nothing else; the tags 2 (empty
slot), 109 (beyond the table) and -1 call nothing; tag 111 of the inputs
channel calls `inputs_handle_ack`. -/
theorem dispatch_by_tag_witness :
    spice_cursor_handle_msg (fun h l => l ++ [h]) [] 103
      = [spice_msg_handler.cursor_handle_set] ∧
    spice_cursor_handle_msg (fun h l => l ++ [h]) [] 2 = [] ∧
    spice_cursor_handle_msg (fun h l => l ++ [h]) [] 109 = [] ∧
    spice_cursor_handle_msg (fun h l => l ++ [h]) [] (-1) = [] ∧
    spice_inputs_handle_msg (fun h l => l ++ [h]) [] 111
      = [spice_msg_handler.inputs_handle_ack] ∧
    spice_inputs_handle_msg (fun h l => l ++ [h]) [] 103 = [] :=
  ⟨(dispatch_by_tag (fun h l => l ++ [h]) [] 103 (by decide) (by decide)).1
      spice_msg_handler.cursor_handle_set (by decide) (by decide) (by decide),
    (dispatch_by_tag (fun h (l : List spice_msg_handler) => l ++ [h]) [] 2 (by decide)
      (by decide)).2.1 (Or.inr (Or.inr (by decide))),
    (dispatch_by_tag (fun h (l : List spice_msg_handler) => l ++ [h]) [] 109 (by decide)
      (by decide)).2.1 (Or.inr (Or.inl (by decide))),
    (dispatch_by_tag (fun h (l : List spice_msg_handler) => l ++ [h]) [] (-1) (by decide)
      (by decide)).2.1 (Or.inl (by decide)),
    (dispatch_by_tag (fun h l => l ++ [h]) [] 111 (by decide) (by decide)).2.2.1
      spice_msg_handler.inputs_handle_ack (by decide) (by decide) (by decide),
    (dispatch_by_tag (fun h (l : List spice_msg_handler) => l ++ [h]) [] 103 (by decide)
      (by decide)).2.2.2.1 (Or.inr (Or.inr (by decide)))⟩

/-! ## Properties: cursor channel modes and cache lifetime -/

theorem set_cursor_init_done (c : spice_cursor_channel) (scursor : SpiceCursor)
    (heap : Nat → Nat) : (set_cursor c scursor heap).2.init_done = c.init_done := by
  unfold set_cursor
  simp only
  split
  · rfl
  · split
    · split <;> rfl
    · split
      · rfl
      · split <;> rfl

theorem delete_cursor_all_init_done (c : spice_cursor_channel) :
    (delete_cursor_all c).init_done = c.init_done := by
  rw [delete_cursor_all_eq]

/-- C24: Init handled in the Uninitialized state ends in Ready; Reset ends in
Uninitialized with an empty cache and emits exactly one cursor-reset; Init
received in the Ready state changes nothing and emits nothing; Set, Move, Hide,
Trail, InvalOne (whenever it returns) and InvalAll leave `init_done` as it
was. -/
theorem cursor_mode_transitions (c : spice_cursor_channel) (init : SpiceMsgCursorInit)
    (set : SpiceMsgCursorSet) (move : SpiceMsgCursorMove) (id : Nat) (checks : Bool)
    (heap : Nat → Nat) :
    (c.init_done = false → (cursor_handle_init c init heap).1.init_done = true) ∧
    cursor_handle_reset c
      = ({ cursors := [], init_done := false }, [CursorSignal.SPICE_CURSOR_RESET]) ∧
    (c.init_done = true → cursor_handle_init c init heap = (c, [])) ∧
    (cursor_handle_set c set heap).1.init_done = c.init_done ∧
    (cursor_handle_move c move).1.init_done = c.init_done ∧
    (cursor_handle_hide checks c).1.init_done = c.init_done ∧
    (cursor_handle_trail c).1.init_done = c.init_done ∧
    (∀ r, cursor_handle_inval_one c id = some r → r.1.init_done = c.init_done) ∧
    (cursor_handle_inval_all c).1.init_done = c.init_done := by
  refine ⟨?_, ?_, ?_, ?_, ?_, ?_, ?_, ?_, ?_⟩
  · intro h
    simp only [cursor_handle_init, h, ne_eq, not_true_eq_false, if_false]
    split <;> rfl
  · simp only [cursor_handle_reset, delete_cursor_all_eq]
  · intro h
    simp only [cursor_handle_init, h, ne_eq, Bool.true_eq_false, not_false_eq_true, if_true]
  · simp only [cursor_handle_set]
    split
    · rfl
    · exact set_cursor_init_done c set.cursor heap
  · simp only [cursor_handle_move]
    split <;> rfl
  · simp only [cursor_handle_hide]
    split <;> rfl
  · simp only [cursor_handle_trail]
    split <;> rfl
  · intro r hr
    simp only [cursor_handle_inval_one] at hr
    split at hr
    · cases hr; rfl
    · split at hr
      · cases hr
      · cases hr; rfl
  · simp only [cursor_handle_inval_all, delete_cursor_all_init_done]

/-- C24 at the freshly constructed channel and at `cached_channel` (Ready, one
cached cursor). -/
theorem cursor_mode_transitions_witness :
    spice_cursor_channel_init.init_done = false ∧
    (cursor_handle_init spice_cursor_channel_init hidden_init (fun _ => 0)).1.init_done = true ∧
    cached_channel.init_done = true ∧
    cursor_handle_init cached_channel hidden_init (fun _ => 0) = (cached_channel, []) ∧
    cursor_handle_reset cached_channel
      = ({ cursors := [], init_done := false }, [CursorSignal.SPICE_CURSOR_RESET]) :=
  ⟨rfl,
    (cursor_mode_transitions spice_cursor_channel_init hidden_init
      { position := { x := 0, y := 0 }, visible := 1, cursor := alpha_example }
      { position := { x := 0, y := 0 } } 0 false (fun _ => 0)).1 rfl,
    rfl,
    (cursor_mode_transitions cached_channel hidden_init
      { position := { x := 0, y := 0 }, visible := 1, cursor := alpha_example }
      { position := { x := 0, y := 0 } } 0 false (fun _ => 0)).2.2.1 rfl,
    (cursor_mode_transitions cached_channel hidden_init
      { position := { x := 0, y := 0 }, visible := 1, cursor := alpha_example }
      { position := { x := 0, y := 0 } } 0 false (fun _ => 0)).2.1⟩

/-- C25, as stated, fails in the Ready state: an Init message received by
`cached_channel` is rejected and the cursor cached under id 13 stays. -/
theorem init_when_ready_keeps_cache :
    cached_channel.init_done = true ∧
    (cache_find cached_channel.cursors 13).isSome = true ∧
    cursor_handle_init cached_channel caching_init (fun _ => 0) = (cached_channel, []) ∧
    (cache_find (cursor_handle_init cached_channel caching_init (fun _ => 0)).1.cursors
      13).isSome = true :=
  ⟨rfl, by decide, rfl, by decide⟩

/-- C25, amended: after an Init message handled in the Uninitialized state the
cache holds exactly the cursor of the message, under the header's id, when
that cursor was decoded (neither `NONE` nor `FROM_CACHE`, non-zero data size)
with `CACHE_ME`, and is empty otherwise; whatever the cache held before is
gone. -/
theorem init_clears_cache (c : spice_cursor_channel) (init : SpiceMsgCursorInit)
    (heap : Nat → Nat) (h : c.init_done = false) :
    ((init.cursor.flags &&& SPICE_CURSOR_FLAGS_NONE = 0 ∧
        init.cursor.flags &&& SPICE_CURSOR_FLAGS_FROM_CACHE = 0 ∧
        init.cursor.data_size ≠ 0 ∧
        init.cursor.flags &&& SPICE_CURSOR_FLAGS_CACHE_ME ≠ 0) →
      ∃ cursor : display_cursor,
        (set_cursor { c with cursors := [] } init.cursor heap).1 = some cursor ∧
        (cursor_handle_init c init heap).1.cursors
          = [{ id := init.cursor.header.unique, ptr := cursor }]) ∧
    (¬ (init.cursor.flags &&& SPICE_CURSOR_FLAGS_NONE = 0 ∧
        init.cursor.flags &&& SPICE_CURSOR_FLAGS_FROM_CACHE = 0 ∧
        init.cursor.data_size ≠ 0 ∧
        init.cursor.flags &&& SPICE_CURSOR_FLAGS_CACHE_ME ≠ 0) →
      (cursor_handle_init c init heap).1.cursors = []) := by
  have hstate : (cursor_handle_init c init heap).1.cursors
      = (set_cursor { c with cursors := [] } init.cursor heap).2.cursors := by
    simp only [cursor_handle_init, h, ne_eq, not_true_eq_false, if_false,
      delete_cursor_all_eq]
    split <;> rfl
  rw [hstate]
  constructor
  · rintro ⟨hnone, hcache, hsize, hme⟩
    obtain ⟨cursor, _, hres, hadd, _⟩ :=
      set_cursor_decode { c with cursors := [] } init.cursor heap hnone hcache hsize
    exact ⟨cursor, hres, by rw [hadd hme]; rfl⟩
  · intro hnot
    by_cases hnone : init.cursor.flags &&& SPICE_CURSOR_FLAGS_NONE = 0
    · by_cases hcache : init.cursor.flags &&& SPICE_CURSOR_FLAGS_FROM_CACHE = 0
      · by_cases hsize : init.cursor.data_size = 0
        · unfold set_cursor
          simp only [hnone, hcache, hsize, ne_eq, not_true_eq_false, if_false, if_true]
        · have hme : init.cursor.flags &&& SPICE_CURSOR_FLAGS_CACHE_ME = 0 := by
            by_contra hme
            exact hnot ⟨hnone, hcache, hsize, hme⟩
          obtain ⟨cursor, _, _, _, hkeep⟩ :=
            set_cursor_decode { c with cursors := [] } init.cursor heap hnone hcache hsize
          rw [hkeep hme]
      · rw [set_cursor_from_cache _ _ _ hnone hcache]
    · unfold set_cursor
      simp only [hnone, ne_eq, not_false_eq_true, if_true]

/-- C25 amended, at `stale_channel` (Uninitialized, an entry under id 21) and
an Init whose cursor is decoded with `CACHE_ME` under id 13. -/
theorem init_clears_cache_witness :
    stale_channel.init_done = false ∧
    (cache_find stale_channel.cursors 21).isSome = true ∧
    (cursor_handle_init stale_channel caching_init (fun _ => 0)).1.cursors
      = [{ id := 13, ptr := { hdr := alpha_example.header, default_cursor := false,
                              data := [3, 2, 1, 4, 7, 6, 5, 8] } }] ∧
    (cursor_handle_init stale_channel hidden_init (fun _ => 0)).1.cursors = [] :=
  ⟨rfl, by decide,
    by
      obtain ⟨cursor, hc, hcache⟩ :=
        (init_clears_cache stale_channel caching_init (fun _ => 0) rfl).1
          ⟨by decide, by decide, by decide, by decide⟩
      rw [hcache]
      have hval : (set_cursor { stale_channel with cursors := [] } caching_init.cursor
          (fun _ => 0)).1
          = some { hdr := alpha_example.header, default_cursor := false,
                   data := [3, 2, 1, 4, 7, 6, 5, 8] } := by decide
      rw [hval] at hc
      cases hc
      rfl,
    (init_clears_cache stale_channel hidden_init (fun _ => 0) rfl).2 (by decide)⟩

/-- C26 fails on the code when the id is not cached: `cache_find` returns
`NULL`, `delete_cursor_one` reads `item->ptr` through it and the handler does
not return (`none`), where `set_cursor` checks the same lookup and returns no
cursor.  When the id is cached the entry is removed and `init_done` stays. -/
theorem inval_one_miss_does_not_return :
    ready_channel.init_done = true ∧
    cache_find ready_channel.cursors 5 = none ∧
    cursor_handle_inval_one ready_channel 5 = none ∧
    (set_cursor ready_channel { from_cache_cursor with flags := 4 } (fun _ => 0))
      = (none, ready_channel) ∧
    cursor_handle_inval_one cached_channel 13
      = some ({ cursors := [], init_done := true }, []) ∧
    cursor_handle_inval_one cached_channel 5 = none := by
  decide

/-- C30: `cursor_handle_inval_all` empties the cache, as `cursor_handle_reset`
does, in either mode, keeps `init_done` and emits no signal. -/
theorem inval_all_like_reset (c : spice_cursor_channel) :
    cursor_handle_inval_all c = ({ c with cursors := [] }, []) ∧
    (cursor_handle_inval_all c).1.cursors = (cursor_handle_reset c).1.cursors ∧
    (cursor_handle_inval_all c).1.cursors = [] ∧
    (cursor_handle_inval_all c).1.init_done = c.init_done ∧
    (cursor_handle_inval_all c).2 = [] := by
  simp only [cursor_handle_inval_all, cursor_handle_reset, delete_cursor_all_eq, and_self]

/-- C30 at `cached_channel` (Ready) and `stale_channel` (Uninitialized). -/
theorem inval_all_like_reset_witness :
    cursor_handle_inval_all cached_channel = ({ cursors := [], init_done := true }, []) ∧
    cursor_handle_inval_all stale_channel = ({ cursors := [], init_done := false }, []) ∧
    (cursor_handle_reset cached_channel).1.cursors = [] :=
  ⟨(inval_all_like_reset cached_channel).1, (inval_all_like_reset stale_channel).1,
    by rw [← (inval_all_like_reset cached_channel).2.1]
       exact (inval_all_like_reset cached_channel).2.2.1⟩

/-! ## Properties: what a fresh buffer and a fresh accumulator hold -/

/-- C36, as stated, fails: the Color16 case ORs each pixel into the cell that
`spice_malloc` handed out without clearing it.  The same message
`color16_example` decoded over memory that held zeros and over memory that held
the byte 7 gives two different pixel buffers. -/
theorem color16_depends_on_heap :
    (set_cursor spice_cursor_channel_init color16_example (fun _ => 0)).1
      = some { hdr := color16_example.header, default_cursor := false,
               data := [8, 0, 0, 255, 0, 0, 0, 255] } ∧
    (set_cursor spice_cursor_channel_init color16_example (fun _ => 7)).1
      = some { hdr := color16_example.header, default_cursor := false,
               data := [15, 7, 7, 255, 7, 7, 7, 255] } ∧
    (set_cursor spice_cursor_channel_init color16_example (fun _ => 0)).1
      ≠ (set_cursor spice_cursor_channel_init color16_example (fun _ => 7)).1 := by
  refine ⟨by decide, by decide, by decide⟩

/-- C32, as stated, fails: `spice_inputs_channel_init` zeroes the state, so
`dpy` starts as display 0 and not as the mark `-1` that `mouse_position` tests;
an ack-credit message handled by the fresh accumulator sends a position
message for `(0, 0)` on display 0, whatever the bunch size. -/
theorem fresh_ack_sends_position (bunch : Int) :
    spice_inputs_channel_init.dpy = 0 ∧
    NO_DISPLAY = 4294967295 ∧
    (mouse_position spice_inputs_channel_init).1
      = some (InputsMsg.MOUSE_POSITION 0 0 0 0) ∧
    (inputs_handle_ack bunch spice_inputs_channel_init).2
      = [InputsMsg.MOUSE_POSITION 0 0 0 0] ∧
    (inputs_run bunch spice_inputs_channel_init [InputsEvent.ack]).2
      = [InputsMsg.MOUSE_POSITION 0 0 0 0] := by
  have h1 : (mouse_position spice_inputs_channel_init).1
      = some (InputsMsg.MOUSE_POSITION 0 0 0 0) := by decide
  have h2 : (inputs_handle_ack bunch spice_inputs_channel_init).2
      = [InputsMsg.MOUSE_POSITION 0 0 0 0] := by
    simp only [inputs_handle_ack, mouse_motion, mouse_position, spice_inputs_channel_init]
    simp only [and_self, if_true]
    rfl
  refine ⟨rfl, by decide, h1, h2, ?_⟩
  simp only [inputs_run, inputs_step, h2, List.append_nil]

/-! ## Properties: key codes on the valid scancode range -/

/-- The code `spice_inputs_key_press` puts in its message. -/
theorem key_press_ready (c : spice_inputs_channel) (s : Nat) :
    spice_inputs_key_press spice_channel_state.SPICE_CHANNEL_STATE_READY c s
      = (c, [InputsMsg.KEY_DOWN
          (if s < 0x100 then s else 0xe0 + 256 * ((s - 0x100) % 16777216))]) := by
  unfold spice_inputs_key_press
  rw [if_neg (by decide), if_neg (by decide)]
  by_cases h : s < 0x100
  · simp only [if_pos h]
  · simp only [if_neg h, extended_code_eq]

/-- On a value below `0x80` the bit `0x80` is added. -/
theorem or_0x80 (s : Nat) (h : s < 0x80) : s ||| 0x80 = s + 128 := by
  have := Nat.mul_add_lt_is_or (show s < 2 ^ 7 from h) 1
  rw [Nat.lor_comm]
  have h2 : (2 : Nat) ^ 7 * 1 = 0x80 := by norm_num
  rw [h2] at this
  omega

/-- The release code of an extended key below `0x180`. -/
theorem extended_release_code_eq (s : Nat) (h1 : 0x100 ≤ s) (h2 : s < 0x180) :
    0x80e0 ||| (((s - 0x100) <<< 8) % 4294967296) = 0x80e0 + 256 * (s - 0x100) := by
  have he : (0x80e0 : Nat) = 0x8000 ||| 0xe0 := by rfl
  rw [he, Nat.lor_assoc, extended_code_eq]
  have hm : (s - 0x100) % 16777216 = s - 0x100 := Nat.mod_eq_of_lt (by omega)
  rw [hm]
  have hlt : 0xe0 + 256 * (s - 0x100) < 2 ^ 15 := by
    have : (2 : Nat) ^ 15 = 32768 := by norm_num
    omega
  have := Nat.mul_add_lt_is_or hlt 1
  have h3 : (2 : Nat) ^ 15 * 1 = 0x8000 := by norm_num
  rw [h3] at this
  have h4 : (0x8000 : Nat) ||| 0xe0 = 0x80e0 := by rfl
  rw [← this, h4]
  omega

/-- The code `spice_inputs_key_release` puts in its message for a valid
scancode. -/
theorem key_release_ready (c : spice_inputs_channel) (s : Nat) (hs : valid_scancode s) :
    spice_inputs_key_release spice_channel_state.SPICE_CHANNEL_STATE_READY c s
      = (c, [InputsMsg.KEY_UP
          (if s < 0x100 then s + 128 else 0x80e0 + 256 * (s - 0x100))]) := by
  unfold spice_inputs_key_release
  rw [if_neg (by decide), if_neg (by decide)]
  unfold valid_scancode at hs
  by_cases h : s < 0x100
  · simp only [if_pos h]
    rw [or_0x80 s (by omega)]
  · simp only [if_neg h]
    rw [extended_release_code_eq s (by omega) (by omega)]

/-- C38: over the scancodes `1..0x7f` and `0x101..0x17f`, on a Ready channel,
two scancodes with the same key-press message are equal, two scancodes with
the same key-release message are equal, and the code of a key-press message is
never the code of a key-release message. -/
theorem key_codes_unambiguous (c : spice_inputs_channel) (s t : Nat)
    (hs : valid_scancode s) (ht : valid_scancode t) :
    (spice_inputs_key_press spice_channel_state.SPICE_CHANNEL_STATE_READY c s
        = spice_inputs_key_press spice_channel_state.SPICE_CHANNEL_STATE_READY c t → s = t) ∧
    (spice_inputs_key_release spice_channel_state.SPICE_CHANNEL_STATE_READY c s
        = spice_inputs_key_release spice_channel_state.SPICE_CHANNEL_STATE_READY c t → s = t) ∧
    (∀ down up : Nat,
      spice_inputs_key_press spice_channel_state.SPICE_CHANNEL_STATE_READY c s
        = (c, [InputsMsg.KEY_DOWN down]) →
      spice_inputs_key_release spice_channel_state.SPICE_CHANNEL_STATE_READY c t
        = (c, [InputsMsg.KEY_UP up]) → down ≠ up) := by
  have hs0 := hs
  have ht0 := ht
  unfold valid_scancode at hs0 ht0
  have hms : (s - 0x100) % 16777216 = s - 0x100 := Nat.mod_eq_of_lt (by omega)
  have hmt : (t - 0x100) % 16777216 = t - 0x100 := Nat.mod_eq_of_lt (by omega)
  refine ⟨?_, ?_, ?_⟩
  · rw [key_press_ready, key_press_ready, hms, hmt]
    intro h
    have h1 := (Prod.mk.inj h).2
    have h2 := InputsMsg.KEY_DOWN.inj (List.cons.inj h1).1
    split at h2 <;> split at h2 <;> omega
  · rw [key_release_ready c s hs, key_release_ready c t ht]
    intro h
    have h1 := (Prod.mk.inj h).2
    have h2 := InputsMsg.KEY_UP.inj (List.cons.inj h1).1
    split at h2 <;> split at h2 <;> omega
  · intro down up hd hu
    rw [key_press_ready, hms] at hd
    rw [key_release_ready c t ht] at hu
    have hd2 := InputsMsg.KEY_DOWN.inj (List.cons.inj (Prod.mk.inj hd).2).1
    have hu2 := InputsMsg.KEY_UP.inj (List.cons.inj (Prod.mk.inj hu).2).1
    split at hd2 <;> split at hu2 <;> omega

/-- C38 at the scancodes `0x60` and `0x160`: the release code `0xe0` of the
first is the lead byte of the second, and still the messages differ. -/
theorem key_codes_unambiguous_witness :
    valid_scancode 0x60 ∧ valid_scancode 0x160 ∧
    spice_inputs_key_release spice_channel_state.SPICE_CHANNEL_STATE_READY
      spice_inputs_channel_init 0x60
      = (spice_inputs_channel_init, [InputsMsg.KEY_UP 0xe0]) ∧
    spice_inputs_key_press spice_channel_state.SPICE_CHANNEL_STATE_READY
      spice_inputs_channel_init 0x160
      = (spice_inputs_channel_init, [InputsMsg.KEY_DOWN 0x60e0]) ∧
    (0x60e0 : Nat) ≠ 0xe0 :=
  ⟨by decide, by decide, by decide, by decide,
    (key_codes_unambiguous spice_inputs_channel_init 0x160 0x60 (by decide) (by decide)).2.2
      0x60e0 0xe0 (by decide) (by decide)⟩

/-! ## Properties: no relative motion is lost -/

/-- The sum over two lists of messages. -/
theorem motion_msgs_sum_append (a b : List InputsMsg) :
    motion_msgs_sum (a ++ b)
      = ((motion_msgs_sum a).1 + (motion_msgs_sum b).1,
         (motion_msgs_sum a).2 + (motion_msgs_sum b).2) := by
  induction a with
  | nil => simp [motion_msgs_sum]
  | cons m ms ih =>
    cases m with
    | MOUSE_MOTION bs dx dy =>
      show motion_msgs_sum (InputsMsg.MOUSE_MOTION bs dx dy :: (ms ++ b)) = _
      simp only [motion_msgs_sum, ih, Prod.mk.injEq]
      constructor <;> omega
    | MOUSE_POSITION bs x y d => exact ih
    | MOUSE_PRESS button bs => exact ih
    | MOUSE_RELEASE button bs => exact ih
    | KEY_DOWN code => exact ih
    | KEY_UP code => exact ih
    | KEY_MODIFIERS m => exact ih

/-- What `send_motion` sends and leaves pending adds up to what was pending. -/
theorem send_motion_sum (c : spice_inputs_channel) :
    (motion_msgs_sum (send_motion c).2).1 + (send_motion c).1.dx = c.dx ∧
    (motion_msgs_sum (send_motion c).2).2 + (send_motion c).1.dy = c.dy := by
  unfold send_motion mouse_motion
  by_cases h : c.dx = 0 ∧ c.dy = 0
  · simp only [if_pos h, motion_msgs_sum]
    omega
  · simp only [if_neg h, motion_msgs_sum]
    omega

/-- What `send_position` sends holds no motion, and the pending motion stays. -/
theorem send_position_sum (c : spice_inputs_channel) :
    motion_msgs_sum (send_position c).2 = (0, 0) ∧
    (send_position c).1.dx = c.dx ∧ (send_position c).1.dy = c.dy := by
  unfold send_position mouse_position
  by_cases h : c.dpy = NO_DISPLAY
  · simp only [if_pos h, motion_msgs_sum, and_self]
  · simp only [if_neg h, motion_msgs_sum, and_self]

/-- One event keeps the balance modulo `2 ^ 32`: messages sent plus pending
afterwards is pending before plus the arguments of the event. -/
theorem inputs_step_sum (bunch : Int) (c : spice_inputs_channel) (e : InputsEvent) :
    wrap32 ((motion_msgs_sum (inputs_step bunch c e).2).1 + (inputs_step bunch c e).1.dx)
      = wrap32 (c.dx + (motion_args_sum [e]).1) ∧
    wrap32 ((motion_msgs_sum (inputs_step bunch c e).2).2 + (inputs_step bunch c e).1.dy)
      = wrap32 (c.dy + (motion_args_sum [e]).2) := by
  unfold wrap32
  cases e with
  | motion dx dy bs =>
    have hx := wrap_int_emod (c.dx + dx)
    have hy := wrap_int_emod (c.dy + dy)
    simp only [inputs_step, spice_inputs_motion, motion_args_sum]
    rw [if_neg (by decide), if_neg (by decide)]
    split
    · have h := send_motion_sum
        { c with bs := bs, dx := wrap_int (c.dx + dx), dy := wrap_int (c.dy + dy) }
      simp only at h
      constructor <;> omega
    · simp only [motion_msgs_sum]
      constructor <;> omega
  | position x y display bs =>
    simp only [inputs_step, spice_inputs_position, motion_args_sum]
    rw [if_neg (by decide)]
    split
    · have h := send_position_sum { c with bs := bs, x := to_unsigned x, y := to_unsigned y,
                                           dpy := to_unsigned display }
      simp only at h
      rw [h.1, h.2.1, h.2.2]
      constructor <;> omega
    · simp only [motion_msgs_sum]
      constructor <;> omega
  | button_press button bs =>
    simp only [inputs_step, spice_inputs_button_press, motion_args_sum]
    rw [if_neg (by decide)]
    simp only [motion_msgs_sum]
    constructor <;> omega
  | button_release button bs =>
    simp only [inputs_step, spice_inputs_button_release, motion_args_sum]
    rw [if_neg (by decide)]
    simp only [motion_msgs_sum]
    constructor <;> omega
  | key_press s =>
    simp only [inputs_step, spice_inputs_key_press, motion_args_sum]
    rw [if_neg (by decide), if_neg (by decide)]
    simp only [motion_msgs_sum]
    constructor <;> omega
  | key_release s =>
    simp only [inputs_step, spice_inputs_key_release, motion_args_sum]
    rw [if_neg (by decide), if_neg (by decide)]
    simp only [motion_msgs_sum]
    constructor <;> omega
  | ack =>
    simp only [inputs_step, motion_args_sum]
    rw [inputs_handle_ack_cases]
    by_cases hm : c.dx = 0 ∧ c.dy = 0
    · by_cases hp : c.dpy = NO_DISPLAY
      · simp only [if_pos hm, if_pos hp, motion_msgs_sum]
        constructor <;> omega
      · simp only [if_pos hm, if_neg hp, motion_msgs_sum]
        constructor <;> omega
    · by_cases hp : c.dpy = NO_DISPLAY
      · simp only [if_neg hm, if_pos hp, motion_msgs_sum]
        constructor <;> omega
      · simp only [if_neg hm, if_neg hp, motion_msgs_sum]
        constructor <;> omega

/-- The balance modulo `2 ^ 32` over a sequence of events from any state. -/
theorem inputs_run_sum (bunch : Int) (es : List InputsEvent) (c : spice_inputs_channel) :
    wrap32 ((motion_msgs_sum (inputs_run bunch c es).2).1 + (inputs_run bunch c es).1.dx)
      = wrap32 (c.dx + (motion_args_sum es).1) ∧
    wrap32 ((motion_msgs_sum (inputs_run bunch c es).2).2 + (inputs_run bunch c es).1.dy)
      = wrap32 (c.dy + (motion_args_sum es).2) := by
  induction es generalizing c with
  | nil => simp [inputs_run, motion_msgs_sum, motion_args_sum]
  | cons e es ih =>
    have h1 := inputs_step_sum bunch c e
    have h2 := ih (inputs_step bunch c e).1
    have h3 : (motion_args_sum (e :: es)).1 = (motion_args_sum [e]).1 + (motion_args_sum es).1 ∧
        (motion_args_sum (e :: es)).2 = (motion_args_sum [e]).2 + (motion_args_sum es).2 := by
      cases e <;> simp [motion_args_sum]
    simp only [inputs_run, motion_msgs_sum_append]
    simp only [wrap32] at h1 h2 ⊢
    constructor <;> omega

/-- C37: for every bunch size and every finite sequence of calls and ack-credit
messages on a Ready channel, starting from the state of
`spice_inputs_channel_init`, the sum of the `(dx, dy)` of all motion messages
sent plus the pending `(dx, dy)` equals the sum of the `(dx, dy)` arguments of
all `spice_inputs_motion` calls modulo `2 ^ 32`, component by component, the
pending slot being an `int` that wraps around when a delta is added to it.
Sequences of motion calls and acks only are the case the claim names. -/
theorem no_motion_lost (bunch : Int) (es : List InputsEvent) :
    wrap32 ((motion_msgs_sum (inputs_run bunch spice_inputs_channel_init es).2).1
        + (inputs_run bunch spice_inputs_channel_init es).1.dx)
      = wrap32 (motion_args_sum es).1 ∧
    wrap32 ((motion_msgs_sum (inputs_run bunch spice_inputs_channel_init es).2).2
        + (inputs_run bunch spice_inputs_channel_init es).1.dy)
      = wrap32 (motion_args_sum es).2 := by
  have h := inputs_run_sum bunch es spice_inputs_channel_init
  have h0 : spice_inputs_channel_init.dx = 0 ∧ spice_inputs_channel_init.dy = 0 := ⟨rfl, rfl⟩
  rw [h0.1, h0.2, Int.zero_add, Int.zero_add] at h
  exact h

/-- C37 on `motion_ack_example` with the bunch size 1: the calls add up to
`(11, 1)`; three motion messages are sent, `(3, -1)`, `(4, 2)` and on the ack
the coalesced `(3, 7)`, followed by the position message of the zeroed position
slot, and `(1, -7)` is still pending.  On `overflow_motion_example` the calls
add up to `(2147483650, 2)`, the messages sent to `(2, 2)`, and the pending
slot has wrapped to `-2147483648`: the two sides agree modulo `2 ^ 32`. -/
theorem no_motion_lost_witness :
    motion_ack_example.all is_motion_or_ack = true ∧
    motion_args_sum motion_ack_example = (11, 1) ∧
    (inputs_run 1 spice_inputs_channel_init motion_ack_example).2
      = [InputsMsg.MOUSE_MOTION 0 3 (-1), InputsMsg.MOUSE_MOTION 1 4 2,
         InputsMsg.MOUSE_MOTION 1 3 7, InputsMsg.MOUSE_POSITION 1 0 0 0] ∧
    (inputs_run 1 spice_inputs_channel_init motion_ack_example).1.dx = 1 ∧
    (inputs_run 1 spice_inputs_channel_init motion_ack_example).1.dy = -7 ∧
    motion_args_sum overflow_motion_example = (2147483650, 2) ∧
    (inputs_run 1 spice_inputs_channel_init overflow_motion_example).2
      = [InputsMsg.MOUSE_MOTION 0 1 1, InputsMsg.MOUSE_MOTION 0 1 1] ∧
    (inputs_run 1 spice_inputs_channel_init overflow_motion_example).1.dx = -2147483648 ∧
    wrap32 ((motion_msgs_sum (inputs_run 1 spice_inputs_channel_init motion_ack_example).2).1
        + (inputs_run 1 spice_inputs_channel_init motion_ack_example).1.dx)
      = wrap32 (motion_args_sum motion_ack_example).1 ∧
    wrap32 ((motion_msgs_sum (inputs_run 1 spice_inputs_channel_init
          overflow_motion_example).2).1
        + (inputs_run 1 spice_inputs_channel_init overflow_motion_example).1.dx)
      = wrap32 (motion_args_sum overflow_motion_example).1 :=
  ⟨by decide, by decide, by decide, by decide, by decide, by decide, by decide, by decide,
    (no_motion_lost 1 motion_ack_example).1,
    (no_motion_lost 1 overflow_motion_example).1⟩

/-! ## Properties: key locks -/

/-- C35: for every locks value and every state of the accumulator,
`spice_inputs_set_key_locks` records the value in `locks` and changes nothing
else; it sends nothing when the channel is in a state other than Ready and
exactly one key-modifiers message with the value when the channel is Ready;
and `spice_inputs_channel_up` on the Ready channel sends exactly one
key-modifiers message with the recorded value, also when that value was
recorded while the channel was not Ready. -/
theorem key_locks_recorded_and_sent (state : spice_channel_state) (c : spice_inputs_channel)
    (locks : Nat) :
    spice_inputs_set_key_locks state c locks
      = ({ c with locks := locks },
          if state = spice_channel_state.SPICE_CHANNEL_STATE_READY
          then [InputsMsg.KEY_MODIFIERS locks] else []) ∧
    spice_inputs_channel_up spice_channel_state.SPICE_CHANNEL_STATE_READY c
      = some (c, [InputsMsg.KEY_MODIFIERS c.locks]) ∧
    spice_inputs_channel_up spice_channel_state.SPICE_CHANNEL_STATE_READY
        (spice_inputs_set_key_locks state c locks).1
      = some ({ c with locks := locks }, [InputsMsg.KEY_MODIFIERS locks]) := by
  have h1 : spice_inputs_set_key_locks state c locks
      = ({ c with locks := locks },
          if state = spice_channel_state.SPICE_CHANNEL_STATE_READY
          then [InputsMsg.KEY_MODIFIERS locks] else []) := by
    unfold spice_inputs_set_key_locks set_key_locks
    by_cases h : state = spice_channel_state.SPICE_CHANNEL_STATE_READY
    · simp only [h, ne_eq, not_true_eq_false, if_false, if_true]
    · simp only [h, ne_eq, not_false_eq_true, if_true, if_false]
  have h2 : ∀ d : spice_inputs_channel,
      spice_inputs_channel_up spice_channel_state.SPICE_CHANNEL_STATE_READY d
        = some (d, [InputsMsg.KEY_MODIFIERS d.locks]) := by
    intro d
    unfold spice_inputs_channel_up set_key_locks
    simp only [ne_eq, not_true_eq_false, if_false]
  refine ⟨h1, h2 c, ?_⟩
  rw [h1, h2]

/-- C35 on `locks_example`: the value 5 set while the channel is connecting is
recorded without a message and sent when the channel comes up; set on the
Ready channel it is sent at once. -/
theorem key_locks_recorded_and_sent_witness :
    spice_inputs_set_key_locks spice_channel_state.SPICE_CHANNEL_STATE_CONNECTING
        locks_example 5
      = ({ locks_example with locks := 5 }, []) ∧
    spice_inputs_set_key_locks spice_channel_state.SPICE_CHANNEL_STATE_READY
        locks_example 5
      = ({ locks_example with locks := 5 }, [InputsMsg.KEY_MODIFIERS 5]) ∧
    spice_inputs_channel_up spice_channel_state.SPICE_CHANNEL_STATE_READY
        (spice_inputs_set_key_locks spice_channel_state.SPICE_CHANNEL_STATE_CONNECTING
          locks_example 5).1
      = some ({ locks_example with locks := 5 }, [InputsMsg.KEY_MODIFIERS 5]) :=
  ⟨(key_locks_recorded_and_sent spice_channel_state.SPICE_CHANNEL_STATE_CONNECTING
      locks_example 5).1,
   (key_locks_recorded_and_sent spice_channel_state.SPICE_CHANNEL_STATE_READY
      locks_example 5).1,
   (key_locks_recorded_and_sent spice_channel_state.SPICE_CHANNEL_STATE_CONNECTING
      locks_example 5).2.2⟩

/-! ## Properties: the transparency mask and straight alpha -/

/-- C33, as stated, fails for Color16: `set_cursor` reads the mask of a Color16
cursor at `size = 4 * w * h`, the offset of the Color32 case, and not at
`2 * w * h` where the 16 bit pixels end.  In `color16_mask_example` the mask
bit of pixel 0 at offset `2 * w * h` is set, yet the pixel comes out opaque; in
`color16_mask_example_2` that bit is clear and the bit at `4 * w * h` is set,
and the pixel comes out with alpha 0. -/
theorem color16_mask_read_at_color32_offset :
    mask_offset color16_mask_example.header = 4 * 1 * 1 ∧
    msb_bit color16_mask_example.data (2 * 1 * 1) 0 = true ∧
    msb_bit color16_mask_example.data (4 * 1 * 1) 0 = false ∧
    (set_cursor spice_cursor_channel_init color16_mask_example (fun _ => 0)).1
      = some { hdr := color16_mask_example.header, default_cursor := false,
               data := [8, 0, 0, 0xff] } ∧
    msb_bit color16_mask_example_2.data (2 * 1 * 1) 0 = false ∧
    msb_bit color16_mask_example_2.data (4 * 1 * 1) 0 = true ∧
    (set_cursor spice_cursor_channel_init color16_mask_example_2 (fun _ => 0)).1
      = some { hdr := color16_mask_example.header, default_cursor := false,
               data := [8, 0, 0, 0] } := by
  refine ⟨by decide, by decide, by decide, by decide, by decide, by decide, by decide⟩

/-- The offsets of the Color32 and Color4 cases in the words of C33:
`4 * w * h`, and `ceil(w / 2) * h + 64`. -/
theorem mask_offset_color32_color4 (hdr : SpiceCursorHeader) :
    (hdr.type = SPICE_CURSOR_TYPE_COLOR32 → mask_offset hdr = 4 * hdr.width * hdr.height) ∧
    (hdr.type = SPICE_CURSOR_TYPE_COLOR4 →
      mask_offset hdr = (hdr.width + 1) / 2 * hdr.height + 64) := by
  constructor
  · intro h
    simp only [mask_offset, h, SPICE_CURSOR_TYPE_COLOR32, SPICE_CURSOR_TYPE_COLOR4]
    rfl
  · intro h
    simp only [mask_offset, h, if_true, SPICE_ALIGN]
    have h64 : 4 <<< 4 = 64 := by decide
    have ha : (hdr.width + (2 - 1) - (hdr.width + (2 - 1)) % 2) / 2 = (hdr.width + 1) / 2 := by
      omega
    rw [h64, ha]

/-- The alpha byte of a value with `0xff000000` OR-ed in. -/
theorem alpha_or (v : Nat) : (v ||| 0xff000000) / 16777216 % 256 = 255 := by
  have h1 : (v ||| 0xff000000) / 16777216 % 256
      = ((v ||| 0xff000000) >>> 24) &&& (2 ^ 8 - 1) := by
    rw [Nat.shiftRight_eq_div_pow, Nat.and_pow_two_sub_one_eq_mod]
  have h255 : (255 : Nat) = 2 ^ 8 - 1 := by norm_num
  have hff : (0xff000000 : Nat) = (2 ^ 8 - 1) <<< 24 := by decide
  rw [h1, h255, hff]
  apply Nat.eq_of_testBit_eq
  intro j
  simp only [Nat.testBit_and, Nat.testBit_shiftRight, Nat.testBit_or, Nat.testBit_shiftLeft,
    Nat.testBit_two_pow_sub_one]
  by_cases hj : j < 8 <;> simp [hj]

/-- The word a cell of `memcpy`-ed payload holds. -/
theorem load32_memcpy (dst src : List Nat) (n i : Nat) (hi : 4 * i + 3 < n) :
    load32 (memcpy dst src n) 0 i = load32 src 0 i := by
  simp only [load32, byteAt_memcpy dst src n _ (show 0 + 4 * i < n by omega),
    byteAt_memcpy dst src n _ (show 0 + 4 * i + 1 < n by omega),
    byteAt_memcpy dst src n _ (show 0 + 4 * i + 2 < n by omega),
    byteAt_memcpy dst src n _ (show 0 + 4 * i + 3 < n by omega)]

theorem color4_cursor_cell (hdr : SpiceCursorHeader) (buf data : List Nat) (i : Nat)
    (hi : i < hdr.width * hdr.height) (hlen : 4 * (hdr.width * hdr.height) ≤ buf.length) :
    cell (color4_cursor hdr buf data) i = word_bytes (color4_value hdr data i) ∧
    (color4_cursor hdr buf data).length = buf.length := by
  have h := cell_loop_spec
    (fun i buf =>
      let pix_mask := get_pix_mask data ((SPICE_ALIGN hdr.width 2 / 2) * hdr.height + (4 <<< 4)) i
      let idx :=
        if i &&& 1 ≠ 0 then byteAt data (i >>> 1) &&& 0x0f
        else (byteAt data (i >>> 1) &&& 0xf0) >>> 4
      let pix := load32 data ((SPICE_ALIGN hdr.width 2 / 2) * hdr.height) idx
      if pix_mask ≠ 0 ∧ pix = 0xffffff then
        store32 buf i (get_pix_hack i hdr.width)
      else
        store32 buf i (pix ||| (if pix_mask ≠ 0 then 0 else 0xff000000)))
    (fun i _ => color4_value hdr data i)
    (by intro i b; simp only [color4_value]; split_ifs <;> rfl)
    (by intro i b b2 _; rfl)
    buf (hdr.width * hdr.height) (hdr.width * hdr.height) (Nat.le_refl _) hlen
  exact ⟨h.2.1 i hi, h.1⟩

theorem set_cursor_color4 (c : spice_cursor_channel) (scursor : SpiceCursor)
    (heap : Nat → Nat)
    (hnone : scursor.flags &&& SPICE_CURSOR_FLAGS_NONE = 0)
    (hcache : scursor.flags &&& SPICE_CURSOR_FLAGS_FROM_CACHE = 0)
    (hsize : scursor.data_size ≠ 0)
    (htype : scursor.header.type = SPICE_CURSOR_TYPE_COLOR4) :
    (set_cursor c scursor heap).1 = some
      { hdr := scursor.header, default_cursor := false,
        data := swap_red_blue (scursor.header.width * scursor.header.height)
          (color4_cursor scursor.header
            (spice_malloc heap (4 * scursor.header.width * scursor.header.height))
            scursor.data) } := by
  unfold set_cursor
  simp only [hnone, hcache, hsize, htype, ne_eq, not_true_eq_false, if_false, if_true,
    SPICE_CURSOR_TYPE_COLOR16, SPICE_CURSOR_TYPE_MONO, SPICE_CURSOR_TYPE_ALPHA,
    SPICE_CURSOR_TYPE_COLOR32, SPICE_CURSOR_TYPE_COLOR4]
  split <;> rfl

/-- The decoded cell `i` of a Color4 cursor, after the red/blue swap. -/
theorem color4_decoded_cell (hdr : SpiceCursorHeader) (data : List Nat) (heap : Nat → Nat)
    (i : Nat) (hi : i < hdr.width * hdr.height) :
    cell (swap_red_blue (hdr.width * hdr.height)
        (color4_cursor hdr (spice_malloc heap (4 * hdr.width * hdr.height)) data)) i
      = swap_cell (word_bytes (color4_value hdr data i)) := by
  have hfresh : (spice_malloc heap (4 * hdr.width * hdr.height)).length
      = 4 * (hdr.width * hdr.height) := by
    rw [spice_malloc_length, Nat.mul_assoc]
  obtain ⟨hc, hl⟩ := color4_cursor_cell hdr (spice_malloc heap (4 * hdr.width * hdr.height))
    data i hi (by omega)
  rw [swap_red_blue_cell _ _ _ hi (by omega), hc]

/-- The mask test of `set_cursor` fails exactly when the mask bit is clear. -/
theorem get_pix_mask_eq_zero (data : List Nat) (offset i : Nat) :
    get_pix_mask data offset i = 0 ↔ msb_bit data offset i = false := by
  have h := get_pix_mask_ne_zero data offset i
  constructor
  · intro h0
    cases hb : msb_bit data offset i
    · rfl
    · exact absurd h0 (h.2 hb)
  · intro hb
    by_contra h0
    rw [h.1 h0] at hb
    exact Bool.noConfusion hb

/-- C34, as stated, fails for Color16, by the defect of C33: the mask of a
Color16 cursor is read at `4 * w * h` and not after the colour data at
`2 * w * h`.  In the 2 x 1 `color16_alpha_example` the mask byte at offset
`2 * w * h = 4` is zero, so both pixels have their transparency-mask bit
clear, and the byte at offset `4 * w * h = 8` is `0xc0`: both output cells
come out with the alpha byte `0x00`, not `0xff`. -/
theorem color16_clear_mask_alpha_zero :
    color16_alpha_example.header.type = SPICE_CURSOR_TYPE_COLOR16 ∧
    color16_alpha_example.data.length = 9 ∧
    msb_bit color16_alpha_example.data (2 * 2 * 1) 0 = false ∧
    msb_bit color16_alpha_example.data (2 * 2 * 1) 1 = false ∧
    get_pix_mask color16_alpha_example.data (4 * 2 * 1) 0 ≠ 0 ∧
    get_pix_mask color16_alpha_example.data (4 * 2 * 1) 1 ≠ 0 ∧
    (set_cursor spice_cursor_channel_init color16_alpha_example (fun _ => 0)).1
      = some { hdr := color16_alpha_example.header, default_cursor := false,
               data := [8, 0, 0, 0, 0, 0, 0xf8, 0] } := by
  refine ⟨by decide, by decide, by decide, by decide, by decide, by decide, by decide⟩

/-- The part of C34 that holds: for a Color32 or Color4 cursor that `set_cursor`
decodes, of a size within the `int` range, and a pixel `i` whose mask byte
(after the colour data, where `set_cursor` reads it for these two types) lies
inside the payload: if the mask bit is clear, byte 3 of the output cell is
`0xff`; and for Color32, if the pixel is not replaced by the checkerboard, the
output cell is the raw 32 bit value of the payload with `0xff000000` OR-ed in
exactly when the bit is clear, its bytes 0 and 2 exchanged. -/
theorem straight_alpha_color32_color4 (c : spice_cursor_channel) (scursor : SpiceCursor)
    (heap : Nat → Nat) (i : Nat)
    (hnone : scursor.flags &&& SPICE_CURSOR_FLAGS_NONE = 0)
    (hcache : scursor.flags &&& SPICE_CURSOR_FLAGS_FROM_CACHE = 0)
    (hsize : scursor.data_size ≠ 0)
    (htype : scursor.header.type = SPICE_CURSOR_TYPE_COLOR32 ∨
      scursor.header.type = SPICE_CURSOR_TYPE_COLOR4)
    (hi : i < scursor.header.width * scursor.header.height)
    (hrange : size_in_int_range scursor.header)
    (hin : mask_offset scursor.header + i / 8 < scursor.data.length) :
    ∃ cursor : display_cursor,
      (set_cursor c scursor heap).1 = some cursor ∧
      (msb_bit scursor.data (mask_offset scursor.header) i = false →
        byteAt cursor.data (4 * i + 3) = 0xff) ∧
      (scursor.header.type = SPICE_CURSOR_TYPE_COLOR32 →
        ¬ (msb_bit scursor.data (mask_offset scursor.header) i = true ∧
            load32 scursor.data 0 i = 0xffffff) →
        cell cursor.data i
          = swap_cell (word_bytes (load32 scursor.data 0 i |||
              (if msb_bit scursor.data (mask_offset scursor.header) i = true then 0
               else 0xff000000)))) := by
  rcases htype with h32 | h4
  · have hoff : mask_offset scursor.header = 4 * scursor.header.width * scursor.header.height := by
      simp only [mask_offset, h32, SPICE_CURSOR_TYPE_COLOR32, SPICE_CURSOR_TYPE_COLOR4]
      rfl
    have hcell := color32_decoded_cell scursor.header scursor.data heap i hi
    have hraw : load32 (memcpy (spice_malloc heap (4 * scursor.header.width * scursor.header.height))
        scursor.data (4 * scursor.header.width * scursor.header.height)) 0 i
        = load32 scursor.data 0 i := by
      apply load32_memcpy
      have : 4 * scursor.header.width * scursor.header.height
          = 4 * (scursor.header.width * scursor.header.height) := Nat.mul_assoc _ _ _
      omega
    refine ⟨_, set_cursor_color32 c scursor heap hnone hcache hsize h32, ?_, ?_⟩
    · intro hbit
      rw [hoff] at hbit
      have h0 := (get_pix_mask_eq_zero _ _ _).2 hbit
      have h3 := congrArg (fun q => q.2.2.2) hcell
      simp only [cell, quad] at h3
      show byteAt _ (4 * i + 3) = 0xff
      rw [h3]
      simp only [color32_value, h0, ne_eq, not_true_eq_false, false_and, if_false, swap_cell,
        word_bytes]
      exact alpha_or _
    · intro _ hnot
      rw [hoff] at hnot ⊢
      show cell _ i = _
      rw [hcell]
      congr 2
      simp only [color32_value, hraw, get_pix_mask_ne_zero]
      rw [if_neg hnot]
  · have hoff : mask_offset scursor.header
        = (SPICE_ALIGN scursor.header.width 2 / 2) * scursor.header.height + (4 <<< 4) := by
      simp only [mask_offset, h4, if_true]
    have hcell := color4_decoded_cell scursor.header scursor.data heap i hi
    refine ⟨_, set_cursor_color4 c scursor heap hnone hcache hsize h4, ?_, ?_⟩
    · intro hbit
      rw [hoff] at hbit
      have h0 := (get_pix_mask_eq_zero _ _ _).2 hbit
      have h3 := congrArg (fun q => q.2.2.2) hcell
      simp only [cell, quad] at h3
      show byteAt _ (4 * i + 3) = 0xff
      rw [h3]
      simp only [color4_value, h0, ne_eq, not_true_eq_false, false_and, if_false, swap_cell,
        word_bytes]
      exact alpha_or _
    · intro h32
      rw [h4] at h32
      exact absurd h32 (by decide)

/-! ## Properties: draining the cursor cache -/

/-- In a list without repetition, erasing the last element drops it. -/
theorem erase_last (l : List display_cache_item) (a : display_cache_item)
    (hnd : (l ++ [a]).Nodup) : (l ++ [a]).erase a = l := by
  have hnot : a ∉ l := by
    intro hmem
    have := List.nodup_append.1 hnd
    exact this.2.2 hmem (List.mem_singleton_self a)
  rw [List.erase_append_right _ hnot]
  simp

/-- The loop of `delete_cursor_all` is one turn followed by the loop again; it
is left when the turn finds nothing. -/
theorem delete_cursor_all_turn (c : spice_cursor_channel) :
    delete_cursor_all c
      = match delete_cursor_turn c with
        | none => c
        | some c1 => delete_cursor_all c1 := by
  rw [delete_cursor_all]
  unfold delete_cursor_turn
  split <;> rename_i h <;> simp only [h]

/-- Distinct keys make distinct entries. -/
theorem distinct_keys_nodup (l : display_cache) (hd : distinct_keys l) : l.Nodup :=
  List.Nodup.of_map _ hd

theorem distinct_keys_append (l1 l2 : display_cache) (hd : distinct_keys (l1 ++ l2)) :
    distinct_keys l1 ∧ distinct_keys l2 ∧
    ∀ a ∈ l1, ∀ b ∈ l2, a.id ≠ b.id := by
  unfold distinct_keys at hd ⊢
  rw [List.map_append, List.nodup_append] at hd
  refine ⟨hd.1, hd.2.1, ?_⟩
  intro a ha b hb heq
  exact hd.2.2 (List.mem_map_of_mem _ ha) (heq ▸ List.mem_map_of_mem _ hb)

/-- A turn on a cache whose oldest entry is `a` removes that entry. -/
theorem delete_cursor_turn_concat (c : spice_cursor_channel) (l : display_cache)
    (a : display_cache_item) (hc : c.cursors = l ++ [a]) (hd : distinct_keys c.cursors) :
    delete_cursor_turn c = some { c with cursors := l } := by
  unfold delete_cursor_turn cache_get_lru
  rw [hc, List.getLast?_concat]
  simp only [delete_cursor_one, cache_del]
  rw [hc, erase_last l a (hc ▸ distinct_keys_nodup _ hd)]

/-- A turn on the empty cache leaves the loop. -/
theorem delete_cursor_turn_nil (c : spice_cursor_channel) (hc : c.cursors = []) :
    delete_cursor_turn c = none := by
  unfold delete_cursor_turn cache_get_lru
  rw [hc]
  rfl

/-- A list is empty or ends in a last element. -/
theorem nil_or_concat (l : display_cache) : l = [] ∨ ∃ l1 a, l = l1 ++ [a] := by
  rcases List.eq_nil_or_concat l with h | ⟨l1, a, h⟩
  · exact Or.inl h
  · exact Or.inr ⟨l1, a, by rw [h, List.concat_eq_append]⟩

/-- After `j` turns the `j` oldest entries are gone. -/
theorem delete_cursor_turns_take (j : Nat) (c : spice_cursor_channel)
    (hd : distinct_keys c.cursors) (hj : j ≤ c.cursors.length) :
    delete_cursor_turns j c
      = some { c with cursors := c.cursors.take (c.cursors.length - j) } := by
  induction j generalizing c with
  | zero =>
    simp only [delete_cursor_turns, Nat.sub_zero, List.take_length]
  | succ j ih =>
    rcases nil_or_concat c.cursors with h | ⟨l, a, h⟩
    · rw [h] at hj
      exact absurd hj (by simp)
    · have hl : c.cursors.length = l.length + 1 := by rw [h]; simp
      have hdl : distinct_keys l := (distinct_keys_append l [a] (h ▸ hd)).1
      simp only [delete_cursor_turns, delete_cursor_turn_concat c l a h hd]
      rw [ih { c with cursors := l } hdl (by show j ≤ l.length; omega)]
      have ht : (l ++ [a]).take (l.length + 1 - (j + 1)) = l.take (l.length - j) := by
        rw [List.take_append_of_le_length (by omega)]
        congr 1
        omega
      rw [hl, h, ht]

/-- One turn more than there are entries leaves the loop. -/
theorem delete_cursor_turns_stop (n : Nat) (c : spice_cursor_channel)
    (hd : distinct_keys c.cursors) (hn : c.cursors.length = n) :
    delete_cursor_turns (n + 1) c = none := by
  induction n generalizing c with
  | zero =>
    have h0 : c.cursors = [] := List.eq_nil_of_length_eq_zero hn
    simp only [delete_cursor_turns, delete_cursor_turn_nil c h0]
  | succ n ih =>
    rcases nil_or_concat c.cursors with h | ⟨l, a, h⟩
    · rw [h] at hn
      exact absurd hn (by simp)
    · have hl : l.length = n := by
        rw [h] at hn
        simp at hn
        exact hn
      have hdl : distinct_keys l := (distinct_keys_append l [a] (h ▸ hd)).1
      rw [delete_cursor_turns]
      simp only [delete_cursor_turn_concat c l a h hd]
      exact ih { c with cursors := l } hdl hl

/-- In a cache with distinct keys the key of an entry finds that entry. -/
theorem cache_find_mem (l : display_cache) (hd : distinct_keys l) (item : display_cache_item)
    (hm : item ∈ l) : cache_find l item.id = some item := by
  induction l with
  | nil => exact absurd hm (List.not_mem_nil _)
  | cons b l ih =>
    have hsplit := distinct_keys_append [b] l hd
    unfold cache_find
    rcases List.mem_cons.1 hm with hb | hl
    · subst hb
      simp [List.find?]
    · have hne : b.id ≠ item.id := hsplit.2.2 b (List.mem_singleton_self b) item hl
      have hfalse : (b.id == item.id) = false := by simp [hne]
      rw [List.find?_cons, hfalse]
      exact ih hsplit.2.1 hl

/-- A key that no entry of the cache has is not found. -/
theorem cache_find_not_mem (l : display_cache) (id : Nat) (hno : ∀ a ∈ l, a.id ≠ id) :
    cache_find l id = none := by
  unfold cache_find
  rw [List.find?_eq_none]
  intro a ha
  simp [hno a ha]

/-- C31: for every cursor channel whose cache holds `n` entries with distinct
keys, the loop of `delete_cursor_all` (a turn is `cache_get_lru` followed by
`delete_cursor_one` on the entry found) makes exactly `n` turns: each of the
first `n` turns finds an entry and deletes it, the turn after them finds
nothing; after `j` turns the `j` oldest entries are gone, the key of each of
them is no longer found and the key of every remaining entry still finds that
entry; the state after the `n` turns is the result of `delete_cursor_all`, in
which `cache_get_lru` returns nothing and no key of the former cache is
found. -/
theorem full_drain (c : spice_cursor_channel) (hd : distinct_keys c.cursors) :
    (∀ j, j ≤ c.cursors.length →
      ∃ cj : spice_cursor_channel,
        delete_cursor_turns j c = some cj ∧
        cj.cursors.length = c.cursors.length - j ∧
        cj.cursors = c.cursors.take (c.cursors.length - j) ∧
        (∀ item ∈ c.cursors.drop (c.cursors.length - j),
          cache_find cj.cursors item.id = none) ∧
        (∀ item ∈ c.cursors.take (c.cursors.length - j),
          cache_find cj.cursors item.id = some item)) ∧
    delete_cursor_turns c.cursors.length c = some (delete_cursor_all c) ∧
    delete_cursor_turns (c.cursors.length + 1) c = none ∧
    cache_get_lru (delete_cursor_all c).cursors = none ∧
    (∀ item ∈ c.cursors, cache_find (delete_cursor_all c).cursors item.id = none) := by
  refine ⟨?_, ?_, delete_cursor_turns_stop _ c hd rfl, ?_, ?_⟩
  · intro j hj
    have hsplit : c.cursors
        = c.cursors.take (c.cursors.length - j) ++ c.cursors.drop (c.cursors.length - j) :=
      (List.take_append_drop _ _).symm
    have hd2 := distinct_keys_append (c.cursors.take (c.cursors.length - j))
      (c.cursors.drop (c.cursors.length - j)) (hsplit ▸ hd)
    refine ⟨_, delete_cursor_turns_take j c hd hj, ?_, rfl, ?_, ?_⟩
    · show (c.cursors.take (c.cursors.length - j)).length = _
      rw [List.length_take]
      omega
    · intro item hm
      exact cache_find_not_mem _ _ (fun a ha => hd2.2.2 a ha item hm)
    · intro item hm
      exact cache_find_mem _ hd2.1 item hm
  · rw [delete_cursor_turns_take _ c hd (Nat.le_refl _), delete_cursor_all_eq]
    simp only [Nat.sub_self, List.take_zero]
  · rw [delete_cursor_all_eq]
    rfl
  · intro item _
    rw [delete_cursor_all_eq]
    rfl

/-- C31 on `three_cursors_channel`, keys 5, 9 and 2 in the order they were
added: key 5 goes in the first turn and is no longer found while 9 and 2 are;
three turns empty the cache and there is no fourth. -/
theorem full_drain_witness :
    distinct_keys three_cursors_channel.cursors ∧
    three_cursors_channel.cursors.length = 3 ∧
    (∃ c1 : spice_cursor_channel,
      delete_cursor_turns 1 three_cursors_channel = some c1 ∧
      cache_find c1.cursors 5 = none ∧
      (cache_find c1.cursors 9).isSome = true ∧
      (cache_find c1.cursors 2).isSome = true) ∧
    delete_cursor_turns 3 three_cursors_channel
      = some (delete_cursor_all three_cursors_channel) ∧
    delete_cursor_turns 4 three_cursors_channel = none ∧
    cache_get_lru (delete_cursor_all three_cursors_channel).cursors = none :=
  ⟨by decide, by decide, ⟨_, rfl, by decide, by decide, by decide⟩,
    (full_drain three_cursors_channel (by decide)).2.1,
    (full_drain three_cursors_channel (by decide)).2.2.1,
    (full_drain three_cursors_channel (by decide)).2.2.2.1⟩

end SpiceClient
